import Mathlib

/-!
# liblcd: a shallow embedding of the LCD control functions

The embedding follows `liblcd.c` / `liblcd.h`.

* A C `char` is the natural number of its byte (`' '` is 32, `'0'` is 48, `'A'` is 65).
  Every comparison of `display_char` is against a constant in `32..90`, so a byte
  above 127 takes the same branch whether `char` is signed or unsigned.
* `LCDMEM` and `LCDBMEM` are byte arrays indexed by position: total functions
  `Nat → Nat`.  Every store keeps the low 8 bits of the stored value (`% 256`).
* A C string is the list of its characters before the terminating NUL, so
  `strlen` is `List.length`.
* `__delay_cycles` has no effect on the registers; it is recorded in a log together
  with the display state that is visible while it runs.
* `malloc` in `scroll_text` is taken to succeed, and lengths are natural numbers: the
  `int` arithmetic `len + 12` is taken not to overflow.
* The `int` argument of `display_num` is a mathematical integer; `/` and `%` are C's
  truncating division and remainder (`Int.tdiv`, `Int.tmod`).
-/

namespace LibLcd

/-! ## Constants of `liblcd.h` -/

def LCD_A1 : Nat := 9
def LCD_A2 : Nat := 5
def LCD_A3 : Nat := 3
def LCD_A4 : Nat := 18
def LCD_A5 : Nat := 14
def LCD_A6 : Nat := 7
def LCD_AT1 : Nat := 2
def LCD_AT2 : Nat := 17
def LCD_AT3 : Nat := 13

def NONE_SYM : Nat := 0x0
def NEG_SYM : Nat := 0x1
def COLON1_SYM : Nat := 0x2
def COLON2_SYM : Nat := 0x3
def DP1_SYM : Nat := 0x4
def DP2_SYM : Nat := 0x5
def DP3_SYM : Nat := 0x6
def DP4_SYM : Nat := 0x7
def DP5_SYM : Nat := 0x8
def ANT_SYM : Nat := 0x9
def DEG_SYM : Nat := 0xA
def TX_SYM : Nat := 0xB
def RX_SYM : Nat := 0xC
def EXCL_SYM : Nat := 0xD
def REC_SYM : Nat := 0xE
def HRT_SYM : Nat := 0xF
def TMR_SYM : Nat := 0x10
def BRKT_SYM : Nat := 0x11
def B1_SYM : Nat := 0x12
def B3_SYM : Nat := 0x13
def B5_SYM : Nat := 0x14
def BATT_SYM : Nat := 0x15
def B2_SYM : Nat := 0x16
def B4_SYM : Nat := 0x17
def B6_SYM : Nat := 0x18

/-! ## Constant tables of `liblcd.c` -/

def digits : List Nat :=
  [0xFC28, 0x6020, 0xDB00, 0xF300, 0x6700, 0xB700, 0xBF00, 0xE400, 0xFF00, 0xF700]

def capletters : List Nat :=
  [0xEF00, 0xF150, 0x9C00, 0xF050, 0x9F00, 0x8F00, 0xBD00, 0x6F00, 0x9050, 0x7800,
   0x0E22, 0x1C00, 0x6CA0, 0x6C82, 0xFC00, 0xCF00, 0xFC02, 0xCF02, 0xB700, 0x8050,
   0x7C00, 0x0C28, 0x6C0A, 0x00AA, 0x00B0, 0x9028]

def dec_pt : Nat := 0x01
def colon : Nat := 0x04
def tx_sym : Nat := 0x04
def rx_sym : Nat := 0x01
def deg_sym : Nat := 0x04
def antenna : Nat := 0x04
def neg_sym : Nat := 0x04
def excl_sym : Nat := 0x01
def rec_sym : Nat := 0x02
def hrt_sym : Nat := 0x04
def tmr_sym : Nat := 0x08
def brackets : Nat := 0x10
def b1_sym : Nat := 0x20
def b3_sym : Nat := 0x40
def b5_sym : Nat := 0x80
def batt_sym : Nat := 0x10
def b2_sym : Nat := 0x20
def b4_sym : Nat := 0x40
def b6_sym : Nat := 0x80

/-! ## Peripheral state -/

/-- The LCD_C peripheral as the library sees it: primary display memory `LCDMEM`,
blink (shadow) memory `LCDBMEM`, and the control registers written by `init_lcd`,
`lcd_on` and `lcd_off`. -/
@[ext]
structure LcdState where
  LCDMEM : Nat → Nat
  LCDBMEM : Nat → Nat
  LCDCCTL0 : Nat
  LCDCPCTL0 : Nat
  LCDCPCTL1 : Nat
  LCDCPCTL2 : Nat
  LCDCVCTL : Nat
  LCDCCPCTL : Nat
  LCDCMEMCTL : Nat

/-- Byte store `mem[p] = v` into a `char` array: the low 8 bits of `v` are kept. -/
def store (mem : Nat → Nat) (p v : Nat) : Nat → Nat :=
  fun q => if q = p then v % 256 else mem q

/-- Assignment `LCDMEM[p] = v`. -/
def setMem (st : LcdState) (p v : Nat) : LcdState :=
  { st with LCDMEM := store st.LCDMEM p v }

/-- Assignment `LCDBMEM[p] = v`. -/
def setBMem (st : LcdState) (p v : Nat) : LcdState :=
  { st with LCDBMEM := store st.LCDBMEM p v }

/-- A state with all memory and registers zero. -/
def zeroState : LcdState :=
  { LCDMEM := fun _ => 0, LCDBMEM := fun _ => 0, LCDCCTL0 := 0, LCDCPCTL0 := 0,
    LCDCPCTL1 := 0, LCDCPCTL2 := 0, LCDCVCTL := 0, LCDCCPCTL := 0, LCDCMEMCTL := 0 }

/-- A state whose primary and shadow bytes are all `0xFF`. -/
def onesState : LcdState :=
  { zeroState with LCDMEM := fun _ => 0xFF, LCDBMEM := fun _ => 0xFF }

/-! ## `display_char` -/

/-- The 16-bit word `symb_val` that `display_char` selects for `symbol`. -/
def symb_val (symbol : Nat) : Nat :=
  if symbol = 32 then 0
  else if 48 ≤ symbol ∧ symbol ≤ 57 then digits.getD (symbol - 48) 0
  else if 65 ≤ symbol ∧ symbol ≤ 90 then capletters.getD (symbol - 65) 0
  else 0xFFFF

/-- `void display_char(char symbol, int position)`. -/
def display_char (symbol position : Nat) (st : LcdState) : LcdState :=
  let st1 := setMem st position (symb_val symbol >>> 8)
  setMem st1 (position + 1) (symb_val symbol &&& 0xFF)

/-- The memory positions of the six character cells A1..A6, in logical order. -/
def primaryCells : List Nat := [LCD_A1, LCD_A2, LCD_A3, LCD_A4, LCD_A5, LCD_A6]

/-- Read-back of the two primary bytes of the cell at position `p`. -/
def cellBytes (st : LcdState) (p : Nat) : Nat × Nat :=
  (st.LCDMEM p, st.LCDMEM (p + 1))

/-- The two bytes a glyph word splits into: high byte, low byte. -/
def glyphBytes (w : Nat) : Nat × Nat := (w >>> 8, w &&& 0xFF)

/-- Characters with a glyph: space, `'0'..'9'`, `'A'..'Z'`. -/
def supported (c : Nat) : Prop := c = 32 ∨ (48 ≤ c ∧ c ≤ 57) ∨ (65 ≤ c ∧ c ≤ 90)

instance (c : Nat) : Decidable (supported c) := by
  unfold supported; infer_instance

/-! ## `display_symbol` and `clear_symbol` -/

/-- Compound assignment `LCDMEM[p] |= mask`. -/
def orMem (st : LcdState) (p mask : Nat) : LcdState :=
  setMem st p (st.LCDMEM p ||| mask)

/-- Compound assignment `LCDMEM[p] &= ~mask`, with `~` taken on the 16-bit constant. -/
def andNotMem (st : LcdState) (p mask : Nat) : LcdState :=
  setMem st p (st.LCDMEM p &&& (0xFFFF ^^^ mask))

/-- `void display_symbol(uint8_t sym)`: the `switch` over the symbol list. -/
def display_symbol (sym : Nat) (st : LcdState) : LcdState :=
  if sym = NEG_SYM then orMem st (LCD_A1 + 1) neg_sym
  else if sym = COLON1_SYM then orMem st (LCD_A2 + 1) colon
  else if sym = COLON2_SYM then orMem st (LCD_A4 + 1) colon
  else if sym = DP1_SYM then orMem st (LCD_A2 + 1) dec_pt
  else if sym = DP2_SYM then orMem st (LCD_A3 + 1) dec_pt
  else if sym = DP3_SYM then orMem st (LCD_A3 + 1) dec_pt
  else if sym = DP4_SYM then orMem st (LCD_A4 + 1) dec_pt
  else if sym = DP5_SYM then orMem st (LCD_A5 + 1) dec_pt
  else if sym = ANT_SYM then orMem st (LCD_A3 + 1) antenna
  else if sym = DEG_SYM then orMem st (LCD_A5 + 1) deg_sym
  else if sym = TX_SYM then orMem st (LCD_A6 + 1) tx_sym
  else if sym = RX_SYM then orMem st (LCD_A6 + 1) rx_sym
  else if sym = EXCL_SYM then orMem st LCD_AT1 excl_sym
  else if sym = REC_SYM then orMem st LCD_AT1 rec_sym
  else if sym = HRT_SYM then orMem st LCD_AT1 hrt_sym
  else if sym = TMR_SYM then orMem st LCD_AT1 tmr_sym
  else if sym = BRKT_SYM then orMem st LCD_AT2 brackets
  else if sym = B1_SYM then orMem st LCD_AT2 b1_sym
  else if sym = B3_SYM then orMem st LCD_AT2 b3_sym
  else if sym = B5_SYM then orMem st LCD_AT2 b5_sym
  else if sym = BATT_SYM then orMem st LCD_AT3 batt_sym
  else if sym = B2_SYM then orMem st LCD_AT3 b2_sym
  else if sym = B4_SYM then orMem st LCD_AT3 b4_sym
  else if sym = B6_SYM then orMem st LCD_AT3 b6_sym
  else st

/-- `void clear_symbol(uint8_t sym)`: the `switch` over the symbol list. -/
def clear_symbol (sym : Nat) (st : LcdState) : LcdState :=
  if sym = NEG_SYM then andNotMem st (LCD_A1 + 1) neg_sym
  else if sym = COLON1_SYM then andNotMem st (LCD_A2 + 1) colon
  else if sym = COLON2_SYM then andNotMem st (LCD_A4 + 1) colon
  else if sym = DP1_SYM then andNotMem st (LCD_A2 + 1) dec_pt
  else if sym = DP2_SYM then andNotMem st (LCD_A3 + 1) dec_pt
  else if sym = DP3_SYM then andNotMem st (LCD_A3 + 1) dec_pt
  else if sym = DP4_SYM then andNotMem st (LCD_A4 + 1) dec_pt
  else if sym = DP5_SYM then andNotMem st (LCD_A5 + 1) dec_pt
  else if sym = ANT_SYM then andNotMem st (LCD_A3 + 1) antenna
  else if sym = DEG_SYM then andNotMem st (LCD_A5 + 1) deg_sym
  else if sym = TX_SYM then andNotMem st (LCD_A6 + 1) tx_sym
  else if sym = RX_SYM then andNotMem st (LCD_A6 + 1) rx_sym
  else if sym = EXCL_SYM then andNotMem st LCD_AT1 excl_sym
  else if sym = REC_SYM then andNotMem st LCD_AT1 rec_sym
  else if sym = HRT_SYM then andNotMem st LCD_AT1 hrt_sym
  else if sym = TMR_SYM then andNotMem st LCD_AT1 tmr_sym
  else if sym = BRKT_SYM then andNotMem st LCD_AT2 brackets
  else if sym = B1_SYM then andNotMem st LCD_AT2 b1_sym
  else if sym = B3_SYM then andNotMem st LCD_AT2 b3_sym
  else if sym = B5_SYM then andNotMem st LCD_AT2 b5_sym
  else if sym = BATT_SYM then andNotMem st LCD_AT3 batt_sym
  else if sym = B2_SYM then andNotMem st LCD_AT3 b2_sym
  else if sym = B4_SYM then andNotMem st LCD_AT3 b4_sym
  else if sym = B6_SYM then andNotMem st LCD_AT3 b6_sym
  else st

/-- The position of the primary byte that the `switch` of `display_symbol` and of
`clear_symbol` addresses for the identifiers `0x01..0x18`, in identifier order. -/
def symbolPos : List Nat :=
  [LCD_A1 + 1, LCD_A2 + 1, LCD_A4 + 1, LCD_A2 + 1, LCD_A3 + 1, LCD_A3 + 1, LCD_A4 + 1,
   LCD_A5 + 1, LCD_A3 + 1, LCD_A5 + 1, LCD_A6 + 1, LCD_A6 + 1, LCD_AT1, LCD_AT1, LCD_AT1,
   LCD_AT1, LCD_AT2, LCD_AT2, LCD_AT2, LCD_AT2, LCD_AT3, LCD_AT3, LCD_AT3, LCD_AT3]

/-- The mask constant used for the identifiers `0x01..0x18`, in identifier order. -/
def symbolMask : List Nat :=
  [neg_sym, colon, colon, dec_pt, dec_pt, dec_pt, dec_pt, dec_pt, antenna, deg_sym,
   tx_sym, rx_sym, excl_sym, rec_sym, hrt_sym, tmr_sym, brackets, b1_sym, b3_sym,
   b5_sym, batt_sym, b2_sym, b4_sym, b6_sym]

/-- Position bound to the symbol identifier `s` (`1 ≤ s ≤ 24`). -/
def posOf (s : Nat) : Nat := symbolPos.getD (s - 1) 0

/-- Mask bound to the symbol identifier `s` (`1 ≤ s ≤ 24`). -/
def maskOf (s : Nat) : Nat := symbolMask.getD (s - 1) 0

/-- Every primary and shadow byte is an 8-bit value. -/
def ByteState (st : LcdState) : Prop :=
  ∀ q, st.LCDMEM q < 256 ∧ st.LCDBMEM q < 256

/-! ## `clear_lcd_mem` and `clear_lcd` -/

/-- `void clear_lcd_mem(int position)`. -/
def clear_lcd_mem (position : Nat) (st : LcdState) : LcdState :=
  let st1 := setMem st position 0x00
  let st2 := setMem st1 (position + 1) 0x00
  let st3 := setBMem st2 position 0x00
  setBMem st3 (position + 1) 0x00

/-- Modelled from the spec: the device header `msp430.h`, which declares the registers
`LCDMn` and `LCDBMn`, is missing.  `LCDM n` is the position of `LCDMn` in `LCDMEM` (of
`LCDBMn` in `LCDBMEM`), by the numbering that `liblcd.h` documents: "LCM Memory 1 is
position 0, and LCD Memory 10 is position 9". -/
def LCDM (n : Nat) : Nat := n - 1

/-- `void clear_lcd(void)`. -/
def clear_lcd (st : LcdState) : LcdState :=
  let s1 := clear_lcd_mem LCD_A1 st
  let s2 := clear_lcd_mem LCD_A2 s1
  let s3 := clear_lcd_mem LCD_A3 s2
  let s4 := clear_lcd_mem LCD_A4 s3
  let s5 := clear_lcd_mem LCD_A5 s4
  let s6 := clear_lcd_mem LCD_A6 s5
  let s7 := setMem s6 LCD_AT1 0x00
  let s8 := setMem s7 LCD_AT2 0x00
  let s9 := setMem s8 LCD_AT3 0x00
  let s10 := setBMem s9 LCD_AT1 0x00
  let s11 := setBMem s10 LCD_AT2 0x00
  let s12 := setBMem s11 LCD_AT3 0x00
  let s13 := setMem s12 (LCDM 14) 0x00
  let s14 := setBMem s13 (LCDM 14) 0x00
  let s15 := setMem s14 (LCDM 18) 0x00
  let s16 := setBMem s15 (LCDM 18) 0x00
  let s17 := setMem s16 (LCDM 3) 0x00
  setBMem s17 (LCDM 3) 0x00

/-! ## `display_msg` -/

/-- Fill loop of `display_msg`: `for(i = 0; i < lp; i++) buf[i] = msg[i];`. -/
def msg_fill (msg : List Nat) (lp : Nat) (buf : List Nat) : List Nat :=
  (List.range lp).foldl (fun b i => b.set i (msg.getD i 0)) buf

/-- The print buffer of `display_msg` after the fill loop. -/
def msg_buf (msg : List Nat) : List Nat :=
  let len := msg.length
  let lp := if len > 6 then 6 else len
  msg_fill msg lp (List.replicate 6 32)

/-- The six `display_char` calls that print `buf[i]..buf[i+5]` on A1..A6. -/
def print6 (buf : List Nat) (i : Nat) (st : LcdState) : LcdState :=
  let s1 := display_char (buf.getD i 0) LCD_A1 st
  let s2 := display_char (buf.getD (i + 1) 0) LCD_A2 s1
  let s3 := display_char (buf.getD (i + 2) 0) LCD_A3 s2
  let s4 := display_char (buf.getD (i + 3) 0) LCD_A4 s3
  let s5 := display_char (buf.getD (i + 4) 0) LCD_A5 s4
  display_char (buf.getD (i + 5) 0) LCD_A6 s5

/-- `void display_msg(char *msg)`. -/
def display_msg (msg : List Nat) (st : LcdState) : LcdState :=
  print6 (msg_buf msg) 0 st

/-! ## `display_num` -/

/-- The `if`/`else if` chain of `display_num` that turns `temp` into a character;
the final `else` gives `'9'`. -/
def digit_char (temp : Int) : Nat :=
  if temp = 0 then 48
  else if temp = 1 then 49
  else if temp = 2 then 50
  else if temp = 3 then 51
  else if temp = 4 then 52
  else if temp = 5 then 53
  else if temp = 6 then 54
  else if temp = 7 then 55
  else if temp = 8 then 56
  else 57

/-- The conversion loop `for(i = 0; i < 6; i++) { ...; in /= 10; if (in == 0) break; }`
of `display_num`.  The first argument is the number of iterations left before the
loop condition `i < 6` fails; `%` and `/` are C's truncating remainder and division. -/
def num_conv : Nat → Nat → Int → List Nat → List Nat
  | 0, _, _, buf => buf
  | n + 1, i, v, buf =>
    let temp := Int.tmod v 10
    let buf1 := buf.set i (digit_char temp)
    let v1 := Int.tdiv v 10
    if v1 = 0 then buf1 else num_conv n (i + 1) v1 buf1

/-- The print buffer of `display_num` after the conversion loop. -/
def num_buf (v : Int) : List Nat := num_conv 6 0 v (List.replicate 6 32)

/-- `void display_num(int in)`. -/
def display_num (v : Int) (st : LcdState) : LcdState :=
  let s0 := clear_lcd st
  let buf := num_buf v
  let s1 := display_char (buf.getD 5 0) LCD_A1 s0
  let s2 := display_char (buf.getD 4 0) LCD_A2 s1
  let s3 := display_char (buf.getD 3 0) LCD_A3 s2
  let s4 := display_char (buf.getD 2 0) LCD_A4 s3
  let s5 := display_char (buf.getD 1 0) LCD_A5 s4
  display_char (buf.getD 0 0) LCD_A6 s5

/-! ## `scroll_text` -/

/-- The peripheral together with the log of the delays executed so far: each entry is
the cycle count of a `__delay_cycles` call and the display state visible during it. -/
structure World where
  lcd : LcdState
  delays : List (Nat × LcdState)

/-- The intrinsic `__delay_cycles(n)`. -/
def delay_cycles (n : Nat) (w : World) : World :=
  { w with delays := w.delays ++ [(n, w.lcd)] }

/-- Fill loop of `scroll_text` over the `len + 12` characters obtained from `malloc`
(their initial content is never read; it is taken as 0). -/
def scroll_fill (msg : List Nat) : List Nat :=
  let len := msg.length
  (List.range (len + 12)).foldl
    (fun buf i =>
      if i < 6 then buf.set i 32
      else if i > len + 5 then buf.set i 32
      else buf.set i (msg.getD (i - 6) 0))
    (List.replicate (len + 12) 0)

/-- Print loop of `scroll_text`: `for(i = 0; i < len + 7; i++)`, six `display_char`
calls and one delay per iteration. -/
def print_loop (buf : List Nat) (len : Nat) (w : World) : World :=
  (List.range (len + 7)).foldl
    (fun w i => delay_cycles 2000000 { w with lcd := print6 buf i w.lcd }) w

/-- `void scroll_text(char *msg)`. -/
def scroll_text (msg : List Nat) (w : World) : World :=
  let len := msg.length
  let buf := scroll_fill msg
  let w1 := print_loop buf len w
  let w2 := { w1 with lcd := clear_lcd w1.lcd }
  delay_cycles 2000000 w2

/-- The frames rendered by `scroll_text msg` from the state `st`: the display states
logged by the delays of its print loop, in order. -/
def scroll_frames (msg : List Nat) (st : LcdState) : List LcdState :=
  (print_loop (scroll_fill msg) msg.length { lcd := st, delays := [] }).delays.map Prod.snd

/-- The bytes of the six character cells A1..A6, in logical order. -/
def cells6 (st : LcdState) : List (Nat × Nat) := primaryCells.map (cellBytes st)

/-- The characters of a string literal as C bytes. -/
def cstr (s : String) : List Nat := s.toList.map Char.toNat

/-! ## Auxiliary definitions used in the statements -/

/-- The glyph bytes a window of `buf` starting at offset `i` puts on A1..A6. -/
def windowGlyphs (buf : List Nat) (i : Nat) : List (Nat × Nat) :=
  (List.range 6).map (fun j => glyphBytes (symb_val (buf.getD (i + j) 0)))

/-- The twelve primary positions written by the six-cell print step. -/
def primaryBytes : List Nat := [9, 10, 5, 6, 3, 4, 18, 19, 14, 15, 7, 8]

/-- The decimal digits of `v`, least significant first; the single digit 0 for `v = 0`. -/
def decDigits (v : Nat) : List Nat := if v = 0 then [0] else Nat.digits 10 v

/-- The memory positions of the three auxiliary indicator cells AT1..AT3. -/
def auxCells : List Nat := [LCD_AT1, LCD_AT2, LCD_AT3]

/-- The bytes of the 9 logical cells: positions `p` and `p + 1` for A1..A6, position
`p` for AT1..AT3. -/
def logicalBytes : List Nat :=
  [LCD_A1, LCD_A1 + 1, LCD_A2, LCD_A2 + 1, LCD_A3, LCD_A3 + 1, LCD_A4, LCD_A4 + 1,
   LCD_A5, LCD_A5 + 1, LCD_A6, LCD_A6 + 1, LCD_AT1, LCD_AT2, LCD_AT3]

/-- The positions of the three registers `LCDM3`, `LCDM14`, `LCDM18` that `clear_lcd`
zeroes by name. -/
def muxRegs : List Nat := [LCDM 3, LCDM 14, LCDM 18]

/-- The number of iterations the conversion loop of `display_num` executes, each of
which writes one buffer position: the control flow of `num_conv` without the buffer. -/
def num_iters : Nat → Int → Nat
  | 0, _ => 0
  | n + 1, v => if Int.tdiv v 10 = 0 then 1 else 1 + num_iters n (Int.tdiv v 10)

/-! ## Control registers: `init_lcd`, `lcd_on`, `lcd_off` -/

/-- The bit-mask constants that `liblcd.c` takes from the device header `msp430.h`.
The header is not part of the repository, so the constants are parameters of the
model. -/
structure DeviceHeader where
  LCDPRE__16 : Nat
  LCD4MUX : Nat
  LCDLP : Nat
  LCDON : Nat
  LCDS4 : Nat
  LCDS6 : Nat
  LCDS7 : Nat
  LCDS8 : Nat
  LCDS9 : Nat
  LCDS10 : Nat
  LCDS11 : Nat
  LCDS12 : Nat
  LCDS13 : Nat
  LCDS14 : Nat
  LCDS15 : Nat
  LCDS16 : Nat
  LCDS17 : Nat
  LCDS18 : Nat
  LCDS19 : Nat
  LCDS20 : Nat
  LCDS21 : Nat
  LCDS27 : Nat
  LCDS28 : Nat
  LCDS29 : Nat
  LCDS30 : Nat
  LCDS31 : Nat
  LCDS35 : Nat
  LCDS36 : Nat
  LCDS37 : Nat
  LCDS38 : Nat
  LCDS39 : Nat
  LCDCPEN : Nat
  VLCD_8 : Nat
  LCDCPCLKSYNC : Nat
  LCDCLRM : Nat

/-- A header with 16-bit constants, used to evaluate the model at a concrete input. -/
def sampleHeader : DeviceHeader :=
  { LCDPRE__16 := 0x0400, LCD4MUX := 0x0018, LCDLP := 0x0002, LCDON := 0x0001,
    LCDS4 := 0x0010, LCDS6 := 0x0040, LCDS7 := 0x0080, LCDS8 := 0x0100, LCDS9 := 0x0200,
    LCDS10 := 0x0400, LCDS11 := 0x0800, LCDS12 := 0x1000, LCDS13 := 0x2000,
    LCDS14 := 0x4000, LCDS15 := 0x8000, LCDS16 := 0x0001, LCDS17 := 0x0002,
    LCDS18 := 0x0004, LCDS19 := 0x0008, LCDS20 := 0x0010, LCDS21 := 0x0020,
    LCDS27 := 0x0800, LCDS28 := 0x1000, LCDS29 := 0x2000, LCDS30 := 0x4000,
    LCDS31 := 0x8000, LCDS35 := 0x0008, LCDS36 := 0x0010, LCDS37 := 0x0020,
    LCDS38 := 0x0040, LCDS39 := 0x0080, LCDCPEN := 0x0008, VLCD_8 := 0x1000,
    LCDCPCLKSYNC := 0x8000, LCDCLRM := 0x0002 }

/-- The 16-bit control registers of the peripheral that the library writes. -/
inductive Reg where
  | LCDCCTL0
  | LCDCPCTL0
  | LCDCPCTL1
  | LCDCPCTL2
  | LCDCVCTL
  | LCDCCPCTL
  | LCDCMEMCTL
  deriving DecidableEq

/-- Bitwise OR in a 16-bit word: `a | b`, `a |= b`. -/
def or16 (a b : Nat) : Nat := (a ||| b) % 65536

/-- The 16-bit result of `a & ~b`, `a &= ~b`. -/
def andnot16 (a b : Nat) : Nat := (a &&& (0xFFFF ^^^ b)) % 65536

/-- Assignment `r = v` to a 16-bit register.  The register keeps the value written; what
the peripheral does with it (such as the memory clear started by `LCDCLRM`) is not part
of the model. -/
def setReg (r : Reg) (v : Nat) (st : LcdState) : LcdState :=
  match r with
  | Reg.LCDCCTL0 => { st with LCDCCTL0 := v % 65536 }
  | Reg.LCDCPCTL0 => { st with LCDCPCTL0 := v % 65536 }
  | Reg.LCDCPCTL1 => { st with LCDCPCTL1 := v % 65536 }
  | Reg.LCDCPCTL2 => { st with LCDCPCTL2 := v % 65536 }
  | Reg.LCDCVCTL => { st with LCDCVCTL := v % 65536 }
  | Reg.LCDCCPCTL => { st with LCDCCPCTL := v % 65536 }
  | Reg.LCDCMEMCTL => { st with LCDCMEMCTL := v % 65536 }

/-- The peripheral together with the log of the register writes executed so far: each
entry is the register, the value stored, and the state at the time of the write. -/
structure RegWorld where
  lcd : LcdState
  writes : List (Reg × Nat × LcdState)

/-- A logged register assignment `r = v`. -/
def write_reg (r : Reg) (v : Nat) (w : RegWorld) : RegWorld :=
  { lcd := setReg r v w.lcd, writes := w.writes ++ [(r, v % 65536, w.lcd)] }

/-- `void init_lcd(void)`. -/
def init_lcd (h : DeviceHeader) (w : RegWorld) : RegWorld :=
  let lcdctl0_ctx := 0
  let lcdcpctl0_ctx := 0
  let lcdcpctl1_ctx := 0
  let lcdcpctl2_ctx := 0
  let lcdctl0_ctx := or16 lcdctl0_ctx h.LCDPRE__16
  let lcdctl0_ctx := or16 lcdctl0_ctx h.LCD4MUX
  let lcdctl0_ctx := or16 lcdctl0_ctx h.LCDLP
  let lcdctl0_ctx := andnot16 lcdctl0_ctx h.LCDON
  let w := write_reg Reg.LCDCCTL0 lcdctl0_ctx w
  let lcdcpctl0_ctx := or16 lcdcpctl0_ctx h.LCDS4
  let lcdcpctl0_ctx := or16 lcdcpctl0_ctx h.LCDS6
  let lcdcpctl0_ctx := or16 lcdcpctl0_ctx h.LCDS7
  let lcdcpctl0_ctx := or16 lcdcpctl0_ctx h.LCDS8
  let lcdcpctl0_ctx := or16 lcdcpctl0_ctx h.LCDS9
  let lcdcpctl0_ctx := or16 lcdcpctl0_ctx h.LCDS10
  let lcdcpctl0_ctx := or16 lcdcpctl0_ctx h.LCDS11
  let lcdcpctl0_ctx := or16 lcdcpctl0_ctx h.LCDS12
  let lcdcpctl0_ctx := or16 lcdcpctl0_ctx h.LCDS13
  let lcdcpctl0_ctx := or16 lcdcpctl0_ctx h.LCDS14
  let lcdcpctl0_ctx := or16 lcdcpctl0_ctx h.LCDS15
  let lcdcpctl1_ctx := or16 lcdcpctl1_ctx h.LCDS16
  let lcdcpctl1_ctx := or16 lcdcpctl1_ctx h.LCDS17
  let lcdcpctl1_ctx := or16 lcdcpctl1_ctx h.LCDS18
  let lcdcpctl1_ctx := or16 lcdcpctl1_ctx h.LCDS19
  let lcdcpctl1_ctx := or16 lcdcpctl1_ctx h.LCDS20
  let lcdcpctl1_ctx := or16 lcdcpctl1_ctx h.LCDS21
  let lcdcpctl1_ctx := or16 lcdcpctl1_ctx h.LCDS27
  let lcdcpctl1_ctx := or16 lcdcpctl1_ctx h.LCDS28
  let lcdcpctl1_ctx := or16 lcdcpctl1_ctx h.LCDS29
  let lcdcpctl1_ctx := or16 lcdcpctl1_ctx h.LCDS30
  let lcdcpctl1_ctx := or16 lcdcpctl1_ctx h.LCDS31
  let lcdcpctl2_ctx := or16 lcdcpctl2_ctx h.LCDS35
  let lcdcpctl2_ctx := or16 lcdcpctl2_ctx h.LCDS36
  let lcdcpctl2_ctx := or16 lcdcpctl2_ctx h.LCDS37
  let lcdcpctl2_ctx := or16 lcdcpctl2_ctx h.LCDS38
  let lcdcpctl2_ctx := or16 lcdcpctl2_ctx h.LCDS39
  let w := write_reg Reg.LCDCPCTL0 lcdcpctl0_ctx w
  let w := write_reg Reg.LCDCPCTL1 lcdcpctl1_ctx w
  let w := write_reg Reg.LCDCPCTL2 lcdcpctl2_ctx w
  let w := write_reg Reg.LCDCVCTL (or16 h.LCDCPEN h.VLCD_8) w
  let w := write_reg Reg.LCDCCPCTL h.LCDCPCLKSYNC w
  let w := write_reg Reg.LCDCMEMCTL h.LCDCLRM w
  write_reg Reg.LCDCCTL0 (or16 w.lcd.LCDCCTL0 h.LCDON) w

/-- `void lcd_off(void)`: `LCDCCTL0 &= ~LCDON`. -/
def lcd_off (h : DeviceHeader) (st : LcdState) : LcdState :=
  setReg Reg.LCDCCTL0 (andnot16 st.LCDCCTL0 h.LCDON) st

/-- `void lcd_on(void)`: `LCDCCTL0 |= LCDON`. -/
def lcd_on (h : DeviceHeader) (st : LcdState) : LcdState :=
  setReg Reg.LCDCCTL0 (or16 st.LCDCCTL0 h.LCDON) st

/-! ## The symbol demo loop of `main` -/

/-- One iteration of the symbol loop of `main`:
`display_symbol(i); __delay_cycles(2000000); clear_symbol(i);`. -/
def symbol_demo_body (i : Nat) (w : World) : World :=
  let w1 := { w with lcd := display_symbol i w.lcd }
  let w2 := delay_cycles 2000000 w1
  { w2 with lcd := clear_symbol i w2.lcd }

/-- The first `n` iterations of `for (i = 0x01; i <= 0x18; i++)` in `main`; the whole
loop is `symbol_demo 0x18`. -/
def symbol_demo (n : Nat) (w : World) : World :=
  (List.range' 1 n).foldl (fun w i => symbol_demo_body i w) w

/-- The value of the local `lcdctl0_ctx` that `init_lcd` loads into LCDCCTL0 with its
first register write. -/
def init_ctl0 (h : DeviceHeader) : Nat :=
  andnot16 (or16 (or16 (or16 0 h.LCDPRE__16) h.LCD4MUX) h.LCDLP) h.LCDON

/-! ## Auxiliary definitions for the glyph table and for `display_num` -/

/-- The 37 supported characters: the space, `'0'..'9'`, `'A'..'Z'`. -/
def supportedChars : List Nat := 32 :: (List.range' 48 10 ++ List.range' 65 26)

/-- The character the `if`/`else if` chain of `display_num` yields for the remainder
`-d` of a negative value: `'0'` for `d = 0`, and `'9'` (the final `else`) otherwise. -/
def neg_digit (d : Nat) : Nat := if d = 0 then 48 else 57

/-! ## Array accesses of `scroll_text` -/

/-- An indexed access made by the loops of `scroll_text`: a read `msg[i]`, a write
`buf[i] = ...`, or a read `buf[i]`.  Indices are C `int` values. -/
inductive Access where
  | readMsg (i : Int)
  | writeBuf (i : Int)
  | readBuf (i : Int)
  deriving DecidableEq

/-- An access is in bounds for a message of length `len`: `msg[i]` with `0 ≤ i < len`,
`buf[i]` with `0 ≤ i < len + 12` (the allocated size). -/
def Access.inBounds (len : Nat) : Access → Prop
  | Access.readMsg i => 0 ≤ i ∧ i < (len : Int)
  | Access.writeBuf i => 0 ≤ i ∧ i < (len : Int) + 12
  | Access.readBuf i => 0 ≤ i ∧ i < (len : Int) + 12

/-- The fill loop of `scroll_text` with the log of its accesses: the first component is
the buffer, as in `scroll_fill`, the second the accesses in program order. -/
def scroll_fill_traced (msg : List Nat) : List Nat × List Access :=
  let len := msg.length
  (List.range (len + 12)).foldl
    (fun s i =>
      if i < 6 then (s.1.set i 32, s.2 ++ [Access.writeBuf (i : Int)])
      else if i > len + 5 then (s.1.set i 32, s.2 ++ [Access.writeBuf (i : Int)])
      else (s.1.set i (msg.getD (i - 6) 0),
        s.2 ++ [Access.readMsg ((i : Int) - 6), Access.writeBuf (i : Int)]))
    (List.replicate (len + 12) 0, [])

/-- One buffer read `buf[i]` of the print loop with its log entry: the value read, and
the access log extended by the index that was used. -/
def buf_read (buf : List Nat) (i : Nat) (log : List Access) : Nat × List Access :=
  (buf.getD i 0, log ++ [Access.readBuf (i : Int)])

/-- The six `display_char` calls of one iteration of the print loop, as in `print6`,
with the log of the buffer reads they make. -/
def print6_traced (buf : List Nat) (i : Nat) (s : LcdState × List Access) :
    LcdState × List Access :=
  let r1 := buf_read buf i s.2
  let s1 := display_char r1.1 LCD_A1 s.1
  let r2 := buf_read buf (i + 1) r1.2
  let s2 := display_char r2.1 LCD_A2 s1
  let r3 := buf_read buf (i + 2) r2.2
  let s3 := display_char r3.1 LCD_A3 s2
  let r4 := buf_read buf (i + 3) r3.2
  let s4 := display_char r4.1 LCD_A4 s3
  let r5 := buf_read buf (i + 4) r4.2
  let s5 := display_char r5.1 LCD_A5 s4
  let r6 := buf_read buf (i + 5) r5.2
  (display_char r6.1 LCD_A6 s5, r6.2)

/-- The print loop of `scroll_text`, as in `print_loop`, with the log of its accesses. -/
def print_loop_traced (buf : List Nat) (len : Nat) (s : World × List Access) :
    World × List Access :=
  (List.range (len + 7)).foldl
    (fun s i =>
      let r := print6_traced buf i (s.1.lcd, s.2)
      (delay_cycles 2000000 { s.1 with lcd := r.1 }, r.2)) s

/-- The function `scroll_text` with the log of every indexed access it makes, in program
order: the first component is the result of `scroll_text`, the second the accesses of
the fill loop followed by those of the print loop. -/
def scroll_text_traced (msg : List Nat) (w : World) : World × List Access :=
  let len := msg.length
  let f := scroll_fill_traced msg
  let p := print_loop_traced f.1 len (w, f.2)
  let w2 := { p.1 with lcd := clear_lcd p.1.lcd }
  (delay_cycles 2000000 w2, p.2)

/-! ## Basic facts about stores and `display_char` -/

theorem display_char_mem (c p : Nat) (st : LcdState) (q : Nat) :
    (display_char c p st).LCDMEM q =
      if q = p + 1 then (symb_val c &&& 0xFF) % 256
      else if q = p then (symb_val c >>> 8) % 256 else st.LCDMEM q := rfl

theorem display_char_bmem (c p : Nat) (st : LcdState) :
    (display_char c p st).LCDBMEM = st.LCDBMEM := rfl

theorem symb_val_lt (c : Nat) : symb_val c < 65536 := by
  unfold symb_val
  split_ifs with h1 h2 h3
  · decide
  · obtain ⟨h2a, h2b⟩ := h2
    interval_cases c <;> decide
  · obtain ⟨h3a, h3b⟩ := h3
    interval_cases c <;> decide
  · decide

theorem hi_byte_mod (w : Nat) (h : w < 65536) : (w >>> 8) % 256 = w >>> 8 := by
  apply Nat.mod_eq_of_lt
  rw [Nat.shiftRight_eq_div_pow]
  omega

theorem lo_byte_mod (w : Nat) : (w &&& 0xFF) % 256 = w &&& 0xFF := by
  apply Nat.mod_eq_of_lt
  have : w &&& 0xFF ≤ 0xFF := Nat.and_le_right
  omega

theorem cellBytes_display_char (c p : Nat) (st : LcdState) :
    cellBytes (display_char c p st) p = glyphBytes (symb_val c) := by
  simp only [cellBytes, glyphBytes, display_char_mem]
  simp [hi_byte_mod _ (symb_val_lt c), lo_byte_mod]

theorem symb_val_space : symb_val 32 = 0 := by decide

theorem symb_val_digit (d : Nat) (h : d < 10) : symb_val (48 + d) = digits.getD d 0 := by
  interval_cases d <;> decide

theorem symb_val_capital (k : Nat) (h : k < 26) :
    symb_val (65 + k) = capletters.getD k 0 := by
  interval_cases k <;> decide

theorem symb_val_fault (c : Nat) (h : ¬ supported c) : symb_val c = 0xFFFF := by
  unfold supported at h
  unfold symb_val
  split_ifs with h1 h2 h3
  · exact absurd (Or.inl h1) h
  · exact absurd (Or.inr (Or.inl h2)) h
  · exact absurd (Or.inr (Or.inr h3)) h
  · rfl

/-- C1: for every character in {space, '0'..'9', 'A'..'Z'} and every primary cell
position `p`, after `display_char` the byte at `p` is the high byte and the byte at
`p + 1` the low byte of the character's pattern: 0x0000 for the space, `digits[d]`
for the digit `d`, `capletters[k]` for the `k`-th capital letter. -/
theorem C1_display_char_supported (p : Nat) (st : LcdState) (_hp : p ∈ primaryCells) :
    ((display_char 32 p st).LCDMEM p = 0x0000 >>> 8 ∧
      (display_char 32 p st).LCDMEM (p + 1) = 0x0000 &&& 0xFF) ∧
    (∀ d, d < 10 →
      (display_char (48 + d) p st).LCDMEM p = digits.getD d 0 >>> 8 ∧
      (display_char (48 + d) p st).LCDMEM (p + 1) = digits.getD d 0 &&& 0xFF) ∧
    (∀ k, k < 26 →
      (display_char (65 + k) p st).LCDMEM p = capletters.getD k 0 >>> 8 ∧
      (display_char (65 + k) p st).LCDMEM (p + 1) = capletters.getD k 0 &&& 0xFF) := by
  have key : ∀ c, (display_char c p st).LCDMEM p = symb_val c >>> 8 ∧
      (display_char c p st).LCDMEM (p + 1) = symb_val c &&& 0xFF := by
    intro c
    have h := cellBytes_display_char c p st
    simp only [cellBytes, glyphBytes, Prod.mk.injEq] at h
    exact h
  refine ⟨?_, ?_, ?_⟩
  · have h := key 32
    rw [symb_val_space] at h
    exact h
  · intro d hd
    have h := key (48 + d)
    rw [symb_val_digit d hd] at h
    exact h
  · intro k hk
    have h := key (65 + k)
    rw [symb_val_capital k hk] at h
    exact h

/-- C1 at the documented example: the letter 'A' at `LCD_A1` gives 0xEF at position 9
and 0x00 at position 10. -/
theorem C1_display_char_supported_witness :
    LCD_A1 ∈ primaryCells ∧ 0 < 26 ∧
    (display_char 65 9 onesState).LCDMEM 9 = 0xEF ∧
    (display_char 65 9 onesState).LCDMEM 10 = 0x00 :=
  ⟨by decide, by decide,
    (C1_display_char_supported LCD_A1 onesState (by decide)).2.2 0 (by decide)⟩

/-- C2: for every character outside {space, '0'..'9', 'A'..'Z'} (every lowercase
letter and the range neighbours '/', ':', '@', '[' among them) and every primary cell
position `p`, `display_char` writes 0xFF to both bytes of the cell; the range checks are
inclusive, so '0', '9', 'A' and 'Z' get their table patterns, not the fault pattern. -/
theorem C2_display_char_fault (p : Nat) (st : LcdState) (_hp : p ∈ primaryCells) :
    (∀ c, ¬ supported c →
      (display_char c p st).LCDMEM p = 0xFF ∧ (display_char c p st).LCDMEM (p + 1) = 0xFF) ∧
    (∀ c, (97 ≤ c ∧ c ≤ 122) ∨ c = 47 ∨ c = 58 ∨ c = 64 ∨ c = 91 → ¬ supported c) ∧
    (cellBytes (display_char 48 p st) p = (0xFC, 0x28) ∧
      cellBytes (display_char 57 p st) p = (0xF7, 0x00) ∧
      cellBytes (display_char 65 p st) p = (0xEF, 0x00) ∧
      cellBytes (display_char 90 p st) p = (0x90, 0x28)) := by
  refine ⟨?_, ?_, ?_⟩
  · intro c hc
    have h := cellBytes_display_char c p st
    rw [symb_val_fault c hc] at h
    simp only [cellBytes, glyphBytes, Prod.mk.injEq] at h
    exact ⟨h.1.trans (by decide), h.2.trans (by decide)⟩
  · intro c hc
    unfold supported
    omega
  · simp only [cellBytes_display_char]
    exact ⟨by decide, by decide, by decide, by decide⟩

/-- C2 at a concrete input: the lowercase 'a' on `LCD_A3` over a cleared memory. -/
theorem C2_display_char_fault_witness :
    LCD_A3 ∈ primaryCells ∧ ¬ supported 97 ∧
    (display_char 97 LCD_A3 zeroState).LCDMEM LCD_A3 = 0xFF ∧
    (display_char 97 LCD_A3 zeroState).LCDMEM (LCD_A3 + 1) = 0xFF :=
  ⟨by decide, by decide,
    (C2_display_char_fault LCD_A3 zeroState (by decide)).1 97 (by decide)⟩

/-! ## Counted fill loops -/

theorem foldl_set_length (f : Nat → Nat) (n : Nat) (buf : List Nat) :
    ((List.range n).foldl (fun b i => b.set i (f i)) buf).length = buf.length := by
  induction n with
  | zero => rfl
  | succ k ih => simp [List.range_succ, List.foldl_append, ih]

theorem foldl_set_getD (f : Nat → Nat) (n : Nat) (buf : List Nat) (j : Nat) :
    ((List.range n).foldl (fun b i => b.set i (f i)) buf).getD j 0 =
      if j < n ∧ j < buf.length then f j else buf.getD j 0 := by
  induction n with
  | zero => simp
  | succ k ih =>
    rw [List.range_succ, List.foldl_append]
    simp only [List.foldl_cons, List.foldl_nil]
    rw [List.getD_eq_getElem?_getD, List.getElem?_set, foldl_set_length]
    by_cases hjk : k = j
    · subst hjk
      by_cases hl : k < buf.length
      · simp [hl]
      · simp only [hl, if_true, if_false, and_false, Option.getD_none]
        rw [List.getD_eq_default]
        omega
    · simp only [hjk, if_false]
      rw [← List.getD_eq_getElem?_getD, ih]
      by_cases h1 : j < k ∧ j < buf.length
      · have h2 : j < k + 1 ∧ j < buf.length := ⟨by omega, h1.2⟩
        simp [h1, h2]
      · have h2 : ¬ (j < k + 1 ∧ j < buf.length) := by omega
        simp [h1, h2]

theorem msg_buf_getD (msg : List Nat) (j : Nat) (hj : j < 6) :
    (msg_buf msg).getD j 0 = if j < msg.length then msg.getD j 0 else 32 := by
  unfold msg_buf msg_fill
  simp only [foldl_set_getD, List.length_replicate]
  by_cases h6 : msg.length > 6
  · have h1 : j < msg.length := by omega
    simp [h6, hj, h1]
  · simp only [h6, if_false]
    by_cases h1 : j < msg.length
    · simp [h1, hj]
    · simp [h1]
      interval_cases j <;> rfl

theorem symb_val_blank : glyphBytes (symb_val 32) = (0, 0) := by decide

/-! ## The six-cell print step -/

theorem print6_mem (buf : List Nat) (i : Nat) (st : LcdState) (q : Nat) :
    (print6 buf i st).LCDMEM q =
      if q = 8 then symb_val (buf.getD (i + 5) 0) &&& 0xFF
      else if q = 7 then symb_val (buf.getD (i + 5) 0) >>> 8
      else if q = 15 then symb_val (buf.getD (i + 4) 0) &&& 0xFF
      else if q = 14 then symb_val (buf.getD (i + 4) 0) >>> 8
      else if q = 19 then symb_val (buf.getD (i + 3) 0) &&& 0xFF
      else if q = 18 then symb_val (buf.getD (i + 3) 0) >>> 8
      else if q = 4 then symb_val (buf.getD (i + 2) 0) &&& 0xFF
      else if q = 3 then symb_val (buf.getD (i + 2) 0) >>> 8
      else if q = 6 then symb_val (buf.getD (i + 1) 0) &&& 0xFF
      else if q = 5 then symb_val (buf.getD (i + 1) 0) >>> 8
      else if q = 10 then symb_val (buf.getD i 0) &&& 0xFF
      else if q = 9 then symb_val (buf.getD i 0) >>> 8
      else st.LCDMEM q := by
  simp only [print6, display_char_mem, LCD_A1, LCD_A2, LCD_A3, LCD_A4, LCD_A5, LCD_A6,
    hi_byte_mod _ (symb_val_lt _), lo_byte_mod]

theorem print6_other (buf : List Nat) (i : Nat) (st : LcdState) :
    (print6 buf i st).LCDBMEM = st.LCDBMEM ∧
    (print6 buf i st).LCDCCTL0 = st.LCDCCTL0 ∧
    (print6 buf i st).LCDCPCTL0 = st.LCDCPCTL0 ∧
    (print6 buf i st).LCDCPCTL1 = st.LCDCPCTL1 ∧
    (print6 buf i st).LCDCPCTL2 = st.LCDCPCTL2 ∧
    (print6 buf i st).LCDCVCTL = st.LCDCVCTL ∧
    (print6 buf i st).LCDCCPCTL = st.LCDCCPCTL ∧
    (print6 buf i st).LCDCMEMCTL = st.LCDCMEMCTL :=
  ⟨rfl, rfl, rfl, rfl, rfl, rfl, rfl, rfl⟩

theorem cells6_print6 (buf : List Nat) (i : Nat) (st : LcdState) :
    cells6 (print6 buf i st) = windowGlyphs buf i := by
  simp [cells6, windowGlyphs, primaryCells, cellBytes, glyphBytes, print6_mem, LCD_A1, LCD_A2,
    LCD_A3, LCD_A4, LCD_A5, LCD_A6, List.range_succ]

theorem print6_mem_split (buf : List Nat) (i : Nat) (st : LcdState) (q : Nat) :
    (print6 buf i st).LCDMEM q =
      if q ∈ primaryBytes then (print6 buf i zeroState).LCDMEM q else st.LCDMEM q := by
  rw [print6_mem buf i st q, print6_mem buf i zeroState q]
  by_cases h : q ∈ primaryBytes
  · rw [if_pos h]
    simp only [primaryBytes, List.mem_cons, List.mem_singleton, List.mem_nil_iff,
      or_false] at h
    rcases h with h | h | h | h | h | h | h | h | h | h | h | h <;> subst h <;> rfl
  · rw [if_neg h]
    simp only [primaryBytes, List.mem_cons, List.mem_singleton, List.mem_nil_iff,
      or_false, not_or] at h
    obtain ⟨h1, h2, h3, h4, h5, h6, h7, h8, h9, h10, h11, h12⟩ := h
    simp only [h1, h2, h3, h4, h5, h6, h7, h8, h9, h10, h11, h12, if_false]

theorem print6_print6 (b1 b2 : List Nat) (i1 i2 : Nat) (st : LcdState) :
    print6 b2 i2 (print6 b1 i1 st) = print6 b2 i2 st := by
  ext q
  · rw [print6_mem_split b2 i2 (print6 b1 i1 st) q, print6_mem_split b1 i1 st q,
      print6_mem_split b2 i2 st q]
    by_cases h : q ∈ primaryBytes
    · simp only [h, if_true]
    · simp only [h, if_false]
  all_goals rfl

/-! ## `display_msg` -/

theorem cells6_display_msg (m : List Nat) (st : LcdState) :
    cells6 (display_msg m st) =
      (List.range 6).map
        (fun i => if i < m.length then glyphBytes (symb_val (m.getD i 0)) else (0, 0)) := by
  unfold display_msg
  rw [cells6_print6]
  unfold windowGlyphs
  apply List.map_congr_left
  intro j hj
  have hj6 : j < 6 := List.mem_range.mp hj
  rw [Nat.zero_add, msg_buf_getD m j hj6]
  by_cases h : j < m.length
  · rw [if_pos h, if_pos h]
  · rw [if_neg h, if_neg h]
    exact symb_val_blank

theorem digit_char_nat (d : Nat) (h : d < 10) : digit_char (d : Int) = 48 + d := by
  interval_cases d <;> rfl

theorem getD_set_eq (buf : List Nat) (i j a : Nat) :
    (buf.set i a).getD j 0 = if j = i ∧ i < buf.length then a else buf.getD j 0 := by
  rw [List.getD_eq_getElem?_getD, List.getElem?_set, List.getD_eq_getElem?_getD]
  by_cases h : i = j
  · subst h
    by_cases hl : i < buf.length
    · simp [hl]
    · simp only [hl, if_true, if_false, and_false, Option.getD_none]
      rw [List.getElem?_eq_none (by omega)]
      rfl
  · have h2 : ¬ (j = i ∧ i < buf.length) := fun hh => h hh.1.symm
    simp only [h, h2, if_false]

theorem num_conv_getD (n : Nat) : ∀ (i v : Nat) (buf : List Nat) (j : Nat),
    i + n ≤ buf.length →
    (num_conv n i (v : Int) buf).getD j 0 =
      if i ≤ j ∧ j < i + n ∧ (j = i ∨ 10 ^ (j - i) ≤ v) then 48 + v / 10 ^ (j - i) % 10
      else buf.getD j 0 := by
  induction n with
  | zero =>
    intro i v buf j _
    have h : ¬ (i ≤ j ∧ j < i + 0 ∧ (j = i ∨ 10 ^ (j - i) ≤ v)) := by omega
    rw [if_neg h]
    rfl
  | succ n ih =>
    intro i v buf j hlen
    have hmod : Int.tmod (v : Int) 10 = ((v % 10 : Nat) : Int) := rfl
    have hdiv : Int.tdiv (v : Int) 10 = ((v / 10 : Nat) : Int) := rfl
    have hi : i < buf.length := by omega
    simp only [num_conv, hmod, hdiv, digit_char_nat (v % 10) (Nat.mod_lt _ (by decide)),
      Int.natCast_eq_zero]
    by_cases hv : v / 10 = 0
    · rw [if_pos hv, getD_set_eq]
      have hv10 : v < 10 := by omega
      by_cases hji : j = i
      · subst hji
        simp [hi]
      · have h1 : ¬ (j = i ∧ i < buf.length) := fun hh => hji hh.1
        have h2 : ¬ (i ≤ j ∧ j < i + (n + 1) ∧ (j = i ∨ 10 ^ (j - i) ≤ v)) := by
          rintro ⟨h2a, _, h2c⟩
          rcases h2c with h2c | h2c
          · exact hji h2c
          · have hpos : 0 < j - i := by omega
            have : 10 ^ 1 ≤ 10 ^ (j - i) := Nat.pow_le_pow_right (by decide) hpos
            omega
        rw [if_neg h1, if_neg h2]
    · rw [if_neg hv, ih (i + 1) (v / 10) _ j (by rw [List.length_set]; omega), getD_set_eq]
      by_cases hji : j = i
      · subst hji
        have h1 : ¬ (j + 1 ≤ j ∧ j < j + 1 + n ∧ (j = j + 1 ∨ 10 ^ (j - (j + 1)) ≤ v / 10)) := by
          omega
        rw [if_neg h1]
        simp [hi]
      · have h0 : ¬ (j = i ∧ i < buf.length) := fun hh => hji hh.1
        rw [if_neg h0]
        by_cases hlt : i < j
        · obtain ⟨k, hk⟩ : ∃ k, j = i + 1 + k := ⟨j - (i + 1), by omega⟩
          subst hk
          have e1 : i + 1 + k - (i + 1) = k := by omega
          have e2 : i + 1 + k - i = k + 1 := by omega
          rw [e1, e2, Nat.div_div_eq_div_mul, ← Nat.pow_succ']
          have hiff : (10 ^ k ≤ v / 10) ↔ (10 ^ (k + 1) ≤ v) := by
            rw [Nat.le_div_iff_mul_le (by decide : 0 < 10), Nat.pow_succ]
          by_cases hc : 10 ^ (k + 1) ≤ v
          · have hk0 : k = 0 ∨ 10 ^ k ≤ v / 10 := Or.inr (hiff.mpr hc)
            by_cases hb : i + 1 + k < i + (n + 1)
            · rw [if_pos ⟨by omega, by omega, Or.inr (hiff.mpr hc)⟩,
                if_pos ⟨by omega, by omega, Or.inr hc⟩]
            · rw [if_neg (by omega), if_neg (by omega)]
          · by_cases hk0 : k = 0
            · subst hk0
              exfalso
              apply hc
              simp only [Nat.zero_add, Nat.pow_one]
              omega
            · have hc2 : ¬ 10 ^ k ≤ v / 10 := fun h => hc (hiff.mp h)
              rw [if_neg (by omega), if_neg (by omega)]
        · rw [if_neg (by omega), if_neg (by omega)]

theorem num_buf_getD (v j : Nat) (hj : j < 6) :
    (num_buf (v : Int)).getD j 0 =
      if j = 0 ∨ 10 ^ j ≤ v then 48 + v / 10 ^ j % 10 else 32 := by
  unfold num_buf
  rw [num_conv_getD 6 0 v _ j (by simp)]
  simp only [Nat.zero_le, Nat.zero_add, hj, true_and, Nat.sub_zero]
  by_cases h : j = 0 ∨ 10 ^ j ≤ v
  · rw [if_pos h, if_pos h]
  · rw [if_neg h, if_neg h]
    interval_cases j <;> rfl

theorem digits10_getD (j : Nat) : ∀ v : Nat, (Nat.digits 10 v).getD j 0 = v / 10 ^ j % 10 := by
  induction j with
  | zero =>
    intro v
    by_cases hv : v = 0
    · subst hv; simp
    · rw [Nat.digits_eq_cons_digits_div (by decide) hv]
      simp
  | succ j ih =>
    intro v
    by_cases hv : v = 0
    · subst hv; simp
    · rw [Nat.digits_eq_cons_digits_div (by decide) hv, List.getD_cons_succ, ih (v / 10),
        Nat.div_div_eq_div_mul, ← Nat.pow_succ']

theorem digits10_length_lt (j : Nat) : ∀ v : Nat, j < (Nat.digits 10 v).length ↔ 10 ^ j ≤ v := by
  induction j with
  | zero =>
    intro v
    by_cases hv : v = 0
    · subst hv; simp
    · rw [Nat.digits_eq_cons_digits_div (by decide) hv]
      simp
      omega
  | succ j ih =>
    intro v
    by_cases hv : v = 0
    · subst hv; simp
    · rw [Nat.digits_eq_cons_digits_div (by decide) hv, List.length_cons,
        Nat.succ_lt_succ_iff, ih (v / 10), Nat.le_div_iff_mul_le (by decide : 0 < 10),
        Nat.pow_succ]

theorem decDigits_getD (v j : Nat) : (decDigits v).getD j 0 = v / 10 ^ j % 10 := by
  unfold decDigits
  by_cases hv : v = 0
  · subst hv
    cases j <;> simp
  · rw [if_neg hv, digits10_getD]

theorem decDigits_length_lt (v j : Nat) :
    j < (decDigits v).length ↔ (j = 0 ∨ 10 ^ j ≤ v) := by
  unfold decDigits
  by_cases hv : v = 0
  · subst hv
    have : ¬ 10 ^ j ≤ 0 := by
      have := Nat.pow_pos (n := j) (by decide : 0 < 10)
      omega
    simp [this]
  · rw [if_neg hv, digits10_length_lt]
    constructor
    · intro h; exact Or.inr h
    · rintro (h | h)
      · subst h
        simp
        omega
      · exact h

theorem decDigits_getElem? (v j : Nat) (h : j < (decDigits v).length) :
    (decDigits v)[j]? = some (v / 10 ^ j % 10) := by
  rw [List.getElem?_eq_getElem h, ← List.getD_eq_getElem _ 0 h, decDigits_getD]

theorem decDigits_length_le (v : Nat) (hv : v < 1000000) : (decDigits v).length ≤ 6 := by
  by_contra hcon
  have h6 : 6 < (decDigits v).length := by omega
  rcases (decDigits_length_lt v 6).mp h6 with h | h
  · exact absurd h (by decide)
  · have : (10 : Nat) ^ 6 = 1000000 := by norm_num
    omega

theorem decDigits_length_pos (v : Nat) : 1 ≤ (decDigits v).length :=
  (decDigits_length_lt v 0).mpr (Or.inl rfl)

theorem display_num_eq_print6 (v : Int) (st : LcdState) :
    display_num v st =
      print6 [(num_buf v).getD 5 0, (num_buf v).getD 4 0, (num_buf v).getD 3 0,
        (num_buf v).getD 2 0, (num_buf v).getD 1 0, (num_buf v).getD 0 0] 0 (clear_lcd st) :=
  rfl

theorem cells6_display_num (v : Nat) (hv : v < 1000000) (st : LcdState) :
    cells6 (display_num (v : Int) st) =
      List.replicate (6 - (decDigits v).length) (0, 0) ++
        (decDigits v).reverse.map (fun d => glyphBytes (digits.getD d 0)) := by
  have hk := decDigits_length_le v hv
  have hk1 := decDigits_length_pos v
  rw [display_num_eq_print6, cells6_print6]
  unfold windowGlyphs
  apply List.ext_getElem?
  intro n
  rw [List.getElem?_map, List.getElem?_append, List.length_replicate]
  by_cases hn : n < 6
  · rw [List.getElem?_range hn, Option.map_some', Nat.zero_add]
    have hrev : [(num_buf (v : Int)).getD 5 0, (num_buf v).getD 4 0, (num_buf v).getD 3 0,
        (num_buf v).getD 2 0, (num_buf v).getD 1 0, (num_buf v).getD 0 0].getD n 0 =
        (num_buf v).getD (5 - n) 0 := by
      interval_cases n <;> rfl
    rw [hrev, num_buf_getD v (5 - n) (by omega)]
    by_cases hb : n < 6 - (decDigits v).length
    · have hnot : ¬ (5 - n = 0 ∨ 10 ^ (5 - n) ≤ v) := by
        intro h
        have := (decDigits_length_lt v (5 - n)).mpr h
        omega
      rw [if_pos hb, if_neg hnot, List.getElem?_replicate, if_pos hb]
      rfl
    · have hyes : 5 - n = 0 ∨ 10 ^ (5 - n) ≤ v :=
        (decDigits_length_lt v (5 - n)).mp (by omega)
      have hidx : (decDigits v).length - 1 - (n - (6 - (decDigits v).length)) = 5 - n := by
        omega
      rw [if_neg hb, if_pos hyes, List.getElem?_map,
        List.getElem?_reverse (by omega), hidx,
        decDigits_getElem? v (5 - n) (by omega), Option.map_some',
        symb_val_digit _ (Nat.mod_lt _ (by decide))]
  · have hnone : (List.range 6)[n]? = none := by
      rw [List.getElem?_eq_none]
      simp
      omega
    rw [hnone, if_neg (by omega), Option.map_none', List.getElem?_eq_none]
    rw [List.length_map, List.length_reverse]
    omega

/-- C4: for every value `v` with `0 ≤ v < 1000000` having `k` decimal digits (`k = 1`
for `v = 0`), after `display_num` the cells A1..A(6-k) hold the blank pattern 0x0000
(which is not the zero glyph) and the cells A(7-k)..A6 hold the glyphs of the decimal
digits of `v`, most significant first (`display_num(7)`: '7' on A6, A1..A5 blank;
`display_num(123456)`: '1' on A1 through '6' on A6). -/
theorem C4_display_num (v : Nat) (hv : v < 1000000) (st : LcdState) :
    cells6 (display_num (v : Int) st) =
      List.replicate (6 - (decDigits v).length) (0, 0) ++
        (decDigits v).reverse.map (fun d => glyphBytes (digits.getD d 0)) ∧
    (1 ≤ (decDigits v).length ∧ (decDigits v).length ≤ 6) ∧
    ((0, 0) : Nat × Nat) ≠ glyphBytes (digits.getD 0 0) ∧
    cells6 (display_num 7 st) = [(0, 0), (0, 0), (0, 0), (0, 0), (0, 0), (0xE4, 0x00)] ∧
    cells6 (display_num 123456 st) =
      [(0x60, 0x20), (0xDB, 0x00), (0xF3, 0x00), (0x67, 0x00), (0xB7, 0x00), (0xBF, 0x00)] := by
  refine ⟨cells6_display_num v hv st, ⟨decDigits_length_pos v, decDigits_length_le v hv⟩,
    by decide, ?_, ?_⟩
  · rw [display_num_eq_print6, cells6_print6]; decide
  · rw [display_num_eq_print6, cells6_print6]; decide

/-- C4 at `v = 120`: A1..A3 are blank, A4..A6 show '1', '2', '0'. -/
theorem C4_display_num_witness :
    120 < 1000000 ∧
    cells6 (display_num 120 onesState) =
      [(0, 0), (0, 0), (0, 0), (0x60, 0x20), (0xDB, 0x00), (0xFC, 0x28)] :=
  ⟨by decide, (C4_display_num 120 (by decide) onesState).1.trans (by
    have h : decDigits 120 = [0, 2, 1] := by norm_num [decDigits]
    rw [h]; decide)⟩

/-! ## `scroll_text` -/

/-- The character the fill loop of `scroll_text` stores at index `i`. -/
theorem scroll_fill_getD (m : List Nat) (n : Nat) (hn : n < m.length + 12) :
    (scroll_fill m).getD n 0 =
      if n < 6 then 32 else if n > m.length + 5 then 32 else m.getD (n - 6) 0 := by
  unfold scroll_fill
  have hbody : (fun (buf : List Nat) (i : Nat) =>
        if i < 6 then buf.set i 32
        else if i > m.length + 5 then buf.set i 32
        else buf.set i (m.getD (i - 6) 0)) =
      (fun buf i => buf.set i
        (if i < 6 then 32 else if i > m.length + 5 then 32 else m.getD (i - 6) 0)) := by
    funext buf i
    split_ifs <;> rfl
  simp only [hbody]
  rw [foldl_set_getD, List.length_replicate, if_pos ⟨hn, hn⟩]

theorem scroll_fill_length (m : List Nat) : (scroll_fill m).length = m.length + 12 := by
  unfold scroll_fill
  have hbody : (fun (buf : List Nat) (i : Nat) =>
        if i < 6 then buf.set i 32
        else if i > m.length + 5 then buf.set i 32
        else buf.set i (m.getD (i - 6) 0)) =
      (fun buf i => buf.set i
        (if i < 6 then 32 else if i > m.length + 5 then 32 else m.getD (i - 6) 0)) := by
    funext buf i
    split_ifs <;> rfl
  simp only [hbody]
  rw [foldl_set_length, List.length_replicate]

theorem scroll_fill_eq (m : List Nat) :
    scroll_fill m = List.replicate 6 32 ++ m ++ List.replicate 6 32 := by
  apply List.ext_getElem?
  intro n
  by_cases hn : n < m.length + 12
  · have hlen : n < (scroll_fill m).length := by rw [scroll_fill_length]; exact hn
    rw [List.getElem?_eq_getElem hlen, ← List.getD_eq_getElem _ 0 hlen, scroll_fill_getD m n hn,
      List.getElem?_append, List.getElem?_append]
    simp only [List.length_append, List.length_replicate]
    by_cases h6 : n < 6
    · rw [if_pos h6, if_pos (by omega), if_pos h6, List.getElem?_replicate, if_pos h6]
    · by_cases hm : n > m.length + 5
      · rw [if_neg h6, if_pos hm, if_neg (by omega), List.getElem?_replicate,
          if_pos (by omega)]
      · have hidx : n - 6 < m.length := by omega
        rw [if_neg h6, if_neg hm, if_pos (by omega), if_neg h6,
          List.getElem?_eq_getElem hidx, List.getD_eq_getElem _ 0 hidx]
  · rw [List.getElem?_eq_none (by rw [scroll_fill_length]; omega),
      List.getElem?_eq_none (by simp; omega)]

theorem delay_cycles_delays (n : Nat) (w : World) :
    (delay_cycles n w).delays = w.delays ++ [(n, w.lcd)] := rfl

theorem delay_cycles_lcd (n : Nat) (w : World) : (delay_cycles n w).lcd = w.lcd := rfl

theorem print_steps (buf : List Nat) (n : Nat) (w : World) :
    ((List.range n).foldl
        (fun w i => delay_cycles 2000000 { w with lcd := print6 buf i w.lcd }) w).lcd =
      (if n = 0 then w.lcd else print6 buf (n - 1) w.lcd) ∧
    ((List.range n).foldl
        (fun w i => delay_cycles 2000000 { w with lcd := print6 buf i w.lcd }) w).delays =
      w.delays ++ (List.range n).map (fun i => (2000000, print6 buf i w.lcd)) := by
  induction n with
  | zero => simp
  | succ k ih =>
    obtain ⟨ih1, ih2⟩ := ih
    rw [List.range_succ, List.foldl_append]
    simp only [List.foldl_cons, List.foldl_nil, delay_cycles_delays, delay_cycles_lcd, ih1,
      ih2, List.map_append, List.map_cons, List.map_nil, List.append_assoc]
    by_cases hk : k = 0
    · subst hk
      simp
    · simp only [hk, if_false, print6_print6]
      simp

theorem scroll_frames_eq (m : List Nat) (st : LcdState) :
    scroll_frames m st =
      (List.range (m.length + 7)).map (fun i => print6 (scroll_fill m) i st) := by
  unfold scroll_frames print_loop
  rw [(print_steps (scroll_fill m) (m.length + 7) { lcd := st, delays := [] }).2]
  simp [Function.comp_def]

theorem scroll_frames_cells (m : List Nat) (st : LcdState) :
    (scroll_frames m st).map cells6 =
      (List.range (m.length + 7)).map (fun i => windowGlyphs (scroll_fill m) i) := by
  rw [scroll_frames_eq, List.map_map]
  apply List.map_congr_left
  intro i _
  exact cells6_print6 _ _ _

theorem scroll_text_delays (m : List Nat) (st : LcdState) :
    (scroll_text m { lcd := st, delays := [] }).delays =
      (scroll_frames m st).map (fun f => (2000000, f)) ++
        [(2000000, clear_lcd (print6 (scroll_fill m) (m.length + 6) st))] := by
  have h := print_steps (scroll_fill m) (m.length + 7) { lcd := st, delays := [] }
  unfold scroll_text scroll_frames print_loop
  rw [delay_cycles_delays]
  simp only [h.1, h.2]
  simp [Function.comp_def]

theorem scroll_frames_getElem? (m : List Nat) (st : LcdState) (i : Nat)
    (hi : i < m.length + 7) :
    (scroll_frames m st)[i]? = some (print6 (scroll_fill m) i st) := by
  rw [scroll_frames_eq, List.getElem?_map, List.getElem?_range hi, Option.map_some']

theorem scroll_frames_length (m : List Nat) (st : LcdState) :
    (scroll_frames m st).length = m.length + 7 := by
  rw [scroll_frames_eq, List.length_map, List.length_range]

theorem windowGlyphs_blank (buf : List Nat) (i : Nat)
    (h : ∀ j, j < 6 → buf.getD (i + j) 0 = 32) :
    windowGlyphs buf i = List.replicate 6 (0, 0) := by
  unfold windowGlyphs
  have hmap : (List.range 6).map (fun j => glyphBytes (symb_val (buf.getD (i + j) 0))) =
      (List.range 6).map (fun _ => ((0, 0) : Nat × Nat)) := by
    apply List.map_congr_left
    intro j hj
    rw [h j (List.mem_range.mp hj)]
    exact symb_val_blank
  rw [hmap]
  rfl

theorem windowGlyphs_shift (buf : List Nat) (i : Nat) :
    (windowGlyphs buf (i + 1)).take 5 = (windowGlyphs buf i).drop 1 := by
  simp [windowGlyphs, List.range_succ, Nat.add_assoc, Nat.add_comm 1]

theorem window6_eq_msg (m : List Nat) :
    windowGlyphs (scroll_fill m) 6 = windowGlyphs (msg_buf m) 0 := by
  unfold windowGlyphs
  apply List.map_congr_left
  intro j hj
  have hj6 : j < 6 := List.mem_range.mp hj
  rw [scroll_fill_getD m (6 + j) (by omega), Nat.zero_add, msg_buf_getD m j hj6,
    if_neg (by omega)]
  by_cases h : j < m.length
  · rw [if_neg (by omega), if_pos h, Nat.add_sub_cancel_left]
  · rw [if_pos (by omega), if_neg h]

/-- C5 (amended): for every message `m`, `scroll_text(m)` renders exactly
`length(m) + 7` frames, at window offsets 0 through `length(m) + 6` inclusive, one
delay per frame followed by one more delay after the clear (`scroll_text("AB")`
renders exactly 9 frames). -/
theorem C5_scroll_frame_count (m : List Nat) (st : LcdState) :
    (scroll_frames m st).length = m.length + 7 ∧
    scroll_frames m st =
      (List.range (m.length + 7)).map (fun i => print6 (scroll_fill m) i st) ∧
    (scroll_text m { lcd := st, delays := [] }).delays.length = (m.length + 7) + 1 ∧
    (scroll_text m { lcd := st, delays := [] }).delays.take (m.length + 7) =
      (scroll_frames m st).map (fun f => (2000000, f)) ∧
    (scroll_frames (cstr "AB") st).length = 9 := by
  refine ⟨scroll_frames_length m st, scroll_frames_eq m st, ?_, ?_, scroll_frames_length _ st⟩
  · rw [scroll_text_delays, List.length_append, List.length_map, scroll_frames_length]
    rfl
  · rw [scroll_text_delays]
    have hl : ((scroll_frames m st).map (fun f => ((2000000 : Nat), f))).length =
        m.length + 7 := by
      rw [List.length_map, scroll_frames_length]
    rw [← hl, List.take_left]

/-- C5 as stated fails: `scroll_text("AB")` does not render `length("AB") + 6 = 8`
frames. -/
theorem C5_eight_frames_refuted :
    ¬ ((scroll_frames (cstr "AB") zeroState).length = (cstr "AB").length + 6) := by
  rw [scroll_frames_length]
  decide

/-- C6: for every message `m`, the first frame and the last frame rendered by
`scroll_text(m)` are entirely blank: all six cells A1..A6 hold the pattern 0x0000. -/
theorem C6_scroll_first_last_blank (m : List Nat) (st : LcdState) :
    (scroll_frames m st).head?.map cells6 = some (List.replicate 6 (0, 0)) ∧
    (scroll_frames m st).getLast?.map cells6 = some (List.replicate 6 (0, 0)) := by
  constructor
  · rw [List.head?_eq_getElem?, scroll_frames_getElem? m st 0 (by omega), Option.map_some',
      cells6_print6, windowGlyphs_blank]
    intro j hj
    rw [scroll_fill_getD m (0 + j) (by omega), if_pos (by omega)]
  · rw [List.getLast?_eq_getElem?, scroll_frames_length,
      scroll_frames_getElem? m st (m.length + 7 - 1) (by omega), Option.map_some',
      cells6_print6, windowGlyphs_blank]
    intro j hj
    rw [scroll_fill_getD m (m.length + 7 - 1 + j) (by omega), if_neg (by omega),
      if_pos (by omega)]

/-- C7: for every message `m`, the frame `scroll_text(m)` renders at window offset 6
puts on A1..A6 exactly the glyphs `display_msg(m)` puts there: the first 6 characters
of `m` starting on A1, right-padded with blanks (for "AB": 'A' on A1, 'B' on A2, the
other four cells blank). -/
theorem C7_scroll_offset6_eq_display_msg (m : List Nat) (st st2 : LcdState) :
    (scroll_frames m st)[6]?.map cells6 = some (cells6 (display_msg m st2)) ∧
    (scroll_frames m st)[6]?.map cells6 =
      some ((List.range 6).map
        (fun i => if i < m.length then glyphBytes (symb_val (m.getD i 0)) else (0, 0))) ∧
    (scroll_frames (cstr "AB") st)[6]?.map cells6 =
      some [(0xEF, 0x00), (0xF1, 0x50), (0, 0), (0, 0), (0, 0), (0, 0)] := by
  have key : ∀ (m : List Nat) (s2 : LcdState),
      (scroll_frames m st)[6]?.map cells6 = some (cells6 (display_msg m s2)) := by
    intro m s2
    rw [scroll_frames_getElem? m st 6 (by omega), Option.map_some', cells6_print6,
      window6_eq_msg]
    unfold display_msg
    rw [cells6_print6]
  refine ⟨key m st2, ?_, ?_⟩
  · rw [key m st2, cells6_display_msg]
  · rw [key _ st, cells6_display_msg]
    decide

/-- C8: for every message `m`, `scroll_text(m)` fills a working buffer of exactly
`length(m) + 12` characters equal to 6 spaces, then `m`, then 6 spaces; the `i`-th
rendered frame puts on cell A(j+1), for j in 0..5, the glyph of `buffer[i + j]`; hence
each frame is the previous one shifted left by one cell. -/
theorem C8_scroll_buffer_frames (m : List Nat) (st : LcdState) :
    scroll_fill m = List.replicate 6 32 ++ m ++ List.replicate 6 32 ∧
    (scroll_fill m).length = m.length + 12 ∧
    (scroll_frames m st).map cells6 =
      (List.range (m.length + 7)).map (fun i =>
        (List.range 6).map (fun j => glyphBytes (symb_val ((scroll_fill m).getD (i + j) 0)))) ∧
    (∀ i f g, (scroll_frames m st)[i]? = some f → (scroll_frames m st)[i + 1]? = some g →
      (cells6 g).take 5 = (cells6 f).drop 1) := by
  refine ⟨scroll_fill_eq m, scroll_fill_length m, scroll_frames_cells m st, ?_⟩
  intro i f g hf hg
  have hi : i + 1 < m.length + 7 := by
    by_contra hcon
    rw [List.getElem?_eq_none (by rw [scroll_frames_length]; omega)] at hg
    exact Option.noConfusion hg
  rw [scroll_frames_getElem? m st i (by omega)] at hf
  rw [scroll_frames_getElem? m st (i + 1) hi] at hg
  cases hf
  cases hg
  rw [cells6_print6, cells6_print6]
  exact windowGlyphs_shift _ i

/-- C8 on "AB": the frame at offset 7 is the frame at offset 6 shifted left by one cell. -/
theorem C8_scroll_buffer_frames_witness :
    (scroll_frames (cstr "AB") zeroState)[6]? =
      some (print6 (scroll_fill (cstr "AB")) 6 zeroState) ∧
    (scroll_frames (cstr "AB") zeroState)[6 + 1]? =
      some (print6 (scroll_fill (cstr "AB")) 7 zeroState) ∧
    (cells6 (print6 (scroll_fill (cstr "AB")) 7 zeroState)).take 5 =
      (cells6 (print6 (scroll_fill (cstr "AB")) 6 zeroState)).drop 1 :=
  ⟨scroll_frames_getElem? _ _ 6 (by decide), scroll_frames_getElem? _ _ 7 (by decide),
    (C8_scroll_buffer_frames (cstr "AB") zeroState).2.2.2 6 _ _
      (scroll_frames_getElem? _ _ 6 (by decide)) (scroll_frames_getElem? _ _ 7 (by decide))⟩

/-! ## `display_symbol` and `clear_symbol` -/

theorem display_symbol_eq (s : Nat) (st : LcdState) (hs : 1 ≤ s ∧ s ≤ 0x18) :
    display_symbol s st = orMem st (posOf s) (maskOf s) := by
  obtain ⟨h1, h2⟩ := hs
  interval_cases s <;> rfl

theorem clear_symbol_eq (s : Nat) (st : LcdState) (hs : 1 ≤ s ∧ s ≤ 0x18) :
    clear_symbol s st = andNotMem st (posOf s) (maskOf s) := by
  obtain ⟨h1, h2⟩ := hs
  interval_cases s <;> rfl

theorem maskOf_lt (s : Nat) (hs : 1 ≤ s ∧ s ≤ 0x18) : maskOf s < 256 := by
  obtain ⟨h1, h2⟩ := hs
  interval_cases s <;> decide

theorem orMem_at (st : LcdState) (p mask : Nat) (ho : st.LCDMEM p < 256) (hm : mask < 256) :
    (orMem st p mask).LCDMEM p = st.LCDMEM p ||| mask := by
  have hlt : st.LCDMEM p ||| mask < 2 ^ 8 := Nat.or_lt_two_pow ho hm
  simp only [orMem, setMem, store, if_true]
  exact Nat.mod_eq_of_lt hlt

theorem orMem_other (st : LcdState) (p mask q : Nat) (hq : q ≠ p) :
    (orMem st p mask).LCDMEM q = st.LCDMEM q := by
  simp only [orMem, setMem, store, hq, if_false]

theorem andnot_byte (old mask : Nat) (ho : old < 256) :
    (old &&& (0xFFFF ^^^ mask)) % 256 = old &&& (0xFF ^^^ mask) := by
  have hlt : old &&& (0xFFFF ^^^ mask) < 256 := by
    have : old &&& (0xFFFF ^^^ mask) ≤ old := Nat.and_le_left
    omega
  rw [Nat.mod_eq_of_lt hlt]
  apply Nat.eq_of_testBit_eq
  intro i
  rw [Nat.testBit_land, Nat.testBit_land, Nat.testBit_xor, Nat.testBit_xor]
  by_cases hi : i < 8
  · have h1 : (0xFFFF : Nat).testBit i = true := by interval_cases i <;> rfl
    have h2 : (0xFF : Nat).testBit i = true := by interval_cases i <;> rfl
    rw [h1, h2]
  · have h3 : old.testBit i = false := by
      apply Nat.testBit_eq_false_of_lt
      have : (2 : Nat) ^ 8 ≤ 2 ^ i := Nat.pow_le_pow_right (by decide) (by omega)
      omega
    rw [h3]
    simp

theorem andNotMem_at (st : LcdState) (p mask : Nat) (ho : st.LCDMEM p < 256) :
    (andNotMem st p mask).LCDMEM p = st.LCDMEM p &&& (0xFF ^^^ mask) := by
  simp only [andNotMem, setMem, store, if_true]
  exact andnot_byte _ _ ho

theorem andNotMem_other (st : LcdState) (p mask q : Nat) (hq : q ≠ p) :
    (andNotMem st p mask).LCDMEM q = st.LCDMEM q := by
  simp only [andNotMem, setMem, store, hq, if_false]

theorem zeroState_byte : ByteState zeroState :=
  fun _ => ⟨(by decide : (0 : Nat) < 256), (by decide : (0 : Nat) < 256)⟩

theorem onesState_byte : ByteState onesState :=
  fun _ => ⟨(by decide : (0xFF : Nat) < 256), (by decide : (0xFF : Nat) < 256)⟩

/-- C9: for every symbol identifier `s` in 0x01..0x18 and every memory state,
`display_symbol(s)` replaces exactly one primary byte, the one `s` is bound to, by
(old value OR mask(s)) and leaves every other primary byte unchanged; every bit of the
bound byte outside mask(s) keeps its value, and the bits of mask(s) are set.  The bound
byte `posOf s` and the mask `maskOf s` are the ones the `switch` uses for `s`. -/
theorem C9_display_symbol_or (s : Nat) (st : LcdState) (hs : 1 ≤ s ∧ s ≤ 0x18)
    (hb : ByteState st) :
    (display_symbol s st).LCDMEM (posOf s) = st.LCDMEM (posOf s) ||| maskOf s ∧
    (∀ q, q ≠ posOf s → (display_symbol s st).LCDMEM q = st.LCDMEM q) ∧
    (∀ b, (maskOf s).testBit b = false →
      ((display_symbol s st).LCDMEM (posOf s)).testBit b = (st.LCDMEM (posOf s)).testBit b) ∧
    (∀ b, (maskOf s).testBit b = true →
      ((display_symbol s st).LCDMEM (posOf s)).testBit b = true) := by
  have hat := orMem_at st (posOf s) (maskOf s) (hb _).1 (maskOf_lt s hs)
  rw [display_symbol_eq s st hs]
  refine ⟨hat, fun q hq => orMem_other st _ _ q hq, ?_, ?_⟩
  · intro b hbit
    rw [hat, Nat.testBit_lor, hbit, Bool.or_false]
  · intro b hbit
    rw [hat, Nat.testBit_lor, hbit, Bool.or_true]

/-- C9 at `TX_SYM` over a cleared memory: byte `LCD_A6 + 1` becomes 0x04, byte
`LCD_A6` stays 0. -/
theorem C9_display_symbol_or_witness :
    (1 ≤ TX_SYM ∧ TX_SYM ≤ 0x18) ∧ ByteState zeroState ∧
    (display_symbol TX_SYM zeroState).LCDMEM 8 = 0 ||| 0x04 ∧
    (display_symbol TX_SYM zeroState).LCDMEM 7 = 0 :=
  ⟨by decide, zeroState_byte,
    (C9_display_symbol_or TX_SYM zeroState (by decide) zeroState_byte).1,
    (C9_display_symbol_or TX_SYM zeroState (by decide) zeroState_byte).2.1 7 (by decide)⟩

/-- C10: for every symbol identifier `s` in 0x01..0x18 and every memory state,
`clear_symbol(s)` replaces exactly the primary byte `s` is bound to by
(old value AND NOT mask(s)) as an 8-bit value: the mask bit becomes 0, the other bits
of that byte and every other primary byte are unchanged.  The bound byte `posOf s` and
the mask `maskOf s` are the ones the `switch` uses for `s`. -/
theorem C10_clear_symbol_andnot (s : Nat) (st : LcdState) (hs : 1 ≤ s ∧ s ≤ 0x18)
    (hb : ByteState st) :
    (clear_symbol s st).LCDMEM (posOf s) = st.LCDMEM (posOf s) &&& (0xFF ^^^ maskOf s) ∧
    (∀ q, q ≠ posOf s → (clear_symbol s st).LCDMEM q = st.LCDMEM q) ∧
    (∀ b, (maskOf s).testBit b = true →
      ((clear_symbol s st).LCDMEM (posOf s)).testBit b = false) ∧
    (∀ b, (maskOf s).testBit b = false →
      ((clear_symbol s st).LCDMEM (posOf s)).testBit b = (st.LCDMEM (posOf s)).testBit b) := by
  have hat := andNotMem_at st (posOf s) (maskOf s) (hb _).1
  rw [clear_symbol_eq s st hs]
  refine ⟨hat, fun q hq => andNotMem_other st _ _ q hq, ?_, ?_⟩
  · intro b hbit
    have h8 : b < 8 := by
      by_contra hcon
      have hpow : (2 : Nat) ^ 8 ≤ 2 ^ b := Nat.pow_le_pow_right (by decide) (by omega)
      have hm := maskOf_lt s hs
      have hfalse : (maskOf s).testBit b = false :=
        Nat.testBit_eq_false_of_lt (by omega)
      rw [hfalse] at hbit
      exact Bool.noConfusion hbit
    have h2 : (0xFF : Nat).testBit b = true := by interval_cases b <;> rfl
    rw [hat, Nat.testBit_land, Nat.testBit_xor, hbit, h2]
    simp
  · intro b hbit
    rw [hat, Nat.testBit_land, Nat.testBit_xor, hbit]
    by_cases h8 : b < 8
    · have h2 : (0xFF : Nat).testBit b = true := by interval_cases b <;> rfl
      rw [h2]
      simp
    · have h3 : (st.LCDMEM (posOf s)).testBit b = false := by
        apply Nat.testBit_eq_false_of_lt
        have : (2 : Nat) ^ 8 ≤ 2 ^ b := Nat.pow_le_pow_right (by decide) (by omega)
        have := (hb (posOf s)).1
        omega
      rw [h3]
      simp

/-- C10 at `B5_SYM` over a memory of all-ones bytes: byte `LCD_AT2` becomes 0x7F, its
neighbour `LCD_A4` stays 0xFF. -/
theorem C10_clear_symbol_andnot_witness :
    (1 ≤ B5_SYM ∧ B5_SYM ≤ 0x18) ∧ ByteState onesState ∧
    (clear_symbol B5_SYM onesState).LCDMEM 17 = 0xFF &&& (0xFF ^^^ 0x80) ∧
    (clear_symbol B5_SYM onesState).LCDMEM 18 = 0xFF :=
  ⟨by decide, onesState_byte,
    (C10_clear_symbol_andnot B5_SYM onesState (by decide) onesState_byte).1,
    (C10_clear_symbol_andnot B5_SYM onesState (by decide) onesState_byte).2.1 18 (by decide)⟩

/-! ## `clear_lcd_mem` and `clear_lcd` -/

theorem clear_lcd_mem_mem (p : Nat) (st : LcdState) (q : Nat) :
    (clear_lcd_mem p st).LCDMEM q = if q = p + 1 then 0 else if q = p then 0 else st.LCDMEM q :=
  rfl

theorem clear_lcd_mem_bmem (p : Nat) (st : LcdState) (q : Nat) :
    (clear_lcd_mem p st).LCDBMEM q =
      if q = p + 1 then 0 else if q = p then 0 else st.LCDBMEM q :=
  rfl

theorem clear_lcd_mem_regs (p : Nat) (st : LcdState) :
    (clear_lcd_mem p st).LCDCCTL0 = st.LCDCCTL0 ∧
    (clear_lcd_mem p st).LCDCPCTL0 = st.LCDCPCTL0 ∧
    (clear_lcd_mem p st).LCDCPCTL1 = st.LCDCPCTL1 ∧
    (clear_lcd_mem p st).LCDCPCTL2 = st.LCDCPCTL2 ∧
    (clear_lcd_mem p st).LCDCVCTL = st.LCDCVCTL ∧
    (clear_lcd_mem p st).LCDCCPCTL = st.LCDCCPCTL ∧
    (clear_lcd_mem p st).LCDCMEMCTL = st.LCDCMEMCTL :=
  ⟨rfl, rfl, rfl, rfl, rfl, rfl, rfl⟩

theorem mem_logicalBytes_iff (q : Nat) :
    q ∈ logicalBytes ↔
      (q = 9 ∨ q = 10 ∨ q = 5 ∨ q = 6 ∨ q = 3 ∨ q = 4 ∨ q = 18 ∨ q = 19 ∨ q = 14 ∨ q = 15 ∨
        q = 7 ∨ q = 8 ∨ q = 2 ∨ q = 17 ∨ q = 13) := by
  simp [logicalBytes, LCD_A1, LCD_A2, LCD_A3, LCD_A4, LCD_A5, LCD_A6, LCD_AT1, LCD_AT2, LCD_AT3]

theorem clear_lcd_mem_eq (st : LcdState) (q : Nat) :
    (clear_lcd st).LCDMEM q = if q ∈ logicalBytes then 0 else st.LCDMEM q := by
  have hL : (clear_lcd st).LCDMEM q =
      if q = 2 then 0 else if q = 17 then 0 else if q = 13 then 0
      else if q = 13 then 0 else if q = 17 then 0 else if q = 2 then 0
      else if q = 8 then 0 else if q = 7 then 0 else if q = 15 then 0 else if q = 14 then 0
      else if q = 19 then 0 else if q = 18 then 0 else if q = 4 then 0 else if q = 3 then 0
      else if q = 6 then 0 else if q = 5 then 0 else if q = 10 then 0 else if q = 9 then 0
      else st.LCDMEM q := rfl
  rw [hL]
  by_cases h : q ∈ logicalBytes
  · rw [if_pos h]
    rw [mem_logicalBytes_iff] at h
    rcases h with h | h | h | h | h | h | h | h | h | h | h | h | h | h | h <;> subst h <;> rfl
  · rw [if_neg h]
    rw [mem_logicalBytes_iff] at h
    simp only [not_or] at h
    obtain ⟨h1, h2, h3, h4, h5, h6, h7, h8, h9, h10, h11, h12, h13, h14, h15⟩ := h
    simp only [h1, h2, h3, h4, h5, h6, h7, h8, h9, h10, h11, h12, h13, h14, h15, if_false]

theorem clear_lcd_bmem_eq (st : LcdState) (q : Nat) :
    (clear_lcd st).LCDBMEM q = if q ∈ logicalBytes then 0 else st.LCDBMEM q := by
  have hL : (clear_lcd st).LCDBMEM q =
      if q = 2 then 0 else if q = 17 then 0 else if q = 13 then 0
      else if q = 13 then 0 else if q = 17 then 0 else if q = 2 then 0
      else if q = 8 then 0 else if q = 7 then 0 else if q = 15 then 0 else if q = 14 then 0
      else if q = 19 then 0 else if q = 18 then 0 else if q = 4 then 0 else if q = 3 then 0
      else if q = 6 then 0 else if q = 5 then 0 else if q = 10 then 0 else if q = 9 then 0
      else st.LCDBMEM q := rfl
  rw [hL]
  by_cases h : q ∈ logicalBytes
  · rw [if_pos h]
    rw [mem_logicalBytes_iff] at h
    rcases h with h | h | h | h | h | h | h | h | h | h | h | h | h | h | h <;> subst h <;> rfl
  · rw [if_neg h]
    rw [mem_logicalBytes_iff] at h
    simp only [not_or] at h
    obtain ⟨h1, h2, h3, h4, h5, h6, h7, h8, h9, h10, h11, h12, h13, h14, h15⟩ := h
    simp only [h1, h2, h3, h4, h5, h6, h7, h8, h9, h10, h11, h12, h13, h14, h15, if_false]

theorem clear_lcd_regs (st : LcdState) :
    (clear_lcd st).LCDCCTL0 = st.LCDCCTL0 ∧
    (clear_lcd st).LCDCPCTL0 = st.LCDCPCTL0 ∧
    (clear_lcd st).LCDCPCTL1 = st.LCDCPCTL1 ∧
    (clear_lcd st).LCDCPCTL2 = st.LCDCPCTL2 ∧
    (clear_lcd st).LCDCVCTL = st.LCDCVCTL ∧
    (clear_lcd st).LCDCCPCTL = st.LCDCCPCTL ∧
    (clear_lcd st).LCDCMEMCTL = st.LCDCMEMCTL :=
  ⟨rfl, rfl, rfl, rfl, rfl, rfl, rfl⟩

theorem mem_muxRegs_logical (q : Nat) (h : q ∈ muxRegs) : q ∈ logicalBytes := by
  rw [mem_logicalBytes_iff]
  simp only [muxRegs, LCDM, List.mem_cons, List.mem_singleton, List.mem_nil_iff, or_false] at h
  omega

theorem mem_primaryCells_iff (p : Nat) :
    p ∈ primaryCells ↔ (p = 9 ∨ p = 5 ∨ p = 3 ∨ p = 18 ∨ p = 14 ∨ p = 7) := by
  simp [primaryCells, LCD_A1, LCD_A2, LCD_A3, LCD_A4, LCD_A5, LCD_A6]

theorem mem_auxCells_iff (p : Nat) : p ∈ auxCells ↔ (p = 2 ∨ p = 17 ∨ p = 13) := by
  simp [auxCells, LCD_AT1, LCD_AT2, LCD_AT3]

theorem display_symbol_unknown (s : Nat) (st : LcdState) (h : s = NONE_SYM ∨ 0x19 ≤ s) :
    display_symbol s st = st := by
  unfold display_symbol
  simp only [NONE_SYM, NEG_SYM, COLON1_SYM, COLON2_SYM, DP1_SYM, DP2_SYM, DP3_SYM, DP4_SYM,
    DP5_SYM, ANT_SYM, DEG_SYM, TX_SYM, RX_SYM, EXCL_SYM, REC_SYM, HRT_SYM, TMR_SYM, BRKT_SYM,
    B1_SYM, B3_SYM, B5_SYM, BATT_SYM, B2_SYM, B4_SYM, B6_SYM] at h ⊢
  repeat rw [if_neg (by omega)]

theorem clear_symbol_unknown (s : Nat) (st : LcdState) (h : s = NONE_SYM ∨ 0x19 ≤ s) :
    clear_symbol s st = st := by
  unfold clear_symbol
  simp only [NONE_SYM, NEG_SYM, COLON1_SYM, COLON2_SYM, DP1_SYM, DP2_SYM, DP3_SYM, DP4_SYM,
    DP5_SYM, ANT_SYM, DEG_SYM, TX_SYM, RX_SYM, EXCL_SYM, REC_SYM, HRT_SYM, TMR_SYM, BRKT_SYM,
    B1_SYM, B3_SYM, B5_SYM, BATT_SYM, B2_SYM, B4_SYM, B6_SYM] at h ⊢
  repeat rw [if_neg (by omega)]

theorem symbol_id_cases (s : Nat) : (1 ≤ s ∧ s ≤ 0x18) ∨ (s = NONE_SYM ∨ 0x19 ≤ s) := by
  simp only [NONE_SYM]
  omega

theorem display_symbol_bmem (s : Nat) (st : LcdState) :
    (display_symbol s st).LCDBMEM = st.LCDBMEM := by
  rcases symbol_id_cases s with h | h
  · rw [display_symbol_eq s st h]
    rfl
  · rw [display_symbol_unknown s st h]

theorem clear_symbol_bmem (s : Nat) (st : LcdState) :
    (clear_symbol s st).LCDBMEM = st.LCDBMEM := by
  rcases symbol_id_cases s with h | h
  · rw [clear_symbol_eq s st h]
    rfl
  · rw [clear_symbol_unknown s st h]

/-- C14: for every 8-bit identifier that is not a defined symbol (`NONE_SYM = 0` and
every value 0x19..0xFF), `display_symbol` and `clear_symbol` leave the whole state
(primary memory, shadow memory and control registers) unchanged. -/
theorem C14_unknown_symbol_noop (s : Nat) (st : LcdState)
    (h : s = NONE_SYM ∨ (0x19 ≤ s ∧ s ≤ 0xFF)) :
    display_symbol s st = st ∧ clear_symbol s st = st := by
  have h2 : s = NONE_SYM ∨ 0x19 ≤ s := by
    rcases h with h | h
    · exact Or.inl h
    · exact Or.inr h.1
  exact ⟨display_symbol_unknown s st h2, clear_symbol_unknown s st h2⟩

/-- C14 at the identifiers 0x19 and 0: the state of all-ones memory is returned as it
was. -/
theorem C14_unknown_symbol_noop_witness :
    (0x19 = NONE_SYM ∨ (0x19 ≤ 0x19 ∧ 0x19 ≤ 0xFF)) ∧
    display_symbol 0x19 onesState = onesState ∧ clear_symbol 0x19 onesState = onesState :=
  ⟨by decide, C14_unknown_symbol_noop 0x19 onesState (by decide)⟩

/-- C15: from every memory state, after `clear_lcd()` every primary byte and every
shadow byte belonging to the 9 logical cells (positions `p` and `p + 1` for A1..A6,
position `p` for AT1..AT3) and to the three registers LCDM3/LCDM14/LCDM18 with their
LCDBM counterparts is zero. -/
theorem C15_clear_lcd_zero (st : LcdState) (q : Nat) (hq : q ∈ logicalBytes ++ muxRegs) :
    (clear_lcd st).LCDMEM q = 0 ∧ (clear_lcd st).LCDBMEM q = 0 := by
  have hmem : q ∈ logicalBytes := by
    rcases List.mem_append.mp hq with h | h
    · exact h
    · exact mem_muxRegs_logical q h
  rw [clear_lcd_mem_eq, clear_lcd_bmem_eq, if_pos hmem, if_pos hmem]
  exact ⟨rfl, rfl⟩

/-- C15 at the low byte of A4 and at LCDM14, from a memory of all-ones bytes. -/
theorem C15_clear_lcd_zero_witness :
    (LCD_A4 + 1 ∈ logicalBytes ++ muxRegs ∧ LCDM 14 ∈ logicalBytes ++ muxRegs) ∧
    ((clear_lcd onesState).LCDMEM (LCD_A4 + 1) = 0 ∧
      (clear_lcd onesState).LCDBMEM (LCD_A4 + 1) = 0) ∧
    ((clear_lcd onesState).LCDMEM (LCDM 14) = 0 ∧ (clear_lcd onesState).LCDBMEM (LCDM 14) = 0) :=
  ⟨by decide, C15_clear_lcd_zero onesState (LCD_A4 + 1) (by decide),
    C15_clear_lcd_zero onesState (LCDM 14) (by decide)⟩

/-- C16: for every primary cell position `p` in {LCD_A1..LCD_A6} and every memory
state, `clear_lcd_mem(p)` sets `LCDMEM[p]`, `LCDMEM[p+1]`, `LCDBMEM[p]` and
`LCDBMEM[p+1]` to zero and changes no other primary or shadow byte (and no control
register), so no other logical cell is affected. -/
theorem C16_clear_lcd_mem_primary (p : Nat) (st : LcdState) (hp : p ∈ primaryCells) :
    ((clear_lcd_mem p st).LCDMEM p = 0 ∧ (clear_lcd_mem p st).LCDMEM (p + 1) = 0 ∧
      (clear_lcd_mem p st).LCDBMEM p = 0 ∧ (clear_lcd_mem p st).LCDBMEM (p + 1) = 0) ∧
    (∀ q, q ≠ p → q ≠ p + 1 →
      (clear_lcd_mem p st).LCDMEM q = st.LCDMEM q ∧
      (clear_lcd_mem p st).LCDBMEM q = st.LCDBMEM q) ∧
    (∀ p2, p2 ∈ primaryCells → p2 ≠ p →
      (clear_lcd_mem p st).LCDMEM p2 = st.LCDMEM p2 ∧
      (clear_lcd_mem p st).LCDMEM (p2 + 1) = st.LCDMEM (p2 + 1) ∧
      (clear_lcd_mem p st).LCDBMEM p2 = st.LCDBMEM p2 ∧
      (clear_lcd_mem p st).LCDBMEM (p2 + 1) = st.LCDBMEM (p2 + 1)) ∧
    (∀ a, a ∈ auxCells →
      (clear_lcd_mem p st).LCDMEM a = st.LCDMEM a ∧
      (clear_lcd_mem p st).LCDBMEM a = st.LCDBMEM a) ∧
    (clear_lcd_mem p st).LCDCCTL0 = st.LCDCCTL0 := by
  have hother : ∀ q, q ≠ p → q ≠ p + 1 →
      (clear_lcd_mem p st).LCDMEM q = st.LCDMEM q ∧
      (clear_lcd_mem p st).LCDBMEM q = st.LCDBMEM q := by
    intro q h1 h2
    rw [clear_lcd_mem_mem, clear_lcd_mem_bmem, if_neg h2, if_neg h1, if_neg h2, if_neg h1]
    exact ⟨rfl, rfl⟩
  rw [mem_primaryCells_iff] at hp
  refine ⟨?_, hother, ?_, ?_, rfl⟩
  · simp [clear_lcd_mem_mem, clear_lcd_mem_bmem]
  · intro p2 hp2 hne
    rw [mem_primaryCells_iff] at hp2
    have h1 := hother p2 hne (by omega)
    have h2 := hother (p2 + 1) (by omega) (by omega)
    exact ⟨h1.1, h2.1, h1.2, h2.2⟩
  · intro a ha
    rw [mem_auxCells_iff] at ha
    exact hother a (by omega) (by omega)

/-- C16 at `LCD_A3` over all-ones memory: bytes 3 and 4 become zero, the neighbours
`LCD_AT1` (position 2) and `LCD_A2 + 1` (position 6) keep 0xFF. -/
theorem C16_clear_lcd_mem_primary_witness :
    LCD_A3 ∈ primaryCells ∧
    ((clear_lcd_mem LCD_A3 onesState).LCDMEM 3 = 0 ∧
      (clear_lcd_mem LCD_A3 onesState).LCDMEM 4 = 0 ∧
      (clear_lcd_mem LCD_A3 onesState).LCDBMEM 3 = 0 ∧
      (clear_lcd_mem LCD_A3 onesState).LCDBMEM 4 = 0) ∧
    ((clear_lcd_mem LCD_A3 onesState).LCDMEM 2 = 0xFF ∧
      (clear_lcd_mem LCD_A3 onesState).LCDBMEM 2 = 0xFF) :=
  ⟨by decide, (C16_clear_lcd_mem_primary LCD_A3 onesState (by decide)).1,
    (C16_clear_lcd_mem_primary LCD_A3 onesState (by decide)).2.1 2 (by decide) (by decide)⟩

/-- C17 (amended): for every auxiliary cell position `p` in {LCD_AT1, LCD_AT2, LCD_AT3}
and every memory state, `clear_lcd_mem(p)` zeroes the two bytes at positions `p` and
`p + 1` in primary and in shadow memory; position `p + 1` is the high byte of a
character cell (A3 for AT1, A4 for AT2, A5 for AT3); every other byte is unchanged. -/
theorem C17_clear_lcd_mem_aux (p : Nat) (st : LcdState) (hp : p ∈ auxCells) :
    ((clear_lcd_mem p st).LCDMEM p = 0 ∧ (clear_lcd_mem p st).LCDBMEM p = 0) ∧
    ((clear_lcd_mem p st).LCDMEM (p + 1) = 0 ∧ (clear_lcd_mem p st).LCDBMEM (p + 1) = 0) ∧
    p + 1 ∈ primaryCells ∧
    (LCD_AT1 + 1 = LCD_A3 ∧ LCD_AT2 + 1 = LCD_A4 ∧ LCD_AT3 + 1 = LCD_A5) ∧
    (∀ q, q ≠ p → q ≠ p + 1 →
      (clear_lcd_mem p st).LCDMEM q = st.LCDMEM q ∧
      (clear_lcd_mem p st).LCDBMEM q = st.LCDBMEM q) := by
  refine ⟨?_, ?_, ?_, by decide, ?_⟩
  · simp [clear_lcd_mem_mem, clear_lcd_mem_bmem]
  · simp [clear_lcd_mem_mem, clear_lcd_mem_bmem]
  · rw [mem_auxCells_iff] at hp
    rw [mem_primaryCells_iff]
    omega
  · intro q h1 h2
    rw [clear_lcd_mem_mem, clear_lcd_mem_bmem, if_neg h2, if_neg h1, if_neg h2, if_neg h1]
    exact ⟨rfl, rfl⟩

/-- C17 (amended) at `LCD_AT2` over all-ones memory: positions 17 and 18 become zero,
position 19 keeps 0xFF. -/
theorem C17_clear_lcd_mem_aux_witness :
    LCD_AT2 ∈ auxCells ∧
    ((clear_lcd_mem LCD_AT2 onesState).LCDMEM (LCD_AT2 + 1) = 0 ∧
      (clear_lcd_mem LCD_AT2 onesState).LCDBMEM (LCD_AT2 + 1) = 0) ∧
    ((clear_lcd_mem LCD_AT2 onesState).LCDMEM 19 = 0xFF ∧
      (clear_lcd_mem LCD_AT2 onesState).LCDBMEM 19 = 0xFF) :=
  ⟨by decide, (C17_clear_lcd_mem_aux LCD_AT2 onesState (by decide)).2.1,
    (C17_clear_lcd_mem_aux LCD_AT2 onesState (by decide)).2.2.2.2 19 (by decide) (by decide)⟩

/-- C17 as stated fails: `clear_lcd_mem(LCD_AT1)` does not leave every byte other than
position `LCD_AT1` unchanged; it zeroes the high byte of the neighbouring cell A3 in
primary and in shadow memory. -/
theorem C17_aux_single_byte_refuted :
    LCD_AT1 ∈ auxCells ∧ LCD_A3 ≠ LCD_AT1 ∧
    onesState.LCDMEM LCD_A3 = 0xFF ∧ onesState.LCDBMEM LCD_A3 = 0xFF ∧
    (clear_lcd_mem LCD_AT1 onesState).LCDMEM LCD_A3 = 0 ∧
    (clear_lcd_mem LCD_AT1 onesState).LCDBMEM LCD_A3 = 0 ∧
    ¬ (∀ q, q ≠ LCD_AT1 →
        (clear_lcd_mem LCD_AT1 onesState).LCDMEM q = onesState.LCDMEM q ∧
        (clear_lcd_mem LCD_AT1 onesState).LCDBMEM q = onesState.LCDBMEM q) := by
  refine ⟨by decide, by decide, rfl, rfl, rfl, rfl, ?_⟩
  intro h
  have h3 := (h LCD_A3 (by decide)).1
  exact absurd h3 (by decide)

/-- C18: `display_char` (for every character and position), `display_symbol` and
`clear_symbol` (for every identifier) leave the shadow/blink memory `LCDBMEM`
byte-for-byte unchanged. -/
theorem C18_shadow_unchanged (c p s : Nat) (st : LcdState) :
    (display_char c p st).LCDBMEM = st.LCDBMEM ∧
    (display_symbol s st).LCDBMEM = st.LCDBMEM ∧
    (clear_symbol s st).LCDBMEM = st.LCDBMEM :=
  ⟨display_char_bmem c p st, display_symbol_bmem s st, clear_symbol_bmem s st⟩

/-! ## Interaction of glyph writes and overlay symbols -/

theorem testBit_ff (i : Nat) : (0xFF : Nat).testBit i = decide (i < 8) :=
  Nat.testBit_two_pow_sub_one 8 i

theorem testBit_byte_high (old i : Nat) (ho : old < 256) (hi : ¬ i < 8) :
    old.testBit i = false := by
  apply Nat.testBit_eq_false_of_lt
  have : (2 : Nat) ^ 8 ≤ 2 ^ i := Nat.pow_le_pow_right (by decide) (by omega)
  omega

theorem or_andnot_byte (old m : Nat) (hm : m < 256) :
    (old ||| m) &&& (0xFF ^^^ m) = old &&& (0xFF ^^^ m) := by
  apply Nat.eq_of_testBit_eq
  intro i
  rw [Nat.testBit_land, Nat.testBit_land, Nat.testBit_lor, Nat.testBit_xor, testBit_ff]
  by_cases h8 : i < 8
  · simp only [h8, decide_True]
    cases old.testBit i <;> cases m.testBit i <;> rfl
  · rw [testBit_byte_high m i hm h8]
    simp

theorem andnot_eq_self_iff (old m : Nat) (ho : old < 256) :
    old &&& (0xFF ^^^ m) = old ↔ old &&& m = 0 := by
  constructor
  · intro h
    apply Nat.eq_of_testBit_eq
    intro i
    have hi := congrArg (fun x => Nat.testBit x i) h
    simp only [Nat.testBit_land, Nat.testBit_xor, testBit_ff] at hi
    rw [Nat.testBit_land, Nat.zero_testBit]
    by_cases h8 : i < 8
    · simp only [h8, decide_True] at hi
      cases ho2 : old.testBit i <;> cases hm : m.testBit i <;> simp_all
    · rw [testBit_byte_high old i ho h8]
      rfl
  · intro h
    apply Nat.eq_of_testBit_eq
    intro i
    have hi := congrArg (fun x => Nat.testBit x i) h
    simp only [Nat.testBit_land, Nat.zero_testBit] at hi
    rw [Nat.testBit_land, Nat.testBit_xor, testBit_ff]
    by_cases h8 : i < 8
    · simp only [h8, decide_True]
      cases ho2 : old.testBit i <;> cases hm : m.testBit i <;> simp_all
    · rw [testBit_byte_high old i ho h8]
      rfl

theorem display_then_clear_byte (s : Nat) (st : LcdState) (hs : 1 ≤ s ∧ s ≤ 0x18)
    (hb : ByteState st) :
    (clear_symbol s (display_symbol s st)).LCDMEM (posOf s) =
      st.LCDMEM (posOf s) &&& (0xFF ^^^ maskOf s) := by
  have hset := orMem_at st (posOf s) (maskOf s) (hb _).1 (maskOf_lt s hs)
  have hlt : (orMem st (posOf s) (maskOf s)).LCDMEM (posOf s) < 256 := by
    rw [hset]
    have h8 : st.LCDMEM (posOf s) ||| maskOf s < 2 ^ 8 :=
      Nat.or_lt_two_pow (hb _).1 (maskOf_lt s hs)
    exact h8
  rw [clear_symbol_eq s _ hs, display_symbol_eq s st hs, andNotMem_at _ _ _ hlt, hset,
    or_andnot_byte _ _ (maskOf_lt s hs)]

/-- C11 (amended): for every symbol `s` in 0x01..0x18 and every memory state,
`display_symbol(s)` followed by `clear_symbol(s)` leaves the byte `s` is bound to equal
to (old value AND NOT mask(s)): every bit outside mask(s) is restored, and the byte is
restored exactly to its previous value if and only if the bit of `s` was clear before
`display_symbol(s)`. -/
theorem C11_display_then_clear (s : Nat) (st : LcdState) (hs : 1 ≤ s ∧ s ≤ 0x18)
    (hb : ByteState st) :
    (clear_symbol s (display_symbol s st)).LCDMEM (posOf s) =
      st.LCDMEM (posOf s) &&& (0xFF ^^^ maskOf s) ∧
    ((clear_symbol s (display_symbol s st)).LCDMEM (posOf s) = st.LCDMEM (posOf s) ↔
      st.LCDMEM (posOf s) &&& maskOf s = 0) ∧
    (∀ b, (maskOf s).testBit b = false →
      ((clear_symbol s (display_symbol s st)).LCDMEM (posOf s)).testBit b =
        (st.LCDMEM (posOf s)).testBit b) := by
  have hbyte := display_then_clear_byte s st hs hb
  refine ⟨hbyte, ?_, ?_⟩
  · rw [hbyte]
    exact andnot_eq_self_iff _ _ (hb _).1
  · intro b hbit
    rw [hbyte, Nat.testBit_land, Nat.testBit_xor, hbit, testBit_ff]
    by_cases h8 : b < 8
    · simp [h8]
    · rw [testBit_byte_high _ b (hb _).1 h8]
      rfl

/-- C11 (amended) at `HRT_SYM`: over a cleared memory the byte `LCD_AT1` is restored
to 0. -/
theorem C11_display_then_clear_witness :
    (1 ≤ HRT_SYM ∧ HRT_SYM ≤ 0x18) ∧ ByteState zeroState ∧
    zeroState.LCDMEM (posOf HRT_SYM) &&& maskOf HRT_SYM = 0 ∧
    (clear_symbol HRT_SYM (display_symbol HRT_SYM zeroState)).LCDMEM (posOf HRT_SYM) =
      zeroState.LCDMEM (posOf HRT_SYM) :=
  ⟨by decide, zeroState_byte, by decide,
    (C11_display_then_clear HRT_SYM zeroState (by decide) zeroState_byte).2.1.mpr (by decide)⟩

/-- C11 as stated fails: with the byte of `NEG_SYM` at 0xFF before the call,
`display_symbol(NEG_SYM)` followed by `clear_symbol(NEG_SYM)` leaves 0xFB there. -/
theorem C11_restore_refuted :
    (1 ≤ NEG_SYM ∧ NEG_SYM ≤ 0x18) ∧
    onesState.LCDMEM (posOf NEG_SYM) = 0xFF ∧
    (clear_symbol NEG_SYM (display_symbol NEG_SYM onesState)).LCDMEM (posOf NEG_SYM) = 0xFB ∧
    (clear_symbol NEG_SYM (display_symbol NEG_SYM onesState)).LCDMEM (posOf NEG_SYM) ≠
      onesState.LCDMEM (posOf NEG_SYM) := by
  refine ⟨by decide, by decide, by decide, by decide⟩

theorem supported_low_bits (c : Nat) (h : supported c) :
    (symb_val c &&& 0xFF) &&& 0x01 = 0 ∧ (symb_val c &&& 0xFF) &&& 0x04 = 0 := by
  rcases h with h | h | h
  · subst h
    decide
  · obtain ⟨h1, h2⟩ := h
    interval_cases c <;> decide
  · obtain ⟨h1, h2⟩ := h
    interval_cases c <;> decide

theorem cell_symbol_mask (p s : Nat) (hp : p ∈ primaryCells) (hs : 1 ≤ s ∧ s ≤ 0x18)
    (hbind : posOf s = p + 1) : maskOf s = 0x01 ∨ maskOf s = 0x04 := by
  rw [mem_primaryCells_iff] at hp
  obtain ⟨h1, h2⟩ := hs
  interval_cases s <;> simp [posOf, symbolPos, maskOf, symbolMask, LCD_A1, LCD_A2, LCD_A3,
    LCD_A4, LCD_A5, LCD_A6, LCD_AT1, LCD_AT2, LCD_AT3, neg_sym, colon, dec_pt, antenna,
    deg_sym, tx_sym, rx_sym] at hbind ⊢ <;> omega

theorem display_char_low (c p : Nat) (st : LcdState) :
    (display_char c p st).LCDMEM (p + 1) = symb_val c &&& 0xFF := by
  rw [display_char_mem, if_pos rfl, lo_byte_mod]

theorem display_char_high (c p : Nat) (st : LcdState) :
    (display_char c p st).LCDMEM p = symb_val c >>> 8 := by
  rw [display_char_mem, if_neg (by omega), if_pos rfl, hi_byte_mod _ (symb_val_lt c)]

/-- C12 (amended): for every primary cell, every overlay symbol `s` bound to that
cell's low byte and every supported character `c` (space, '0'..'9', 'A'..'Z'): after
`display_char(c, cell)` the bit of `s` in the cell's low byte is clear, whatever it was
before (both overlay masks of the character cells, 0x01 and 0x04, are clear). -/
theorem C12_display_char_clears_overlay (c p s : Nat) (st : LcdState)
    (hp : p ∈ primaryCells) (hs : 1 ≤ s ∧ s ≤ 0x18) (hbind : posOf s = p + 1)
    (hc : supported c) :
    (display_char c p st).LCDMEM (p + 1) &&& maskOf s = 0 ∧
    (display_char c p st).LCDMEM (p + 1) &&& dec_pt = 0 ∧
    (display_char c p st).LCDMEM (p + 1) &&& neg_sym = 0 := by
  rw [display_char_low]
  refine ⟨?_, (supported_low_bits c hc).1, (supported_low_bits c hc).2⟩
  rcases cell_symbol_mask p s hp hs hbind with hm | hm
  · rw [hm]
    exact (supported_low_bits c hc).1
  · rw [hm]
    exact (supported_low_bits c hc).2

/-- C12 (amended) at 'A' on `LCD_A6` with `TX_SYM` shown before: the low byte 0xFF has
the tx bit set, and after `display_char` the bit is clear. -/
theorem C12_display_char_clears_overlay_witness :
    LCD_A6 ∈ primaryCells ∧ (1 ≤ TX_SYM ∧ TX_SYM ≤ 0x18) ∧ posOf TX_SYM = LCD_A6 + 1 ∧
    supported 65 ∧ onesState.LCDMEM (LCD_A6 + 1) &&& maskOf TX_SYM ≠ 0 ∧
    (display_char 65 LCD_A6 onesState).LCDMEM (LCD_A6 + 1) &&& maskOf TX_SYM = 0 :=
  ⟨by decide, by decide, by decide, by decide, by decide,
    (C12_display_char_clears_overlay 65 LCD_A6 TX_SYM onesState (by decide) (by decide)
      (by decide) (by decide)).1⟩

/-- C12 as stated fails for a character outside the supported set: with the negative
sign shown on A1, `display_char('a', LCD_A1)` writes the fault pattern 0xFF to the low
byte and the bit of `NEG_SYM` stays set. -/
theorem C12_fault_char_keeps_bit :
    LCD_A1 ∈ primaryCells ∧ (1 ≤ NEG_SYM ∧ NEG_SYM ≤ 0x18) ∧ posOf NEG_SYM = LCD_A1 + 1 ∧
    (display_symbol NEG_SYM zeroState).LCDMEM (LCD_A1 + 1) &&& maskOf NEG_SYM ≠ 0 ∧
    (display_char 97 LCD_A1 (display_symbol NEG_SYM zeroState)).LCDMEM (LCD_A1 + 1) = 0xFF ∧
    (display_char 97 LCD_A1 (display_symbol NEG_SYM zeroState)).LCDMEM (LCD_A1 + 1) &&&
      maskOf NEG_SYM ≠ 0 := by
  refine ⟨by decide, by decide, by decide, by decide, by decide, by decide⟩

/-- C13: for every supported character `c`, every primary cell and every symbol `s`
bound to that cell's low byte, `display_char(c, cell)` followed by `display_symbol(s)`
leaves the cell's high byte equal to `pattern(c) >> 8` and its low byte equal to
`(pattern(c) & 0xFF) OR mask(s)`: the symbol applied after the glyph write is shown and
the glyph is not disturbed. -/
theorem C13_symbol_after_glyph (c p s : Nat) (st : LcdState)
    (_hp : p ∈ primaryCells) (hs : 1 ≤ s ∧ s ≤ 0x18) (hbind : posOf s = p + 1)
    (_hc : supported c) :
    (display_symbol s (display_char c p st)).LCDMEM p = symb_val c >>> 8 ∧
    (display_symbol s (display_char c p st)).LCDMEM (p + 1) =
      (symb_val c &&& 0xFF) ||| maskOf s ∧
    (display_symbol s (display_char c p st)).LCDMEM (p + 1) &&& maskOf s = maskOf s := by
  have hlow := display_char_low c p st
  have hlt : (display_char c p st).LCDMEM (p + 1) < 256 := by
    rw [hlow]
    have : symb_val c &&& 0xFF ≤ 0xFF := Nat.and_le_right
    omega
  have hor : (display_symbol s (display_char c p st)).LCDMEM (p + 1) =
      (symb_val c &&& 0xFF) ||| maskOf s := by
    rw [display_symbol_eq s _ hs, hbind, orMem_at _ _ _ hlt (maskOf_lt s hs), hlow]
  refine ⟨?_, hor, ?_⟩
  · rw [display_symbol_eq s _ hs, hbind, orMem_other _ _ _ p (by omega), display_char_high]
  · rw [hor]
    apply Nat.eq_of_testBit_eq
    intro i
    rw [Nat.testBit_land, Nat.testBit_lor]
    cases (symb_val c &&& 0xFF).testBit i <;> cases (maskOf s).testBit i <;> rfl

/-- C13 at '5' on `LCD_A4` followed by `COLON2_SYM`, over all-ones memory: the high
byte is 0xB7 and the low byte is 0x00 OR 0x04. -/
theorem C13_symbol_after_glyph_witness :
    LCD_A4 ∈ primaryCells ∧ (1 ≤ COLON2_SYM ∧ COLON2_SYM ≤ 0x18) ∧
    posOf COLON2_SYM = LCD_A4 + 1 ∧ supported 53 ∧
    (display_symbol COLON2_SYM (display_char 53 LCD_A4 onesState)).LCDMEM LCD_A4 = 0xB7 ∧
    (display_symbol COLON2_SYM (display_char 53 LCD_A4 onesState)).LCDMEM (LCD_A4 + 1) =
      0x04 :=
  ⟨by decide, by decide, by decide, by decide,
    (C13_symbol_after_glyph 53 LCD_A4 COLON2_SYM onesState (by decide) (by decide)
      (by decide) (by decide)).1,
    (C13_symbol_after_glyph 53 LCD_A4 COLON2_SYM onesState (by decide) (by decide)
      (by decide) (by decide)).2.1⟩

/-! ## `display_num`: alignment and clearing -/

theorem range_map_getD {α : Type} (f : Nat → α) (n i : Nat) (d : α) (hi : i < n) :
    ((List.range n).map f).getD i d = f i := by
  rw [List.getD_eq_getElem?_getD, List.getElem?_map, List.getElem?_range hi]
  rfl

theorem cells6_display_num_nat (v : Nat) (st : LcdState) :
    cells6 (display_num (v : Int) st) =
      (List.range 6).map (fun i =>
        if 5 - i = 0 ∨ 10 ^ (5 - i) ≤ v then glyphBytes (digits.getD (v / 10 ^ (5 - i) % 10) 0)
        else (0, 0)) := by
  rw [display_num_eq_print6, cells6_print6]
  unfold windowGlyphs
  apply List.map_congr_left
  intro i hi
  have hi6 : i < 6 := List.mem_range.mp hi
  have hrev : [(num_buf (v : Int)).getD 5 0, (num_buf v).getD 4 0, (num_buf v).getD 3 0,
      (num_buf v).getD 2 0, (num_buf v).getD 1 0, (num_buf v).getD 0 0].getD (0 + i) 0 =
      (num_buf v).getD (5 - i) 0 := by
    interval_cases i <;> rfl
  rw [hrev, num_buf_getD v (5 - i) (by omega)]
  by_cases h : 5 - i = 0 ∨ 10 ^ (5 - i) ≤ v
  · rw [if_pos h, if_pos h, symb_val_digit _ (Nat.mod_lt _ (by decide))]
  · rw [if_neg h, if_neg h]
    exact symb_val_blank

theorem decDigits_length_div (v : Nat) (hv : v / 10 ≠ 0) :
    (decDigits v).length = 1 + (decDigits (v / 10)).length := by
  have hv0 : v ≠ 0 := by
    intro h
    subst h
    exact hv rfl
  unfold decDigits
  rw [if_neg hv0, if_neg hv, Nat.digits_eq_cons_digits_div (by decide) hv0, List.length_cons]
  omega

theorem decDigits_length_small (v : Nat) (hv : v / 10 = 0) : (decDigits v).length = 1 := by
  have hlt : v < 10 := by omega
  unfold decDigits
  by_cases hv0 : v = 0
  · rw [if_pos hv0]
    rfl
  · rw [if_neg hv0, Nat.digits_of_lt 10 v hv0 hlt]
    rfl

theorem num_iters_nat (n : Nat) : ∀ v : Nat,
    num_iters n (v : Int) = min n (decDigits v).length := by
  induction n with
  | zero =>
    intro v
    simp [num_iters]
  | succ n ih =>
    intro v
    have hdiv : Int.tdiv (v : Int) 10 = ((v / 10 : Nat) : Int) := rfl
    simp only [num_iters, hdiv, Int.natCast_eq_zero]
    by_cases hv : v / 10 = 0
    · rw [if_pos hv, decDigits_length_small v hv]
      omega
    · rw [if_neg hv, ih (v / 10), decDigits_length_div v hv]
      omega

theorem digit_glyph_ne_blank (d : Nat) (h : d < 10) :
    glyphBytes (digits.getD d 0) ≠ (0, 0) := by
  interval_cases d <;> decide

/-- C19 (amended): for every non-negative value `v`, with `k` (1..6) the number of
digits the conversion produced, after `display_num(v)` the most significant produced
digit is the glyph shown on cell A(7-k); it is on cell A1 exactly when `k = 6`, that is
when `v ≥ 100000`, and for `v < 100000` cell A1 shows the blank pattern 0x0000. -/
theorem C19_display_num_msd (v : Nat) (st : LcdState) :
    (1 ≤ num_iters 6 (v : Int) ∧ num_iters 6 (v : Int) ≤ 6) ∧
    num_iters 6 (v : Int) = min 6 (decDigits v).length ∧
    (num_buf (v : Int)).getD (num_iters 6 (v : Int) - 1) 0 =
      48 + v / 10 ^ (num_iters 6 (v : Int) - 1) % 10 ∧
    (cells6 (display_num (v : Int) st)).getD (6 - num_iters 6 (v : Int)) (0, 0) =
      glyphBytes (symb_val ((num_buf (v : Int)).getD (num_iters 6 (v : Int) - 1) 0)) ∧
    (num_iters 6 (v : Int) = 6 ↔ 100000 ≤ v) ∧
    (100000 ≤ v →
      cellBytes (display_num (v : Int) st) LCD_A1 =
        glyphBytes (symb_val ((num_buf (v : Int)).getD 5 0))) ∧
    (v < 100000 → cellBytes (display_num (v : Int) st) LCD_A1 = (0, 0)) := by
  have hk := num_iters_nat 6 v
  have hpos := decDigits_length_pos v
  have hk1 : 1 ≤ num_iters 6 (v : Int) := by rw [hk]; omega
  have hk6 : num_iters 6 (v : Int) ≤ 6 := by rw [hk]; omega
  have hcond : num_iters 6 (v : Int) - 1 = 0 ∨ 10 ^ (num_iters 6 (v : Int) - 1) ≤ v := by
    apply (decDigits_length_lt v _).mp
    rw [hk]
    omega
  have hmsd : (num_buf (v : Int)).getD (num_iters 6 (v : Int) - 1) 0 =
      48 + v / 10 ^ (num_iters 6 (v : Int) - 1) % 10 := by
    rw [num_buf_getD v _ (by omega), if_pos hcond]
  have hsix : num_iters 6 (v : Int) = 6 ↔ 100000 ≤ v := by
    have h5 := decDigits_length_lt v 5
    have hp : (10 : Nat) ^ 5 = 100000 := by norm_num
    rw [hp] at h5
    rw [hk]
    constructor
    · intro h
      rcases h5.mp (by omega) with h0 | h0
      · exact absurd h0 (by decide)
      · exact h0
    · intro h
      have := h5.mpr (Or.inr h)
      omega
  have hA1 : cellBytes (display_num (v : Int) st) LCD_A1 =
      (cells6 (display_num (v : Int) st)).getD 0 (0, 0) := rfl
  refine ⟨⟨hk1, hk6⟩, hk, hmsd, ?_, hsix, ?_, ?_⟩
  · have hidx : 5 - (6 - num_iters 6 (v : Int)) = num_iters 6 (v : Int) - 1 := by omega
    rw [cells6_display_num_nat, range_map_getD _ _ _ _ (by omega), hidx, if_pos hcond, hmsd,
      symb_val_digit _ (Nat.mod_lt _ (by decide))]
  · intro h
    have hp : (10 : Nat) ^ 5 = 100000 := by norm_num
    have hc : 5 - 0 = 0 ∨ 10 ^ (5 - 0) ≤ v := Or.inr (by rw [Nat.sub_zero, hp]; exact h)
    rw [hA1, cells6_display_num_nat, range_map_getD _ _ _ _ (by omega), if_pos hc,
      num_buf_getD v 5 (by omega), if_pos hc, symb_val_digit _ (Nat.mod_lt _ (by decide))]
  · intro h
    have hp : (10 : Nat) ^ 5 = 100000 := by norm_num
    have hc : ¬ (5 - 0 = 0 ∨ 10 ^ (5 - 0) ≤ v) := by
      rw [Nat.sub_zero, hp]
      omega
    rw [hA1, cells6_display_num_nat, range_map_getD _ _ _ _ (by omega), if_neg hc]

/-- C19 (amended) at `v = 42`: two digits are produced, the most significant one, '4',
is shown on A5, and A1 is blank. -/
theorem C19_display_num_msd_witness :
    (42 : Nat) < 100000 ∧ num_iters 6 42 = 2 ∧
    (cells6 (display_num 42 onesState)).getD 4 (0, 0) = glyphBytes (symb_val 52) ∧
    cellBytes (display_num 42 onesState) LCD_A1 = (0, 0) :=
  ⟨by decide, by decide, by decide,
    (C19_display_num_msd 42 onesState).2.2.2.2.2.2 (by decide)⟩

/-- C19 as stated fails: after `display_num(7)` the only produced digit, '7', is on A6
and cell A1 holds the blank pattern, not the glyph of '7'. -/
theorem C19_msd_on_A1_refuted :
    (num_buf 7).getD (num_iters 6 7 - 1) 0 = 55 ∧
    cellBytes (display_num 7 zeroState) LCD_A6 = glyphBytes (symb_val 55) ∧
    cellBytes (display_num 7 zeroState) LCD_A1 = (0, 0) ∧
    cellBytes (display_num 7 zeroState) LCD_A1 ≠ glyphBytes (symb_val 55) := by
  refine ⟨by decide, by decide, by decide, by decide⟩

theorem digit_char_range (t : Int) : 48 ≤ digit_char t ∧ digit_char t ≤ 57 := by
  unfold digit_char
  split_ifs <;> omega

theorem num_conv_length (n : Nat) : ∀ (i : Nat) (v : Int) (buf : List Nat),
    (num_conv n i v buf).length = buf.length := by
  induction n with
  | zero =>
    intro i v buf
    rfl
  | succ n ih =>
    intro i v buf
    simp only [num_conv]
    split_ifs
    · rw [List.length_set]
    · rw [ih, List.length_set]

theorem num_conv_chars (n : Nat) : ∀ (i : Nat) (v : Int) (buf : List Nat),
    (∀ x ∈ buf, x = 32 ∨ (48 ≤ x ∧ x ≤ 57)) →
    ∀ x ∈ num_conv n i v buf, x = 32 ∨ (48 ≤ x ∧ x ≤ 57) := by
  induction n with
  | zero =>
    intro i v buf hbuf x hx
    exact hbuf x hx
  | succ n ih =>
    intro i v buf hbuf
    have hset : ∀ x ∈ buf.set i (digit_char (Int.tmod v 10)),
        x = 32 ∨ (48 ≤ x ∧ x ≤ 57) := by
      intro x hx
      rcases List.mem_or_eq_of_mem_set hx with h | h
      · exact hbuf x h
      · rw [h]
        exact Or.inr (digit_char_range _)
    simp only [num_conv]
    split_ifs
    · exact hset
    · exact ih _ _ _ hset

theorem num_buf_supported (v : Int) (j : Nat) (hj : j < 6) :
    supported ((num_buf v).getD j 0) := by
  have hlen : (num_buf v).length = 6 := by
    unfold num_buf
    rw [num_conv_length, List.length_replicate]
  have hjl : j < (num_buf v).length := by rw [hlen]; exact hj
  have hall : ∀ x ∈ num_buf v, x = 32 ∨ (48 ≤ x ∧ x ≤ 57) := by
    unfold num_buf
    apply num_conv_chars
    intro x hx
    exact Or.inl (List.eq_of_mem_replicate hx)
  rw [List.getD_eq_getElem _ 0 hjl]
  rcases hall _ (List.getElem_mem hjl) with h | h
  · exact Or.inl h
  · exact Or.inr (Or.inl h)

theorem display_num_mem (v : Int) (st : LcdState) (q : Nat) :
    (display_num v st).LCDMEM q =
      if q = 8 then symb_val ((num_buf v).getD 0 0) &&& 0xFF
      else if q = 7 then symb_val ((num_buf v).getD 0 0) >>> 8
      else if q = 15 then symb_val ((num_buf v).getD 1 0) &&& 0xFF
      else if q = 14 then symb_val ((num_buf v).getD 1 0) >>> 8
      else if q = 19 then symb_val ((num_buf v).getD 2 0) &&& 0xFF
      else if q = 18 then symb_val ((num_buf v).getD 2 0) >>> 8
      else if q = 4 then symb_val ((num_buf v).getD 3 0) &&& 0xFF
      else if q = 3 then symb_val ((num_buf v).getD 3 0) >>> 8
      else if q = 6 then symb_val ((num_buf v).getD 4 0) &&& 0xFF
      else if q = 5 then symb_val ((num_buf v).getD 4 0) >>> 8
      else if q = 10 then symb_val ((num_buf v).getD 5 0) &&& 0xFF
      else if q = 9 then symb_val ((num_buf v).getD 5 0) >>> 8
      else (clear_lcd st).LCDMEM q := by
  rw [display_num_eq_print6, print6_mem]
  rfl

theorem display_num_bmem (v : Int) (st : LcdState) :
    (display_num v st).LCDBMEM = (clear_lcd st).LCDBMEM := rfl

theorem display_num_low_clear (v : Int) (st : LcdState) (p : Nat) (hp : p ∈ primaryCells) :
    (∃ j, j < 6 ∧ (display_num v st).LCDMEM (p + 1) = symb_val ((num_buf v).getD j 0) &&& 0xFF) ∧
    (display_num v st).LCDMEM (p + 1) &&& 0x01 = 0 ∧
    (display_num v st).LCDMEM (p + 1) &&& 0x04 = 0 := by
  have hex : ∃ j, j < 6 ∧
      (display_num v st).LCDMEM (p + 1) = symb_val ((num_buf v).getD j 0) &&& 0xFF := by
    rw [mem_primaryCells_iff] at hp
    rcases hp with h | h | h | h | h | h <;> subst h
    · exact ⟨5, by decide, by rw [display_num_mem]; rfl⟩
    · exact ⟨4, by decide, by rw [display_num_mem]; rfl⟩
    · exact ⟨3, by decide, by rw [display_num_mem]; rfl⟩
    · exact ⟨2, by decide, by rw [display_num_mem]; rfl⟩
    · exact ⟨1, by decide, by rw [display_num_mem]; rfl⟩
    · exact ⟨0, by decide, by rw [display_num_mem]; rfl⟩
  refine ⟨hex, ?_, ?_⟩
  · obtain ⟨j, hj, he⟩ := hex
    rw [he]
    exact (supported_low_bits _ (num_buf_supported v j hj)).1
  · obtain ⟨j, hj, he⟩ := hex
    rw [he]
    exact (supported_low_bits _ (num_buf_supported v j hj)).2

theorem display_num_aux_zero (v : Int) (st : LcdState) (a : Nat) (ha : a ∈ auxCells) :
    (display_num v st).LCDMEM a = 0 := by
  have hlog : a ∈ logicalBytes := by
    rw [mem_auxCells_iff] at ha
    rw [mem_logicalBytes_iff]
    omega
  rw [mem_auxCells_iff] at ha
  rw [display_num_mem]
  repeat rw [if_neg (by omega)]
  rw [clear_lcd_mem_eq, if_pos hlog]

theorem posOf_cases (s : Nat) (hs : 1 ≤ s ∧ s ≤ 0x18) :
    (posOf s ∈ auxCells) ∨
      (∃ p, p ∈ primaryCells ∧ posOf s = p + 1 ∧ (maskOf s = 0x01 ∨ maskOf s = 0x04)) := by
  obtain ⟨h1, h2⟩ := hs
  interval_cases s
  · exact Or.inr ⟨LCD_A1, by decide, rfl, by decide⟩
  · exact Or.inr ⟨LCD_A2, by decide, rfl, by decide⟩
  · exact Or.inr ⟨LCD_A4, by decide, rfl, by decide⟩
  · exact Or.inr ⟨LCD_A2, by decide, rfl, by decide⟩
  · exact Or.inr ⟨LCD_A3, by decide, rfl, by decide⟩
  · exact Or.inr ⟨LCD_A3, by decide, rfl, by decide⟩
  · exact Or.inr ⟨LCD_A4, by decide, rfl, by decide⟩
  · exact Or.inr ⟨LCD_A5, by decide, rfl, by decide⟩
  · exact Or.inr ⟨LCD_A3, by decide, rfl, by decide⟩
  · exact Or.inr ⟨LCD_A5, by decide, rfl, by decide⟩
  · exact Or.inr ⟨LCD_A6, by decide, rfl, by decide⟩
  · exact Or.inr ⟨LCD_A6, by decide, rfl, by decide⟩
  all_goals exact Or.inl (by decide)

/-- C20: `display_num` clears the display before rendering: for every value `v` and
every prior memory state, after `display_num(v)` the auxiliary cells AT1..AT3 are zero
in primary memory, every shadow byte of the 9 logical cells is zero, and the low byte of
each cell A1..A6 is exactly the low byte of the glyph rendered there (a digit or the
space), so no overlay symbol shown before the call survives it. -/
theorem C20_display_num_clears (v : Int) (st : LcdState) :
    (∀ a, a ∈ auxCells → (display_num v st).LCDMEM a = 0) ∧
    (∀ q, q ∈ logicalBytes → (display_num v st).LCDBMEM q = 0) ∧
    cells6 (display_num v st) =
      [5, 4, 3, 2, 1, 0].map (fun j => glyphBytes (symb_val ((num_buf v).getD j 0))) ∧
    (∀ j, j < 6 → supported ((num_buf v).getD j 0)) ∧
    (∀ p, p ∈ primaryCells →
      (display_num v st).LCDMEM (p + 1) &&& 0x01 = 0 ∧
      (display_num v st).LCDMEM (p + 1) &&& 0x04 = 0) ∧
    (∀ s, 1 ≤ s ∧ s ≤ 0x18 → (display_num v st).LCDMEM (posOf s) &&& maskOf s = 0) := by
  refine ⟨display_num_aux_zero v st, ?_, ?_, num_buf_supported v, ?_, ?_⟩
  · intro q hq
    rw [display_num_bmem, clear_lcd_bmem_eq, if_pos hq]
  · rw [display_num_eq_print6, cells6_print6]
    rfl
  · intro p hp
    exact (display_num_low_clear v st p hp).2
  · intro s hs
    rcases posOf_cases s hs with h | ⟨p, hp, hpos, hm⟩
    · rw [display_num_aux_zero v st _ h]
      exact Nat.zero_and _
    · rw [hpos]
      rcases hm with hm | hm
      · rw [hm]
        exact (display_num_low_clear v st p hp).2.1
      · rw [hm]
        exact (display_num_low_clear v st p hp).2.2

/-- C20 at `v = -12` over all-ones memory: AT2 is zero, the shadow byte of A3 is zero,
and the colon bit of A2 (`COLON1_SYM`) is clear. -/
theorem C20_display_num_clears_witness :
    LCD_AT2 ∈ auxCells ∧ LCD_A3 ∈ logicalBytes ∧ (1 ≤ COLON1_SYM ∧ COLON1_SYM ≤ 0x18) ∧
    onesState.LCDMEM (posOf COLON1_SYM) &&& maskOf COLON1_SYM ≠ 0 ∧
    (display_num (-12) onesState).LCDMEM LCD_AT2 = 0 ∧
    (display_num (-12) onesState).LCDBMEM LCD_A3 = 0 ∧
    (display_num (-12) onesState).LCDMEM (posOf COLON1_SYM) &&& maskOf COLON1_SYM = 0 :=
  ⟨by decide, by decide, by decide, by decide,
    (C20_display_num_clears (-12) onesState).1 LCD_AT2 (by decide),
    (C20_display_num_clears (-12) onesState).2.1 LCD_A3 (by decide),
    (C20_display_num_clears (-12) onesState).2.2.2.2.2 COLON1_SYM (by decide)⟩

/-! ## `scroll_text`: final state -/

theorem scroll_text_lcd (m : List Nat) (w : World) :
    (scroll_text m w).lcd = clear_lcd (print6 (scroll_fill m) (m.length + 6) w.lcd) := by
  have h := print_steps (scroll_fill m) (m.length + 7) w
  unfold scroll_text print_loop
  rw [delay_cycles_lcd]
  simp only [h.1]
  rfl

theorem scroll_text_log (m : List Nat) (w : World) :
    (scroll_text m w).delays =
      w.delays ++ (List.range (m.length + 7)).map
          (fun i => (2000000, print6 (scroll_fill m) i w.lcd)) ++
        [(2000000, (scroll_text m w).lcd)] := by
  have h := print_steps (scroll_fill m) (m.length + 7) w
  rw [scroll_text_lcd]
  unfold scroll_text print_loop
  rw [delay_cycles_delays]
  simp only [h.1, h.2]
  rfl

/-- C21: for every message `m` and every prior memory state, when `scroll_text(m)`
returns the display is cleared: every primary and shadow byte of the 9 logical cells is
zero, and exactly one further delay follows the clear (one delay per rendered frame
plus one settle delay in total), during which the cleared display is shown. -/
theorem C21_scroll_text_end (m : List Nat) (st : LcdState) :
    (∀ q, q ∈ logicalBytes →
      (scroll_text m { lcd := st, delays := [] }).lcd.LCDMEM q = 0 ∧
      (scroll_text m { lcd := st, delays := [] }).lcd.LCDBMEM q = 0) ∧
    (scroll_text m { lcd := st, delays := [] }).delays =
      (scroll_frames m st).map (fun f => (2000000, f)) ++
        [(2000000, (scroll_text m { lcd := st, delays := [] }).lcd)] ∧
    (scroll_text m { lcd := st, delays := [] }).delays.length =
      (scroll_frames m st).length + 1 := by
  have hlog : (scroll_text m { lcd := st, delays := [] }).delays =
      (scroll_frames m st).map (fun f => (2000000, f)) ++
        [(2000000, (scroll_text m { lcd := st, delays := [] }).lcd)] := by
    rw [scroll_text_log, scroll_frames_eq, List.map_map]
    rfl
  refine ⟨?_, hlog, ?_⟩
  · intro q hq
    rw [scroll_text_lcd, clear_lcd_mem_eq, clear_lcd_bmem_eq, if_pos hq, if_pos hq]
    exact ⟨rfl, rfl⟩
  · rw [hlog, List.length_append, List.length_map]
    rfl

/-- C21 on "AB" over all-ones memory: the low byte of A1 and the byte of AT3 are zero
in both memories when `scroll_text` returns. -/
theorem C21_scroll_text_end_witness :
    (LCD_A1 + 1 ∈ logicalBytes ∧ LCD_AT3 ∈ logicalBytes) ∧
    ((scroll_text (cstr "AB") { lcd := onesState, delays := [] }).lcd.LCDMEM (LCD_A1 + 1) = 0 ∧
      (scroll_text (cstr "AB") { lcd := onesState, delays := [] }).lcd.LCDBMEM (LCD_A1 + 1) =
        0) ∧
    ((scroll_text (cstr "AB") { lcd := onesState, delays := [] }).lcd.LCDMEM LCD_AT3 = 0 ∧
      (scroll_text (cstr "AB") { lcd := onesState, delays := [] }).lcd.LCDBMEM LCD_AT3 = 0) :=
  ⟨by decide, (C21_scroll_text_end (cstr "AB") onesState).1 (LCD_A1 + 1) (by decide),
    (C21_scroll_text_end (cstr "AB") onesState).1 LCD_AT3 (by decide)⟩

/-! ## The binding of the overlay symbols -/

/-- C22 (the code at the failing inputs): `display_symbol(DP1_SYM)` leaves the low byte
of A1 unchanged and sets bit 0 of the low byte of A2; `display_symbol(DP2_SYM)` leaves
the low byte of A2 unchanged and sets bit 0 of the low byte of A3; `clear_symbol` clears
the same bits; DP3, DP4 and DP5 address the low bytes of A3, A4 and A5. -/
theorem C22_decimal_point_cells (st : LcdState) :
    ((display_symbol DP1_SYM st).LCDMEM (LCD_A1 + 1) = st.LCDMEM (LCD_A1 + 1) ∧
      (display_symbol DP1_SYM zeroState).LCDMEM (LCD_A1 + 1) = 0 ∧
      (display_symbol DP1_SYM zeroState).LCDMEM (LCD_A2 + 1) = 0x01) ∧
    ((display_symbol DP2_SYM st).LCDMEM (LCD_A2 + 1) = st.LCDMEM (LCD_A2 + 1) ∧
      (display_symbol DP2_SYM zeroState).LCDMEM (LCD_A2 + 1) = 0 ∧
      (display_symbol DP2_SYM zeroState).LCDMEM (LCD_A3 + 1) = 0x01) ∧
    ((clear_symbol DP1_SYM st).LCDMEM (LCD_A1 + 1) = st.LCDMEM (LCD_A1 + 1) ∧
      (clear_symbol DP1_SYM onesState).LCDMEM (LCD_A1 + 1) = 0xFF ∧
      (clear_symbol DP1_SYM onesState).LCDMEM (LCD_A2 + 1) = 0xFE) ∧
    ((clear_symbol DP2_SYM st).LCDMEM (LCD_A2 + 1) = st.LCDMEM (LCD_A2 + 1) ∧
      (clear_symbol DP2_SYM onesState).LCDMEM (LCD_A2 + 1) = 0xFF ∧
      (clear_symbol DP2_SYM onesState).LCDMEM (LCD_A3 + 1) = 0xFE) ∧
    (posOf DP1_SYM = LCD_A2 + 1 ∧ posOf DP2_SYM = LCD_A3 + 1 ∧ posOf DP3_SYM = LCD_A3 + 1 ∧
      posOf DP4_SYM = LCD_A4 + 1 ∧ posOf DP5_SYM = LCD_A5 + 1) ∧
    (maskOf DP1_SYM = 0x01 ∧ maskOf DP2_SYM = 0x01 ∧ maskOf DP3_SYM = 0x01 ∧
      maskOf DP4_SYM = 0x01 ∧ maskOf DP5_SYM = 0x01) := by
  refine ⟨⟨rfl, by decide, by decide⟩, ⟨rfl, by decide, by decide⟩,
    ⟨rfl, by decide, by decide⟩, ⟨rfl, by decide, by decide⟩, by decide, by decide⟩

/-- C23 (the code at the failing input): `DP2_SYM` and `DP3_SYM` are bound to the same
(position, mask) pair, so `display_symbol(DP2_SYM)` sets and `clear_symbol(DP2_SYM)`
clears the bit of `DP3_SYM`; the pairs of the other 23 identifiers are pairwise
different. -/
theorem C23_symbol_pairs :
    DP2_SYM ≠ DP3_SYM ∧
    (posOf DP2_SYM, maskOf DP2_SYM) = (posOf DP3_SYM, maskOf DP3_SYM) ∧
    (zeroState.LCDMEM (posOf DP3_SYM) &&& maskOf DP3_SYM = 0 ∧
      (display_symbol DP2_SYM zeroState).LCDMEM (posOf DP3_SYM) &&& maskOf DP3_SYM ≠ 0) ∧
    (onesState.LCDMEM (posOf DP3_SYM) &&& maskOf DP3_SYM ≠ 0 ∧
      (clear_symbol DP2_SYM onesState).LCDMEM (posOf DP3_SYM) &&& maskOf DP3_SYM = 0) ∧
    (((List.range' 1 24).filter (fun s => s ≠ DP2_SYM)).map
      (fun s => (posOf s, maskOf s))).Nodup ∧
    ((List.range' 1 24).map (fun s => (posOf s, maskOf s))).dedup.length = 23 := by
  refine ⟨by decide, by decide, by decide, by decide, by decide, by decide⟩

/-- C24: the position map has exactly the published offsets `LCD_A1 = 9`, `LCD_A2 = 5`,
`LCD_A3 = 3`, `LCD_A4 = 18`, `LCD_A5 = 14`, `LCD_A6 = 7`, `LCD_AT1 = 2`, `LCD_AT2 = 17`,
`LCD_AT3 = 13`, and `display_msg`, `display_num` and `scroll_text` render the logical
cells A1..A6 at these offsets in that order. -/
theorem C24_position_map (m : List Nat) (v : Int) (st : LcdState) :
    (LCD_A1 = 9 ∧ LCD_A2 = 5 ∧ LCD_A3 = 3 ∧ LCD_A4 = 18 ∧ LCD_A5 = 14 ∧ LCD_A6 = 7 ∧
      LCD_AT1 = 2 ∧ LCD_AT2 = 17 ∧ LCD_AT3 = 13) ∧
    primaryCells = [9, 5, 3, 18, 14, 7] ∧
    [9, 5, 3, 18, 14, 7].map (cellBytes (display_msg m st)) =
      (List.range 6).map (fun j => glyphBytes (symb_val ((msg_buf m).getD j 0))) ∧
    [9, 5, 3, 18, 14, 7].map (cellBytes (display_num v st)) =
      [5, 4, 3, 2, 1, 0].map (fun j => glyphBytes (symb_val ((num_buf v).getD j 0))) ∧
    (scroll_frames m st).map (fun f => [9, 5, 3, 18, 14, 7].map (cellBytes f)) =
      (List.range (m.length + 7)).map (fun i =>
        (List.range 6).map (fun j => glyphBytes (symb_val ((scroll_fill m).getD (i + j) 0)))) := by
  refine ⟨by decide, by decide, ?_, ?_, ?_⟩
  · have h : cells6 (display_msg m st) = windowGlyphs (msg_buf m) 0 := by
      unfold display_msg
      rw [cells6_print6]
    simpa [windowGlyphs] using h
  · have h : cells6 (display_num v st) =
        windowGlyphs [(num_buf v).getD 5 0, (num_buf v).getD 4 0, (num_buf v).getD 3 0,
          (num_buf v).getD 2 0, (num_buf v).getD 1 0, (num_buf v).getD 0 0] 0 := by
      rw [display_num_eq_print6, cells6_print6]
    exact h
  · exact scroll_frames_cells m st

/-! ## The registers `LCDM3`, `LCDM14`, `LCDM18` and the cell bytes -/

/-- C25 (amended): under the header's numbering, where LCD Memory n is position n-1,
the three registers that `clear_lcd` zeroes by name are the bytes of the auxiliary
cells: `LCDM3` is position 2 = `LCD_AT1`, `LCDM14` is position 13 = `LCD_AT3`, `LCDM18` is
position 17 = `LCD_AT2`; they are different from every byte of the cells A1..A6, and
`clear_lcd` zeroes exactly the bytes of the 9 logical cells. -/
theorem C25_mux_registers (st : LcdState) :
    (LCDM 3 = 2 ∧ LCDM 14 = 13 ∧ LCDM 18 = 17) ∧
    (LCDM 3 = LCD_AT1 ∧ LCDM 14 = LCD_AT3 ∧ LCDM 18 = LCD_AT2) ∧
    (∀ r, r ∈ muxRegs → r ∈ auxCells ∧ ∀ p, p ∈ primaryCells → r ≠ p ∧ r ≠ p + 1) ∧
    (∀ q, (clear_lcd st).LCDMEM q = if q ∈ logicalBytes then 0 else st.LCDMEM q) ∧
    (∀ q, (clear_lcd st).LCDBMEM q = if q ∈ logicalBytes then 0 else st.LCDBMEM q) := by
  refine ⟨by decide, by decide, ?_, clear_lcd_mem_eq st, clear_lcd_bmem_eq st⟩
  intro r hr
  have hr2 : r = 2 ∨ r = 13 ∨ r = 17 := by
    simpa [muxRegs, LCDM] using hr
  refine ⟨?_, ?_⟩
  · rw [mem_auxCells_iff]
    omega
  · intro p hp
    rw [mem_primaryCells_iff] at hp
    omega

/-- C25 (amended) at `LCDM14` and the cell A5. -/
theorem C25_mux_registers_witness :
    LCDM 14 ∈ muxRegs ∧ LCD_A5 ∈ primaryCells ∧ LCDM 14 ∈ auxCells ∧
    (LCDM 14 ≠ LCD_A5 ∧ LCDM 14 ≠ LCD_A5 + 1) :=
  ⟨by decide, by decide, ((C25_mux_registers zeroState).2.2.1 (LCDM 14) (by decide)).1,
    ((C25_mux_registers zeroState).2.2.1 (LCDM 14) (by decide)).2 LCD_A5 (by decide)⟩

/-- C25 as stated fails: the positions of `LCDM3`, `LCDM14` and `LCDM18` are not
different from every cell byte; they are the bytes of AT1, AT3 and AT2. -/
theorem C25_registers_are_aux_cells :
    LCDM 3 ∈ logicalBytes ∧ LCDM 14 ∈ logicalBytes ∧ LCDM 18 ∈ logicalBytes ∧
    ¬ (∀ r, r ∈ muxRegs → r ∉ logicalBytes) := by
  refine ⟨by decide, by decide, by decide, ?_⟩
  intro h
  exact h (LCDM 3) (by decide) (by decide)

/-! ## `lcd_on`, `lcd_off` and `init_lcd` -/

theorem testBit_ffff (i : Nat) : (0xFFFF : Nat).testBit i = decide (i < 16) :=
  Nat.testBit_two_pow_sub_one 16 i

theorem testBit_word_high (x i : Nat) (hx : x < 65536) (hi : ¬ i < 16) :
    x.testBit i = false := by
  apply Nat.testBit_eq_false_of_lt
  have : (2 : Nat) ^ 16 ≤ 2 ^ i := Nat.pow_le_pow_right (by decide) (by omega)
  omega

theorem or16_eq (a b : Nat) (ha : a < 65536) (hb : b < 65536) : or16 a b = a ||| b := by
  have h : a ||| b < 2 ^ 16 := Nat.or_lt_two_pow ha hb
  unfold or16
  exact Nat.mod_eq_of_lt h

theorem or16_lt (a b : Nat) : or16 a b < 65536 := by
  unfold or16
  exact Nat.mod_lt _ (by decide)

theorem andnot16_eq (a b : Nat) (ha : a < 65536) :
    andnot16 a b = a &&& (0xFFFF ^^^ b) := by
  have h : a &&& (0xFFFF ^^^ b) ≤ a := Nat.and_le_left
  unfold andnot16
  exact Nat.mod_eq_of_lt (by omega)

theorem andnot16_lt (a b : Nat) : andnot16 a b < 65536 := by
  unfold andnot16
  exact Nat.mod_lt _ (by decide)

theorem andnot_and_self (a b : Nat) (hb : b < 65536) : (a &&& (0xFFFF ^^^ b)) &&& b = 0 := by
  apply Nat.eq_of_testBit_eq
  intro i
  rw [Nat.testBit_land, Nat.testBit_land, Nat.testBit_xor, testBit_ffff, Nat.zero_testBit]
  by_cases h16 : i < 16
  · simp only [h16, decide_True]
    cases a.testBit i <;> cases b.testBit i <;> rfl
  · rw [testBit_word_high b i hb h16]
    simp

theorem andnot_or_self (a b : Nat) (ha : a < 65536) :
    (a &&& (0xFFFF ^^^ b)) ||| b = a ||| b := by
  apply Nat.eq_of_testBit_eq
  intro i
  rw [Nat.testBit_lor, Nat.testBit_lor, Nat.testBit_land, Nat.testBit_xor, testBit_ffff]
  by_cases h16 : i < 16
  · simp only [h16, decide_True]
    cases a.testBit i <;> cases b.testBit i <;> rfl
  · rw [testBit_word_high a i ha h16]
    simp

theorem or_and_self (a b : Nat) : (a ||| b) &&& b = b := by
  apply Nat.eq_of_testBit_eq
  intro i
  rw [Nat.testBit_land, Nat.testBit_lor]
  cases a.testBit i <;> cases b.testBit i <;> rfl

theorem lcd_on_reg (h : DeviceHeader) (st : LcdState) (hON : h.LCDON < 65536)
    (hreg : st.LCDCCTL0 < 65536) : (lcd_on h st).LCDCCTL0 = st.LCDCCTL0 ||| h.LCDON := by
  show or16 st.LCDCCTL0 h.LCDON % 65536 = _
  rw [Nat.mod_eq_of_lt (or16_lt _ _), or16_eq _ _ hreg hON]

theorem lcd_off_reg (h : DeviceHeader) (st : LcdState) (hreg : st.LCDCCTL0 < 65536) :
    (lcd_off h st).LCDCCTL0 = st.LCDCCTL0 &&& (0xFFFF ^^^ h.LCDON) := by
  show andnot16 st.LCDCCTL0 h.LCDON % 65536 = _
  rw [Nat.mod_eq_of_lt (andnot16_lt _ _), andnot16_eq _ _ hreg]

/-- C26: `lcd_on` sets and `lcd_off` clears only the LCDON bit of the control register
LCDCCTL0: every other bit of that register, every other control register, and every
byte of primary and shadow display memory are unchanged; `lcd_off` after `lcd_on` leaves
LCDON clear and `lcd_on` after `lcd_off` leaves it set. -/
theorem C26_lcd_on_off (h : DeviceHeader) (st : LcdState) (hON : h.LCDON < 65536)
    (hreg : st.LCDCCTL0 < 65536) :
    lcd_on h st = { st with LCDCCTL0 := st.LCDCCTL0 ||| h.LCDON } ∧
    lcd_off h st = { st with LCDCCTL0 := st.LCDCCTL0 &&& (0xFFFF ^^^ h.LCDON) } ∧
    (∀ b, h.LCDON.testBit b = false →
      ((lcd_on h st).LCDCCTL0).testBit b = (st.LCDCCTL0).testBit b ∧
      ((lcd_off h st).LCDCCTL0).testBit b = (st.LCDCCTL0).testBit b) ∧
    (∀ b, h.LCDON.testBit b = true →
      ((lcd_on h st).LCDCCTL0).testBit b = true ∧
      ((lcd_off h st).LCDCCTL0).testBit b = false) ∧
    ((lcd_on h st).LCDMEM = st.LCDMEM ∧ (lcd_on h st).LCDBMEM = st.LCDBMEM ∧
      (lcd_off h st).LCDMEM = st.LCDMEM ∧ (lcd_off h st).LCDBMEM = st.LCDBMEM) ∧
    (lcd_off h (lcd_on h st)).LCDCCTL0 &&& h.LCDON = 0 ∧
    (lcd_on h (lcd_off h st)).LCDCCTL0 &&& h.LCDON = h.LCDON := by
  have hon := lcd_on_reg h st hON hreg
  have hoff := lcd_off_reg h st hreg
  have hon_lt : (lcd_on h st).LCDCCTL0 < 65536 := by
    show or16 st.LCDCCTL0 h.LCDON % 65536 < 65536
    exact Nat.mod_lt _ (by decide)
  have hoff_lt : (lcd_off h st).LCDCCTL0 < 65536 := by
    show andnot16 st.LCDCCTL0 h.LCDON % 65536 < 65536
    exact Nat.mod_lt _ (by decide)
  refine ⟨?_, ?_, ?_, ?_, ⟨rfl, rfl, rfl, rfl⟩, ?_, ?_⟩
  · ext q
    · rfl
    · rfl
    · exact hon
    all_goals rfl
  · ext q
    · rfl
    · rfl
    · exact hoff
    all_goals rfl
  · intro b hb
    rw [hon, hoff, Nat.testBit_lor, Nat.testBit_land, Nat.testBit_xor, hb, testBit_ffff]
    refine ⟨by simp, ?_⟩
    by_cases h16 : b < 16
    · simp [h16]
    · rw [testBit_word_high _ b hreg h16]
      rfl
  · intro b hb
    have h16 : b < 16 := by
      by_contra hcon
      rw [testBit_word_high _ b hON hcon] at hb
      exact Bool.noConfusion hb
    rw [hon, hoff, Nat.testBit_lor, Nat.testBit_land, Nat.testBit_xor, hb, testBit_ffff]
    simp [h16]
  · rw [lcd_off_reg h _ hon_lt]
    exact andnot_and_self _ _ hON
  · rw [lcd_on_reg h _ hON hoff_lt]
    exact or_and_self _ _

/-- C26 at a concrete header and state: with LCDCCTL0 = 0x041A, `lcd_on` gives 0x041B,
and `lcd_off` of that gives 0x041A again. -/
theorem C26_lcd_on_off_witness :
    sampleHeader.LCDON < 65536 ∧
    ({ zeroState with LCDCCTL0 := 0x041A } : LcdState).LCDCCTL0 < 65536 ∧
    lcd_on sampleHeader { zeroState with LCDCCTL0 := 0x041A } =
      { ({ zeroState with LCDCCTL0 := 0x041A } : LcdState) with
        LCDCCTL0 := 0x041A ||| 0x0001 } ∧
    (lcd_off sampleHeader (lcd_on sampleHeader { zeroState with LCDCCTL0 := 0x041A })).LCDCCTL0
      &&& 0x0001 = 0 :=
  ⟨by decide, by decide,
    (C26_lcd_on_off sampleHeader { zeroState with LCDCCTL0 := 0x041A } (by decide)
      (by decide)).1,
    (C26_lcd_on_off sampleHeader { zeroState with LCDCCTL0 := 0x041A } (by decide)
      (by decide)).2.2.2.2.2.1⟩

theorem init_lcd_trace (h : DeviceHeader) (st : LcdState) :
    (init_lcd h { lcd := st, writes := [] }).writes.map (fun e => (e.1, e.2.2.LCDCCTL0)) =
      [(Reg.LCDCCTL0, st.LCDCCTL0), (Reg.LCDCPCTL0, init_ctl0 h % 65536),
       (Reg.LCDCPCTL1, init_ctl0 h % 65536), (Reg.LCDCPCTL2, init_ctl0 h % 65536),
       (Reg.LCDCVCTL, init_ctl0 h % 65536), (Reg.LCDCCPCTL, init_ctl0 h % 65536),
       (Reg.LCDCMEMCTL, init_ctl0 h % 65536), (Reg.LCDCCTL0, init_ctl0 h % 65536)] := rfl

theorem init_lcd_last (h : DeviceHeader) (st : LcdState) :
    (init_lcd h { lcd := st, writes := [] }).writes.getLast?.map (fun e => (e.1, e.2.1)) =
      some (Reg.LCDCCTL0, or16 (init_ctl0 h % 65536) h.LCDON % 65536) ∧
    (init_lcd h { lcd := st, writes := [] }).lcd.LCDCCTL0 =
      or16 (init_ctl0 h % 65536) h.LCDON % 65536 := ⟨rfl, rfl⟩

theorem init_ctl0_eq (h : DeviceHeader) (h1 : h.LCDPRE__16 < 65536) (h2 : h.LCD4MUX < 65536)
    (h3 : h.LCDLP < 65536) :
    init_ctl0 h % 65536 =
      (h.LCDPRE__16 ||| h.LCD4MUX ||| h.LCDLP) &&& (0xFFFF ^^^ h.LCDON) := by
  have e1 : or16 0 h.LCDPRE__16 = h.LCDPRE__16 := by
    rw [or16_eq _ _ (by decide) h1, Nat.zero_or]
  have e2 : or16 h.LCDPRE__16 h.LCD4MUX = h.LCDPRE__16 ||| h.LCD4MUX := or16_eq _ _ h1 h2
  have l2 : h.LCDPRE__16 ||| h.LCD4MUX < 65536 := by
    rw [← e2]
    exact or16_lt _ _
  have e3 : or16 (h.LCDPRE__16 ||| h.LCD4MUX) h.LCDLP =
      h.LCDPRE__16 ||| h.LCD4MUX ||| h.LCDLP := or16_eq _ _ l2 h3
  have l3 : h.LCDPRE__16 ||| h.LCD4MUX ||| h.LCDLP < 65536 := by
    rw [← e3]
    exact or16_lt _ _
  unfold init_ctl0
  rw [Nat.mod_eq_of_lt (andnot16_lt _ _), e1, e2, e3, andnot16_eq _ _ l3]

/-- C27: `init_lcd` configures before enabling: in its sequence of register writes the
LCDON bit of LCDCCTL0 is clear at the time of every write to the segment-enable
registers (LCDCPCTL0..2), the charge-pump registers (LCDCVCTL, LCDCCPCTL) and the
memory-clear register (LCDCMEMCTL), and the last write of the sequence is the one that
sets LCDON, leaving LCDCCTL0 = LCDPRE__16 | LCD4MUX | LCDLP | LCDON. -/
theorem C27_init_lcd_order (h : DeviceHeader) (st : LcdState)
    (h1 : h.LCDPRE__16 < 65536) (h2 : h.LCD4MUX < 65536) (h3 : h.LCDLP < 65536)
    (h4 : h.LCDON < 65536) :
    (init_lcd h { lcd := st, writes := [] }).writes.map (fun e => e.1) =
      [Reg.LCDCCTL0, Reg.LCDCPCTL0, Reg.LCDCPCTL1, Reg.LCDCPCTL2, Reg.LCDCVCTL,
       Reg.LCDCCPCTL, Reg.LCDCMEMCTL, Reg.LCDCCTL0] ∧
    (∀ e, e ∈ (init_lcd h { lcd := st, writes := [] }).writes.drop 1 →
      e.2.2.LCDCCTL0 &&& h.LCDON = 0) ∧
    (∀ e, e ∈ (init_lcd h { lcd := st, writes := [] }).writes → e.1 ≠ Reg.LCDCCTL0 →
      e.2.2.LCDCCTL0 &&& h.LCDON = 0) ∧
    (init_lcd h { lcd := st, writes := [] }).writes.getLast?.map (fun e => (e.1, e.2.1)) =
      some (Reg.LCDCCTL0, h.LCDPRE__16 ||| h.LCD4MUX ||| h.LCDLP ||| h.LCDON) ∧
    (init_lcd h { lcd := st, writes := [] }).lcd.LCDCCTL0 =
      h.LCDPRE__16 ||| h.LCD4MUX ||| h.LCDLP ||| h.LCDON ∧
    (init_lcd h { lcd := st, writes := [] }).lcd.LCDCCTL0 &&& h.LCDON = h.LCDON := by
  have hc := init_ctl0_eq h h1 h2 h3
  have hclr : init_ctl0 h % 65536 &&& h.LCDON = 0 := by
    rw [hc]
    exact andnot_and_self _ h.LCDON h4
  have hl3 : h.LCDPRE__16 ||| h.LCD4MUX ||| h.LCDLP < 65536 := by
    have a : h.LCDPRE__16 ||| h.LCD4MUX < 2 ^ 16 := Nat.or_lt_two_pow h1 h2
    have b : h.LCDPRE__16 ||| h.LCD4MUX ||| h.LCDLP < 2 ^ 16 := Nat.or_lt_two_pow a h3
    exact b
  have hfin : or16 (init_ctl0 h % 65536) h.LCDON % 65536 =
      h.LCDPRE__16 ||| h.LCD4MUX ||| h.LCDLP ||| h.LCDON := by
    rw [Nat.mod_eq_of_lt (or16_lt _ _), or16_eq _ _ (Nat.mod_lt _ (by decide)) h4, hc,
      andnot_or_self _ _ hl3]
  have htr := init_lcd_trace h st
  have hdrop : ∀ e, e ∈ (init_lcd h { lcd := st, writes := [] }).writes.drop 1 →
      e.2.2.LCDCCTL0 &&& h.LCDON = 0 := by
    intro e he
    have hm : e.2.2.LCDCCTL0 ∈
        ((init_lcd h { lcd := st, writes := [] }).writes.drop 1).map
          (fun e => e.2.2.LCDCCTL0) := List.mem_map_of_mem _ he
    have hlist : ((init_lcd h { lcd := st, writes := [] }).writes.drop 1).map
        (fun e => e.2.2.LCDCCTL0) = List.replicate 7 (init_ctl0 h % 65536) := rfl
    rw [hlist] at hm
    rw [List.eq_of_mem_replicate hm]
    exact hclr
  refine ⟨rfl, hdrop, ?_, ?_, ?_, ?_⟩
  · intro e he hne
    have hsplit : (init_lcd h { lcd := st, writes := [] }).writes =
        (Reg.LCDCCTL0, init_ctl0 h % 65536, st) ::
          (init_lcd h { lcd := st, writes := [] }).writes.drop 1 := rfl
    rw [hsplit] at he
    rcases List.mem_cons.mp he with h0 | h0
    · rw [h0] at hne
      exact absurd rfl hne
    · exact hdrop e h0
  · rw [(init_lcd_last h st).1, hfin]
  · rw [(init_lcd_last h st).2, hfin]
  · rw [(init_lcd_last h st).2, hfin]
    exact or_and_self _ _

/-- C27 at a concrete header, from a state in which the LCD is on: the write to
LCDCMEMCTL sees LCDON clear, and the final LCDCCTL0 is 0x0400 | 0x0018 | 0x0002 | 0x0001. -/
theorem C27_init_lcd_order_witness :
    (sampleHeader.LCDPRE__16 < 65536 ∧ sampleHeader.LCD4MUX < 65536 ∧
      sampleHeader.LCDLP < 65536 ∧ sampleHeader.LCDON < 65536) ∧
    (init_lcd sampleHeader
      { lcd := { zeroState with LCDCCTL0 := 0x0001 }, writes := [] }).lcd.LCDCCTL0 =
      0x0400 ||| 0x0018 ||| 0x0002 ||| 0x0001 :=
  ⟨by decide,
    (C27_init_lcd_order sampleHeader { zeroState with LCDCCTL0 := 0x0001 } (by decide)
      (by decide) (by decide) (by decide)).2.2.2.2.1⟩

/-! ## Showing and clearing a symbol -/

theorem display_then_clear_state (s : Nat) (st : LcdState) (hs : 1 ≤ s ∧ s ≤ 0x18)
    (hb : ByteState st) (hclear : st.LCDMEM (posOf s) &&& maskOf s = 0) :
    clear_symbol s (display_symbol s st) = st := by
  have hbyte := display_then_clear_byte s st hs hb
  have hrestore := (andnot_eq_self_iff _ _ (hb (posOf s)).1).mpr hclear
  ext q
  · by_cases hq : q = posOf s
    · rw [hq, hbyte, hrestore]
    · rw [clear_symbol_eq s _ hs, display_symbol_eq s st hs, andNotMem_other _ _ _ q hq,
        orMem_other _ _ _ q hq]
  all_goals
    rw [clear_symbol_eq s _ hs, display_symbol_eq s st hs]
    rfl

theorem posOf_logical (s : Nat) (hs : 1 ≤ s ∧ s ≤ 0x18) : posOf s ∈ logicalBytes := by
  obtain ⟨h1, h2⟩ := hs
  interval_cases s <;> decide

theorem symbol_demo_succ (n : Nat) (w : World) :
    symbol_demo (n + 1) w = symbol_demo_body (1 + n) (symbol_demo n w) := by
  unfold symbol_demo
  rw [List.range'_1_concat, List.foldl_append]
  rfl

theorem symbol_demo_lcd (st : LcdState) (hb : ByteState st)
    (hz : ∀ q, q ∈ logicalBytes → st.LCDMEM q = 0) (n : Nat) (hn : n ≤ 0x18) (w : World)
    (hw : w.lcd = st) : (symbol_demo n w).lcd = st := by
  induction n with
  | zero => exact hw
  | succ k ih =>
    have ihk := ih (by omega)
    have hs : 1 ≤ 1 + k ∧ 1 + k ≤ 0x18 := by omega
    have hclear : st.LCDMEM (posOf (1 + k)) &&& maskOf (1 + k) = 0 := by
      rw [hz _ (posOf_logical _ hs)]
      exact Nat.zero_and _
    rw [symbol_demo_succ]
    show clear_symbol (1 + k) (display_symbol (1 + k) (symbol_demo k w).lcd) = st
    rw [ihk]
    exact display_then_clear_state _ st hs hb hclear

/-- C28: for every symbol `s` in 0x01..0x18 and every memory state in which the bit of
`s` is clear, `display_symbol(s)` followed by `clear_symbol(s)` returns the whole primary
memory (and the whole state) to that state; in particular, starting from a cleared
display, the demo loop that shows and clears each of the 24 symbols in turn leaves the
display cleared after every iteration. -/
theorem C28_display_clear_roundtrip (s : Nat) (st : LcdState) (hs : 1 ≤ s ∧ s ≤ 0x18)
    (hb : ByteState st) :
    (st.LCDMEM (posOf s) &&& maskOf s = 0 →
      (clear_symbol s (display_symbol s st)).LCDMEM = st.LCDMEM ∧
      clear_symbol s (display_symbol s st) = st) ∧
    ((∀ q, q ∈ logicalBytes → st.LCDMEM q = 0) →
      ∀ n, n ≤ 0x18 → (symbol_demo n { lcd := st, delays := [] }).lcd = st) := by
  constructor
  · intro hclear
    have h := display_then_clear_state s st hs hb hclear
    exact ⟨by rw [h], h⟩
  · intro hz n hn
    exact symbol_demo_lcd st hb hz n hn _ rfl

/-- C28 at `REC_SYM` and at the whole demo loop, from a cleared memory. -/
theorem C28_display_clear_roundtrip_witness :
    (1 ≤ REC_SYM ∧ REC_SYM ≤ 0x18) ∧ ByteState zeroState ∧
    zeroState.LCDMEM (posOf REC_SYM) &&& maskOf REC_SYM = 0 ∧
    clear_symbol REC_SYM (display_symbol REC_SYM zeroState) = zeroState ∧
    (symbol_demo 0x18 { lcd := zeroState, delays := [] }).lcd = zeroState :=
  ⟨by decide, zeroState_byte, by decide,
    ((C28_display_clear_roundtrip REC_SYM zeroState (by decide) zeroState_byte).1
      (by decide)).2,
    (C28_display_clear_roundtrip REC_SYM zeroState (by decide) zeroState_byte).2
      (fun _ _ => rfl) 0x18 (by decide)⟩

/-! ## Disjoint cells and glyph bits -/

/-- C29: the byte sets occupied by the 9 logical cells (`{p, p+1}` for A1..A6, `{p}` for
AT1..AT3) are pairwise disjoint, so for every character `c` and every primary cell,
`display_char(c, cell)` changes only that cell's two primary bytes and leaves the bytes
of the other 8 cells unchanged. -/
theorem C29_cells_disjoint (c p : Nat) (st : LcdState) (hp : p ∈ primaryCells) :
    logicalBytes.Nodup ∧
    logicalBytes =
      (primaryCells.map (fun a => [a, a + 1]) ++ auxCells.map (fun a => [a])).flatten ∧
    (∀ q, q ≠ p → q ≠ p + 1 → (display_char c p st).LCDMEM q = st.LCDMEM q) ∧
    (∀ p2, p2 ∈ primaryCells → p2 ≠ p →
      (display_char c p st).LCDMEM p2 = st.LCDMEM p2 ∧
      (display_char c p st).LCDMEM (p2 + 1) = st.LCDMEM (p2 + 1)) ∧
    (∀ a, a ∈ auxCells → (display_char c p st).LCDMEM a = st.LCDMEM a) ∧
    (display_char c p st).LCDBMEM = st.LCDBMEM := by
  have hother : ∀ q, q ≠ p → q ≠ p + 1 → (display_char c p st).LCDMEM q = st.LCDMEM q := by
    intro q h1 h2
    rw [display_char_mem, if_neg h2, if_neg h1]
  rw [mem_primaryCells_iff] at hp
  refine ⟨by decide, by decide, hother, ?_, ?_, rfl⟩
  · intro p2 hp2 hne
    rw [mem_primaryCells_iff] at hp2
    exact ⟨hother p2 hne (by omega), hother (p2 + 1) (by omega) (by omega)⟩
  · intro a ha
    rw [mem_auxCells_iff] at ha
    exact hother a (by omega) (by omega)

/-- C29 at '8' on `LCD_A4` over a cleared memory: the bytes of AT2 (position 17) and of
A5 (position 14) stay 0. -/
theorem C29_cells_disjoint_witness :
    LCD_A4 ∈ primaryCells ∧ (LCD_AT2 ∈ auxCells ∧ LCD_A5 ∈ primaryCells ∧ LCD_A5 ≠ LCD_A4) ∧
    (display_char 56 LCD_A4 zeroState).LCDMEM LCD_AT2 = 0 ∧
    ((display_char 56 LCD_A4 zeroState).LCDMEM LCD_A5 = 0 ∧
      (display_char 56 LCD_A4 zeroState).LCDMEM (LCD_A5 + 1) = 0) :=
  ⟨by decide, by decide,
    (C29_cells_disjoint 56 LCD_A4 zeroState (by decide)).2.2.2.2.1 LCD_AT2 (by decide),
    (C29_cells_disjoint 56 LCD_A4 zeroState (by decide)).2.2.2.1 LCD_A5 (by decide)
      (by decide)⟩

/-- C30: no supported glyph uses the bits shared with the overlay layer: for every
character `c` in {space, '0'..'9', 'A'..'Z'}, bit 0 and bit 2 of the low byte of
`pattern(c)` are both 0, so rendering a supported character never lights a decimal
point, colon, sign, antenna, degree, tx or rx indicator. -/
theorem C30_glyph_overlay_bits (c : Nat) (hc : supported c) :
    ((symb_val c &&& 0xFF).testBit 0 = false ∧ (symb_val c &&& 0xFF).testBit 2 = false) ∧
    ((symb_val c &&& 0xFF) &&& dec_pt = 0 ∧ (symb_val c &&& 0xFF) &&& colon = 0 ∧
      (symb_val c &&& 0xFF) &&& neg_sym = 0 ∧ (symb_val c &&& 0xFF) &&& antenna = 0 ∧
      (symb_val c &&& 0xFF) &&& deg_sym = 0 ∧ (symb_val c &&& 0xFF) &&& tx_sym = 0 ∧
      (symb_val c &&& 0xFF) &&& rx_sym = 0) ∧
    (∀ p st s, 1 ≤ s ∧ s ≤ RX_SYM →
      (display_char c p st).LCDMEM (p + 1) &&& maskOf s = 0) := by
  have h := supported_low_bits c hc
  have h0 : (symb_val c &&& 0xFF).testBit 0 = false := by
    have e : ((symb_val c &&& 0xFF) &&& 0x01).testBit 0 = (0 : Nat).testBit 0 :=
      congrArg (fun x => Nat.testBit x 0) h.1
    have t : (0x01 : Nat).testBit 0 = true := by decide
    rw [Nat.testBit_land, Nat.zero_testBit, t, Bool.and_true] at e
    exact e
  have h2 : (symb_val c &&& 0xFF).testBit 2 = false := by
    have e : ((symb_val c &&& 0xFF) &&& 0x04).testBit 2 = (0 : Nat).testBit 2 :=
      congrArg (fun x => Nat.testBit x 2) h.2
    have t : (0x04 : Nat).testBit 2 = true := by decide
    rw [Nat.testBit_land, Nat.zero_testBit, t, Bool.and_true] at e
    exact e
  refine ⟨⟨h0, h2⟩, ⟨h.1, h.2, h.2, h.2, h.2, h.2, h.1⟩, ?_⟩
  intro p st s hs
  rw [display_char_low]
  obtain ⟨hs1, hs2⟩ := hs
  have hs3 : s ≤ 12 := hs2
  interval_cases s
  · exact h.2
  · exact h.2
  · exact h.2
  · exact h.1
  · exact h.1
  · exact h.1
  · exact h.1
  · exact h.1
  · exact h.2
  · exact h.2
  · exact h.2
  · exact h.1

/-- C30 at 'X' (pattern 0x00AA): bits 0 and 2 of the low byte 0xAA are clear. -/
theorem C30_glyph_overlay_bits_witness :
    supported 88 ∧ symb_val 88 &&& 0xFF = 0xAA ∧
    ((symb_val 88 &&& 0xFF).testBit 0 = false ∧ (symb_val 88 &&& 0xFF).testBit 2 = false) :=
  ⟨by decide, by decide, (C30_glyph_overlay_bits 88 (by decide)).1⟩

/-! ## The glyph table: fault pattern and collisions -/

theorem mem_supportedChars (c : Nat) : c ∈ supportedChars ↔ supported c := by
  unfold supportedChars supported
  simp only [List.mem_cons, List.mem_append, List.mem_range'_1]
  omega

theorem supported_ne_fault (c : Nat) (hc : supported c) : symb_val c ≠ 0xFFFF := by
  rcases hc with h | h | h
  · subst h
    decide
  · obtain ⟨h1, h2⟩ := h
    interval_cases c <;> decide
  · obtain ⟨h1, h2⟩ := h
    interval_cases c <;> decide

theorem glyphBytes_fault_iff (w : Nat) (hw : w < 65536) :
    glyphBytes w = (0xFF, 0xFF) ↔ w = 0xFFFF := by
  unfold glyphBytes
  constructor
  · intro h
    have h1 : w >>> 8 = 0xFF := congrArg Prod.fst h
    have h2 : w &&& 0xFF = 0xFF := congrArg Prod.snd h
    rw [Nat.shiftRight_eq_div_pow] at h1
    have h3 : w &&& 0xFF = w % 256 := Nat.and_pow_two_sub_one_eq_mod w 8
    rw [h3] at h2
    omega
  · intro h
    subst h
    decide

/-- C31: the fault indicator is unambiguous: for every character `c` and primary cell,
after `display_char(c, cell)` both bytes of the cell read 0xFF if and only if `c` is
outside {space, '0'..'9', 'A'..'Z'}; no supported character has the pattern 0xFFFF. -/
theorem C31_fault_unambiguous (c p : Nat) (st : LcdState) (_hp : p ∈ primaryCells) :
    (((display_char c p st).LCDMEM p = 0xFF ∧ (display_char c p st).LCDMEM (p + 1) = 0xFF) ↔
      ¬ supported c) ∧
    (supported c → symb_val c ≠ 0xFFFF) ∧
    (¬ supported c → symb_val c = 0xFFFF) := by
  refine ⟨?_, supported_ne_fault c, symb_val_fault c⟩
  have hcell := cellBytes_display_char c p st
  have hiff := glyphBytes_fault_iff (symb_val c) (symb_val_lt c)
  rw [← hcell] at hiff
  have hpair : cellBytes (display_char c p st) p = (0xFF, 0xFF) ↔
      ((display_char c p st).LCDMEM p = 0xFF ∧ (display_char c p st).LCDMEM (p + 1) = 0xFF) := by
    unfold cellBytes
    exact Prod.mk.injEq _ _ _ _ ▸ Iff.rfl
  rw [← hpair, hiff]
  constructor
  · intro h hs
    exact supported_ne_fault c hs h
  · intro h
    exact symb_val_fault c h

/-- C31 at 'Z' and at '[' on `LCD_A2`: the cell of 'Z' does not read 0xFF/0xFF, the
cell of '[' does. -/
theorem C31_fault_unambiguous_witness :
    LCD_A2 ∈ primaryCells ∧ supported 90 ∧ ¬ supported 91 ∧
    ¬ ((display_char 90 LCD_A2 zeroState).LCDMEM LCD_A2 = 0xFF ∧
      (display_char 90 LCD_A2 zeroState).LCDMEM (LCD_A2 + 1) = 0xFF) ∧
    ((display_char 91 LCD_A2 zeroState).LCDMEM LCD_A2 = 0xFF ∧
      (display_char 91 LCD_A2 zeroState).LCDMEM (LCD_A2 + 1) = 0xFF) :=
  ⟨by decide, by decide, by decide,
    fun h => ((C31_fault_unambiguous 90 LCD_A2 zeroState (by decide)).1.mp h) (by decide),
    (C31_fault_unambiguous 91 LCD_A2 zeroState (by decide)).1.mpr (by decide)⟩

set_option maxRecDepth 100000 in
theorem glyph_collisions :
    ∀ c ∈ supportedChars, ∀ d ∈ supportedChars, symb_val c = symb_val d →
      c = d ∨ (c = 53 ∧ d = 83) ∨ (c = 83 ∧ d = 53) := by
  decide

theorem glyph_zero : ∀ c ∈ supportedChars, symb_val c = 0 → c = 32 := by
  decide

/-- C32: the glyph encoding is injective on the 37 supported characters except for
exactly one collision: '5' and 'S' both encode to 0xB700; every other pair of distinct
supported characters has distinct patterns, and the space is the only supported
character with pattern 0x0000. -/
theorem C32_glyph_injective (c d : Nat) (hc : supported c) (hd : supported d) :
    (symb_val 53 = 0xB700 ∧ symb_val 83 = 0xB700 ∧ supported 53 ∧ supported 83) ∧
    (symb_val c = symb_val d → c = d ∨ (c = 53 ∧ d = 83) ∨ (c = 83 ∧ d = 53)) ∧
    (c ≠ d → ¬ (c = 53 ∧ d = 83) → ¬ (c = 83 ∧ d = 53) → symb_val c ≠ symb_val d) ∧
    (symb_val c = 0x0000 ↔ c = 32) ∧
    supportedChars.length = 37 ∧
    (supportedChars.map symb_val).dedup.length = 36 := by
  have hcol := glyph_collisions c ((mem_supportedChars c).mpr hc) d
    ((mem_supportedChars d).mpr hd)
  refine ⟨by decide, hcol, ?_, ?_, by decide, by decide⟩
  · intro h1 h2 h3 heq
    rcases hcol heq with h | h | h
    · exact h1 h
    · exact h2 h
    · exact h3 h
  · constructor
    · exact glyph_zero c ((mem_supportedChars c).mpr hc)
    · intro h
      rw [h]
      decide

/-- C32 at the pairs ('0', 'O') and ('5', 'S'): the first has different patterns, the
second is the collision. -/
theorem C32_glyph_injective_witness :
    supported 48 ∧ supported 79 ∧ (48 : Nat) ≠ 79 ∧ symb_val 48 ≠ symb_val 79 ∧
    symb_val 53 = symb_val 83 :=
  ⟨by decide, by decide, by decide,
    (C32_glyph_injective 48 79 (by decide) (by decide)).2.2.1 (by decide) (by decide)
      (by decide),
    by decide⟩

/-! ## `scroll_text`: every index is in bounds -/

theorem scroll_fill_traced_steps (msg : List Nat) (n : Nat) (hn : n ≤ msg.length + 12) :
    ((List.range n).foldl
        (fun (s : List Nat × List Access) i =>
          if i < 6 then (s.1.set i 32, s.2 ++ [Access.writeBuf (i : Int)])
          else if i > msg.length + 5 then (s.1.set i 32, s.2 ++ [Access.writeBuf (i : Int)])
          else (s.1.set i (msg.getD (i - 6) 0),
            s.2 ++ [Access.readMsg ((i : Int) - 6), Access.writeBuf (i : Int)]))
        (List.replicate (msg.length + 12) 0, [])).1 =
      (List.range n).foldl
        (fun buf i =>
          if i < 6 then buf.set i 32
          else if i > msg.length + 5 then buf.set i 32
          else buf.set i (msg.getD (i - 6) 0))
        (List.replicate (msg.length + 12) 0) ∧
    ∀ a ∈ ((List.range n).foldl
        (fun (s : List Nat × List Access) i =>
          if i < 6 then (s.1.set i 32, s.2 ++ [Access.writeBuf (i : Int)])
          else if i > msg.length + 5 then (s.1.set i 32, s.2 ++ [Access.writeBuf (i : Int)])
          else (s.1.set i (msg.getD (i - 6) 0),
            s.2 ++ [Access.readMsg ((i : Int) - 6), Access.writeBuf (i : Int)]))
        (List.replicate (msg.length + 12) 0, [])).2, Access.inBounds msg.length a := by
  induction n with
  | zero =>
    refine ⟨rfl, ?_⟩
    intro a ha
    exact absurd ha (List.not_mem_nil a)
  | succ k ih =>
    obtain ⟨ih1, ih2⟩ := ih (by omega)
    rw [List.range_succ, List.foldl_append, List.foldl_append]
    simp only [List.foldl_cons, List.foldl_nil]
    by_cases h6 : k < 6
    · simp only [h6, if_true]
      refine ⟨by rw [ih1], ?_⟩
      intro a ha
      rcases List.mem_append.mp ha with h | h
      · exact ih2 a h
      · rw [List.mem_singleton] at h
        subst h
        show (0 : Int) ≤ (k : Int) ∧ (k : Int) < (msg.length : Int) + 12
        omega
    · by_cases hm : k > msg.length + 5
      · simp only [h6, hm, if_true, if_false]
        refine ⟨by rw [ih1], ?_⟩
        intro a ha
        rcases List.mem_append.mp ha with h | h
        · exact ih2 a h
        · rw [List.mem_singleton] at h
          subst h
          show (0 : Int) ≤ (k : Int) ∧ (k : Int) < (msg.length : Int) + 12
          omega
      · simp only [h6, hm, if_false]
        refine ⟨by rw [ih1], ?_⟩
        intro a ha
        rcases List.mem_append.mp ha with h | h
        · exact ih2 a h
        · simp only [List.mem_cons, List.mem_singleton, List.mem_nil_iff, or_false] at h
          rcases h with h | h
          · subst h
            show (0 : Int) ≤ (k : Int) - 6 ∧ (k : Int) - 6 < (msg.length : Int)
            omega
          · subst h
            show (0 : Int) ≤ (k : Int) ∧ (k : Int) < (msg.length : Int) + 12
            omega

theorem print6_traced_fst (buf : List Nat) (i : Nat) (s : LcdState × List Access) :
    (print6_traced buf i s).1 = print6 buf i s.1 := rfl

theorem print6_traced_snd (buf : List Nat) (i : Nat) (s : LcdState × List Access) :
    (print6_traced buf i s).2 =
      s.2 ++ [Access.readBuf (i : Int), Access.readBuf (((i + 1 : Nat)) : Int),
        Access.readBuf (((i + 2 : Nat)) : Int), Access.readBuf (((i + 3 : Nat)) : Int),
        Access.readBuf (((i + 4 : Nat)) : Int), Access.readBuf (((i + 5 : Nat)) : Int)] := by
  simp only [print6_traced, buf_read, List.append_assoc, List.cons_append, List.nil_append]

theorem print_loop_traced_steps (buf : List Nat) (len : Nat) (s : World × List Access)
    (hs : ∀ a ∈ s.2, Access.inBounds len a) (n : Nat) (hn : n ≤ len + 7) :
    ((List.range n).foldl
        (fun (s : World × List Access) i =>
          let r := print6_traced buf i (s.1.lcd, s.2)
          (delay_cycles 2000000 { s.1 with lcd := r.1 }, r.2)) s).1 =
      (List.range n).foldl
        (fun w i => delay_cycles 2000000 { w with lcd := print6 buf i w.lcd }) s.1 ∧
    (∀ a ∈ ((List.range n).foldl
        (fun (s : World × List Access) i =>
          let r := print6_traced buf i (s.1.lcd, s.2)
          (delay_cycles 2000000 { s.1 with lcd := r.1 }, r.2)) s).2,
        Access.inBounds len a) ∧
    ((List.range n).foldl
        (fun (s : World × List Access) i =>
          let r := print6_traced buf i (s.1.lcd, s.2)
          (delay_cycles 2000000 { s.1 with lcd := r.1 }, r.2)) s).2.length =
      s.2.length + 6 * n ∧
    (0 < n → Access.readBuf (((n + 4 : Nat)) : Int) ∈ ((List.range n).foldl
        (fun (s : World × List Access) i =>
          let r := print6_traced buf i (s.1.lcd, s.2)
          (delay_cycles 2000000 { s.1 with lcd := r.1 }, r.2)) s).2) := by
  induction n with
  | zero =>
    refine ⟨rfl, hs, rfl, ?_⟩
    intro h
    exact absurd h (Nat.lt_irrefl 0)
  | succ k ih =>
    obtain ⟨ih1, ih2, ih3, _⟩ := ih (by omega)
    rw [List.range_succ, List.foldl_append, List.foldl_append]
    simp only [List.foldl_cons, List.foldl_nil]
    rw [print6_traced_fst, print6_traced_snd]
    refine ⟨by rw [ih1], ?_, ?_, ?_⟩
    · intro a ha
      rcases List.mem_append.mp ha with h | h
      · exact ih2 a h
      · simp only [List.mem_cons, List.mem_singleton, List.mem_nil_iff, or_false] at h
        rcases h with h | h | h | h | h | h <;> subst h
        · show (0 : Int) ≤ (k : Int) ∧ (k : Int) < (len : Int) + 12
          omega
        · show (0 : Int) ≤ ((k + 1 : Nat) : Int) ∧ ((k + 1 : Nat) : Int) < (len : Int) + 12
          omega
        · show (0 : Int) ≤ ((k + 2 : Nat) : Int) ∧ ((k + 2 : Nat) : Int) < (len : Int) + 12
          omega
        · show (0 : Int) ≤ ((k + 3 : Nat) : Int) ∧ ((k + 3 : Nat) : Int) < (len : Int) + 12
          omega
        · show (0 : Int) ≤ ((k + 4 : Nat) : Int) ∧ ((k + 4 : Nat) : Int) < (len : Int) + 12
          omega
        · show (0 : Int) ≤ ((k + 5 : Nat) : Int) ∧ ((k + 5 : Nat) : Int) < (len : Int) + 12
          omega
    · rw [List.length_append, ih3]
      simp only [List.length_cons, List.length_nil]
      omega
    · intro _
      apply List.mem_append_right
      have c : k + 1 + 4 = k + 5 := by omega
      rw [c]
      exact List.mem_of_mem_getLast? rfl

theorem scroll_fill_traced_length (msg : List Nat) (n : Nat) :
    ((List.range n).foldl
        (fun (s : List Nat × List Access) i =>
          if i < 6 then (s.1.set i 32, s.2 ++ [Access.writeBuf (i : Int)])
          else if i > msg.length + 5 then (s.1.set i 32, s.2 ++ [Access.writeBuf (i : Int)])
          else (s.1.set i (msg.getD (i - 6) 0),
            s.2 ++ [Access.readMsg ((i : Int) - 6), Access.writeBuf (i : Int)]))
        (List.replicate (msg.length + 12) 0, [])).2.length =
      n + (min n (msg.length + 6) - 6) := by
  induction n with
  | zero => rfl
  | succ k ih =>
    rw [List.range_succ, List.foldl_append]
    simp only [List.foldl_cons, List.foldl_nil]
    by_cases h6 : k < 6
    · simp only [h6, if_true]
      rw [List.length_append, ih]
      simp only [List.length_cons, List.length_nil]
      omega
    · by_cases hm : k > msg.length + 5
      · simp only [h6, hm, if_true, if_false]
        rw [List.length_append, ih]
        simp only [List.length_cons, List.length_nil]
        omega
      · simp only [h6, hm, if_false]
        rw [List.length_append, ih]
        simp only [List.length_cons, List.length_nil]
        omega

theorem scroll_text_traced_spec (m : List Nat) (w : World) :
    (scroll_text_traced m w).1 = scroll_text m w ∧
    (∀ a ∈ (scroll_text_traced m w).2, Access.inBounds m.length a) ∧
    (scroll_text_traced m w).2.length = 8 * m.length + 54 ∧
    Access.readBuf ((m.length : Int) + 11) ∈ (scroll_text_traced m w).2 := by
  have hf := scroll_fill_traced_steps m (m.length + 12) (le_refl _)
  have hfl := scroll_fill_traced_length m (m.length + 12)
  have hf1 : (scroll_fill_traced m).1 = scroll_fill m := hf.1
  have hf2 : ∀ a ∈ (scroll_fill_traced m).2, Access.inBounds m.length a := hf.2
  have hf3 : (scroll_fill_traced m).2.length = 2 * m.length + 12 := by
    have e : (scroll_fill_traced m).2.length =
        (m.length + 12) + (min (m.length + 12) (m.length + 6) - 6) := hfl
    rw [e]
    omega
  have hp := print_loop_traced_steps (scroll_fill_traced m).1 m.length
    (w, (scroll_fill_traced m).2) hf2 (m.length + 7) (le_refl _)
  obtain ⟨hp1, hp2, hp3, hp4⟩ := hp
  have hp1b : (print_loop_traced (scroll_fill_traced m).1 m.length
      (w, (scroll_fill_traced m).2)).1 = print_loop (scroll_fill m) m.length w := by
    rw [← hf1]
    exact hp1
  refine ⟨?_, hp2, ?_, ?_⟩
  · show delay_cycles 2000000
        { (print_loop_traced (scroll_fill_traced m).1 m.length
            (w, (scroll_fill_traced m).2)).1 with
          lcd := clear_lcd (print_loop_traced (scroll_fill_traced m).1 m.length
            (w, (scroll_fill_traced m).2)).1.lcd } = scroll_text m w
    rw [hp1b]
    rfl
  · show (print_loop_traced (scroll_fill_traced m).1 m.length
      (w, (scroll_fill_traced m).2)).2.length = 8 * m.length + 54
    have e : (print_loop_traced (scroll_fill_traced m).1 m.length
        (w, (scroll_fill_traced m).2)).2.length =
        (scroll_fill_traced m).2.length + 6 * (m.length + 7) := hp3
    rw [e, hf3]
    omega
  · have e := hp4 (by omega)
    have c : (((m.length + 7 + 4 : Nat)) : Int) = (m.length : Int) + 11 := by
      push_cast
      omega
    rw [c] at e
    exact e

/-- C33: for every message `m` of length `n`, every index used by `scroll_text(m)` is
in bounds: the fill loop reads `m` only at indices 0..n-1 and writes the buffer only at
indices 0..n+11, and the print loop reads the buffer only at indices 0..n+11, inside the
`n + 12` allocated characters.  The accesses are those logged by `scroll_text` itself,
run with its access log: it returns what `scroll_text` returns, logs `8 n + 54` accesses,
and the largest buffer index `n + 11` is among them. -/
theorem C33_scroll_indices_in_bounds (m : List Nat) (w : World) :
    (scroll_fill_traced m).1 = scroll_fill m ∧
    (∀ a, a ∈ (scroll_fill_traced m).2 → Access.inBounds m.length a) ∧
    (scroll_text_traced m w).1 = scroll_text m w ∧
    (∀ a, a ∈ (scroll_text_traced m w).2 → Access.inBounds m.length a) ∧
    (scroll_text_traced m w).2.length = 8 * m.length + 54 ∧
    Access.readBuf ((m.length : Int) + 11) ∈ (scroll_text_traced m w).2 ∧
    (scroll_fill m).length = m.length + 12 := by
  have h := scroll_fill_traced_steps m (m.length + 12) (le_refl _)
  have t := scroll_text_traced_spec m w
  exact ⟨h.1, h.2, t.1, t.2.1, t.2.2.1, t.2.2.2, scroll_fill_length m⟩

/-- C33 on "AB": the last read of the fill loop is `msg[1]`, the last read of the print
loop is `buf[13]`; both are logged by the run of `scroll_text` and both are in bounds
for length 2 and 14 allocated characters. -/
theorem C33_scroll_indices_in_bounds_witness :
    Access.readMsg 1 ∈ (scroll_text_traced (cstr "AB") ⟨zeroState, []⟩).2 ∧
    Access.readBuf 13 ∈ (scroll_text_traced (cstr "AB") ⟨zeroState, []⟩).2 ∧
    Access.inBounds (cstr "AB").length (Access.readMsg 1) ∧
    Access.inBounds (cstr "AB").length (Access.readBuf 13) ∧
    (scroll_text_traced (cstr "AB") ⟨zeroState, []⟩).2.length = 70 :=
  ⟨by decide, by decide,
    (C33_scroll_indices_in_bounds (cstr "AB") ⟨zeroState, []⟩).2.2.2.1 _ (by decide),
    (C33_scroll_indices_in_bounds (cstr "AB") ⟨zeroState, []⟩).2.2.2.1 _ (by decide),
    (C33_scroll_indices_in_bounds (cstr "AB") ⟨zeroState, []⟩).2.2.2.2.1⟩

/-! ## `display_num` on negative and on large values -/

theorem neg_tmod_nat (u : Nat) : Int.tmod (-(u : Int)) 10 = -((u % 10 : Nat) : Int) := by
  have h1 := Int.tmod_def (-(u : Int)) 10
  have h2 := Int.tmod_def (u : Int) 10
  have h3 : Int.tmod (u : Int) 10 = ((u % 10 : Nat) : Int) := rfl
  rw [Int.neg_tdiv] at h1
  rw [h1, ← h3, h2]
  omega

theorem neg_tdiv_nat (u : Nat) : Int.tdiv (-(u : Int)) 10 = -((u / 10 : Nat) : Int) := by
  rw [Int.neg_tdiv]
  rfl

theorem digit_char_neg (d : Nat) : digit_char (-(d : Int)) = neg_digit d := by
  unfold digit_char neg_digit
  by_cases hd : d = 0
  · subst hd
    rfl
  · rw [if_neg hd]
    split_ifs <;> omega

theorem num_conv_neg_getD (n : Nat) : ∀ (i u : Nat) (buf : List Nat) (j : Nat),
    i + n ≤ buf.length →
    (num_conv n i (-(u : Int)) buf).getD j 0 =
      if i ≤ j ∧ j < i + n ∧ (j = i ∨ 10 ^ (j - i) ≤ u) then neg_digit (u / 10 ^ (j - i) % 10)
      else buf.getD j 0 := by
  induction n with
  | zero =>
    intro i u buf j _
    have h : ¬ (i ≤ j ∧ j < i + 0 ∧ (j = i ∨ 10 ^ (j - i) ≤ u)) := by omega
    rw [if_neg h]
    rfl
  | succ n ih =>
    intro i u buf j hlen
    have hi : i < buf.length := by omega
    simp only [num_conv, neg_tmod_nat, neg_tdiv_nat, digit_char_neg, Int.neg_eq_zero,
      Int.natCast_eq_zero]
    by_cases hu : u / 10 = 0
    · rw [if_pos hu, getD_set_eq]
      by_cases hji : j = i
      · subst hji
        simp [hi]
      · have hne : ¬ (j = i ∧ i < buf.length) := fun hh => hji hh.1
        have hout : ¬ (i ≤ j ∧ j < i + (n + 1) ∧ (j = i ∨ 10 ^ (j - i) ≤ u)) := by
          rintro ⟨_, _, hc⟩
          rcases hc with hc | hc
          · exact hji hc
          · have hpow : 10 ^ 1 ≤ 10 ^ (j - i) :=
              Nat.pow_le_pow_right (by decide) (by omega)
            omega
        rw [if_neg hne, if_neg hout]
    · rw [if_neg hu, ih (i + 1) (u / 10) _ j (by rw [List.length_set]; omega), getD_set_eq]
      by_cases hji : j = i
      · subst hji
        rw [if_neg (by omega)]
        simp [hi]
      · have hne : ¬ (j = i ∧ i < buf.length) := fun hh => hji hh.1
        rw [if_neg hne]
        by_cases hlt : i < j
        · obtain ⟨k, hk⟩ : ∃ k, j = i + 1 + k := ⟨j - (i + 1), by omega⟩
          subst hk
          have e1 : i + 1 + k - (i + 1) = k := by omega
          have e2 : i + 1 + k - i = k + 1 := by omega
          have hiff : (10 ^ k ≤ u / 10) ↔ (10 ^ (k + 1) ≤ u) := by
            rw [Nat.le_div_iff_mul_le (by decide : 0 < 10), Nat.pow_succ]
          have h10 : k = 0 → 10 ^ (k + 1) ≤ u := by
            intro hk0
            subst hk0
            simp only [Nat.zero_add, Nat.pow_one]
            omega
          rw [e1, e2, Nat.div_div_eq_div_mul, ← Nat.pow_succ']
          by_cases hc : 10 ^ (k + 1) ≤ u
          · by_cases hb : i + 1 + k < i + (n + 1)
            · rw [if_pos ⟨by omega, by omega, Or.inr (hiff.mpr hc)⟩,
                if_pos ⟨by omega, by omega, Or.inr hc⟩]
            · rw [if_neg (by omega), if_neg (by omega)]
          · have hk0 : k ≠ 0 := fun hk0 => hc (h10 hk0)
            have hc2 : ¬ 10 ^ k ≤ u / 10 := fun h => hc (hiff.mp h)
            rw [if_neg (by omega), if_neg (by omega)]
        · rw [if_neg (by omega), if_neg (by omega)]

theorem num_buf_neg_getD (u j : Nat) (hj : j < 6) :
    (num_buf (-(u : Int))).getD j 0 =
      if j = 0 ∨ 10 ^ j ≤ u then neg_digit (u / 10 ^ j % 10) else 32 := by
  unfold num_buf
  rw [num_conv_neg_getD 6 0 u _ j (by simp)]
  simp only [Nat.zero_le, Nat.zero_add, hj, true_and, Nat.sub_zero]
  by_cases h : j = 0 ∨ 10 ^ j ≤ u
  · rw [if_pos h, if_pos h]
  · rw [if_neg h, if_neg h]
    interval_cases j <;> rfl

theorem num_iters_neg (n : Nat) : ∀ u : Nat,
    num_iters n (-(u : Int)) = min n (decDigits u).length := by
  induction n with
  | zero =>
    intro u
    simp [num_iters]
  | succ n ih =>
    intro u
    simp only [num_iters, neg_tdiv_nat, Int.neg_eq_zero, Int.natCast_eq_zero]
    by_cases hu : u / 10 = 0
    · rw [if_pos hu, decDigits_length_small u hu]
      omega
    · rw [if_neg hu, ih (u / 10), decDigits_length_div u hu]
      omega

theorem num_iters_abs (v : Int) : num_iters 6 v = min 6 (decDigits v.natAbs).length := by
  rcases Int.natAbs_eq v with h | h
  · rw [h, Int.natAbs_ofNat]
    exact num_iters_nat 6 _
  · rw [h, Int.natAbs_neg, Int.natAbs_ofNat]
    exact num_iters_neg 6 _

theorem neg_digit_ne_space (d : Nat) : neg_digit d ≠ 32 := by
  unfold neg_digit
  split_ifs <;> decide

theorem num_buf_written (v : Int) (j : Nat) (hj : j < 6) :
    (num_buf v).getD j 0 ≠ 32 ↔ j < num_iters 6 v := by
  have hlt := decDigits_length_lt v.natAbs j
  rw [num_iters_abs]
  rcases Int.natAbs_eq v with h | h
  · rw [h, Int.natAbs_ofNat, num_buf_getD _ j hj]
    by_cases hc : j = 0 ∨ 10 ^ j ≤ v.natAbs
    · rw [if_pos hc]
      have := hlt.mpr hc
      constructor
      · intro _
        omega
      · intro _
        omega
    · rw [if_neg hc]
      have : ¬ j < (decDigits v.natAbs).length := fun hh => hc (hlt.mp hh)
      constructor
      · intro hh
        exact absurd rfl hh
      · intro hh
        omega
  · rw [h, Int.natAbs_neg, Int.natAbs_ofNat, num_buf_neg_getD _ j hj]
    by_cases hc : j = 0 ∨ 10 ^ j ≤ v.natAbs
    · rw [if_pos hc]
      have := hlt.mpr hc
      constructor
      · intro _
        omega
      · intro _
        exact neg_digit_ne_space _
    · rw [if_neg hc]
      have : ¬ j < (decDigits v.natAbs).length := fun hh => hc (hlt.mp hh)
      constructor
      · intro hh
        exact absurd rfl hh
      · intro hh
        omega

/-- C34: `display_num` terminates on every `int` input, negative values included: its
conversion loop runs at most 6 iterations, and writes exactly
min(6, number of decimal digits of |v|) buffer positions (one for `v = 0`). -/
theorem C34_display_num_iterations (v : Int) :
    (1 ≤ num_iters 6 v ∧ num_iters 6 v ≤ 6) ∧
    num_iters 6 v = min 6 (decDigits v.natAbs).length ∧
    num_iters 6 0 = 1 ∧
    (num_buf v).length = 6 ∧
    (∀ j, j < 6 → ((num_buf v).getD j 0 ≠ 32 ↔ j < num_iters 6 v)) := by
  have hk := num_iters_abs v
  have hpos := decDigits_length_pos v.natAbs
  have hlen : (num_buf v).length = 6 := by
    unfold num_buf
    rw [num_conv_length, List.length_replicate]
  refine ⟨⟨by omega, by omega⟩, hk, by decide, hlen, num_buf_written v⟩

/-- C34 at `v = -305`: three iterations, and buffer position 2 is written while
position 3 keeps its space. -/
theorem C34_display_num_iterations_witness :
    num_iters 6 (-305) = 3 ∧ (2 < 6 ∧ 3 < 6) ∧
    (num_buf (-305)).getD 2 0 ≠ 32 ∧ ¬ (num_buf (-305)).getD 3 0 ≠ 32 :=
  ⟨by decide, by decide,
    ((C34_display_num_iterations (-305)).2.2.2.2 2 (by decide)).mpr (by decide),
    fun h => absurd (((C34_display_num_iterations (-305)).2.2.2.2 3 (by decide)).mp h)
      (by decide)⟩

theorem right_aligned_list (f : Nat → Nat × Nat) (u : Nat) (hu : u < 1000000) :
    (List.range 6).map (fun i =>
        if 5 - i = 0 ∨ 10 ^ (5 - i) ≤ u then f (u / 10 ^ (5 - i) % 10) else (0, 0)) =
      List.replicate (6 - (decDigits u).length) (0, 0) ++ (decDigits u).reverse.map f := by
  have hk := decDigits_length_le u hu
  have hk1 := decDigits_length_pos u
  apply List.ext_getElem?
  intro n
  rw [List.getElem?_map, List.getElem?_append, List.length_replicate]
  by_cases hn : n < 6
  · rw [List.getElem?_range hn, Option.map_some']
    by_cases hb : n < 6 - (decDigits u).length
    · have hnot : ¬ (5 - n = 0 ∨ 10 ^ (5 - n) ≤ u) := by
        intro h
        have := (decDigits_length_lt u (5 - n)).mpr h
        omega
      rw [if_pos hb, if_neg hnot, List.getElem?_replicate, if_pos hb]
    · have hyes : 5 - n = 0 ∨ 10 ^ (5 - n) ≤ u :=
        (decDigits_length_lt u (5 - n)).mp (by omega)
      have hidx : (decDigits u).length - 1 - (n - (6 - (decDigits u).length)) = 5 - n := by
        omega
      rw [if_neg hb, if_pos hyes, List.getElem?_map, List.getElem?_reverse (by omega), hidx,
        decDigits_getElem? u (5 - n) (by omega), Option.map_some']
  · have hnone : (List.range 6)[n]? = none := by
      rw [List.getElem?_eq_none]
      simp
      omega
    rw [hnone, if_neg (by omega), Option.map_none', List.getElem?_eq_none]
    rw [List.length_map, List.length_reverse]
    omega

theorem cells6_display_num_neg (u : Nat) (st : LcdState) :
    cells6 (display_num (-(u : Int)) st) =
      (List.range 6).map (fun i =>
        if 5 - i = 0 ∨ 10 ^ (5 - i) ≤ u then
          glyphBytes (symb_val (neg_digit (u / 10 ^ (5 - i) % 10)))
        else (0, 0)) := by
  rw [display_num_eq_print6, cells6_print6]
  unfold windowGlyphs
  apply List.map_congr_left
  intro i hi
  have hi6 : i < 6 := List.mem_range.mp hi
  have hrev : [(num_buf (-(u : Int))).getD 5 0, (num_buf (-(u : Int))).getD 4 0,
      (num_buf (-(u : Int))).getD 3 0, (num_buf (-(u : Int))).getD 2 0,
      (num_buf (-(u : Int))).getD 1 0, (num_buf (-(u : Int))).getD 0 0].getD (0 + i) 0 =
      (num_buf (-(u : Int))).getD (5 - i) 0 := by
    interval_cases i <;> rfl
  rw [hrev, num_buf_neg_getD u (5 - i) (by omega)]
  by_cases h : 5 - i = 0 ∨ 10 ^ (5 - i) ≤ u
  · rw [if_pos h, if_pos h]
  · rw [if_neg h, if_neg h]
    exact symb_val_blank

/-- C35: for every negative value `v` (with C's truncating division and remainder),
`display_num(v)` shows no sign and renders each decimal digit position of |v| as '0'
when that digit is 0 and as '9' otherwise, right-aligned (`display_num(-12)` shows "99"
on A5, A6; `display_num(-10)` shows '9' on A5 and '0' on A6). -/
theorem C35_display_num_negative (v : Int) (st : LcdState) (hv : v < 0) :
    cells6 (display_num v st) =
      (List.range 6).map (fun i =>
        if 5 - i = 0 ∨ 10 ^ (5 - i) ≤ v.natAbs then
          glyphBytes (symb_val (if v.natAbs / 10 ^ (5 - i) % 10 = 0 then 48 else 57))
        else (0, 0)) ∧
    (v.natAbs < 1000000 →
      cells6 (display_num v st) =
        List.replicate (6 - (decDigits v.natAbs).length) (0, 0) ++
          (decDigits v.natAbs).reverse.map
            (fun d => glyphBytes (symb_val (if d = 0 then 48 else 57)))) ∧
    (display_num v st).LCDMEM (LCD_A1 + 1) &&& neg_sym = 0 ∧
    cells6 (display_num (-12) st) =
      [(0, 0), (0, 0), (0, 0), (0, 0), glyphBytes (symb_val 57), glyphBytes (symb_val 57)] ∧
    cells6 (display_num (-10) st) =
      [(0, 0), (0, 0), (0, 0), (0, 0), glyphBytes (symb_val 57), glyphBytes (symb_val 48)] := by
  have hneg : v = -((v.natAbs : Nat) : Int) := by omega
  have hcells : cells6 (display_num v st) =
      (List.range 6).map (fun i =>
        if 5 - i = 0 ∨ 10 ^ (5 - i) ≤ v.natAbs then
          glyphBytes (symb_val (if v.natAbs / 10 ^ (5 - i) % 10 = 0 then 48 else 57))
        else (0, 0)) := by
    have h := cells6_display_num_neg v.natAbs st
    rw [← hneg] at h
    exact h
  refine ⟨hcells, ?_, ?_, ?_, ?_⟩
  · intro hlt
    rw [hcells]
    exact right_aligned_list
      (fun d => glyphBytes (symb_val (if d = 0 then 48 else 57))) v.natAbs hlt
  · exact (display_num_low_clear v st LCD_A1 (by decide)).2.2
  · rw [display_num_eq_print6, cells6_print6]
    decide
  · rw [display_num_eq_print6, cells6_print6]
    decide

/-- C35 at `v = -205` over all-ones memory: A4..A6 show '9', '0', '9', A1..A3 are blank. -/
theorem C35_display_num_negative_witness :
    (-205 : Int) < 0 ∧ (-205 : Int).natAbs < 1000000 ∧
    cells6 (display_num (-205) onesState) =
      [(0, 0), (0, 0), (0, 0), (0xF7, 0x00), (0xFC, 0x28), (0xF7, 0x00)] :=
  ⟨by decide, by decide,
    ((C35_display_num_negative (-205) onesState (by decide)).2.1 (by decide)).trans (by
      have h : decDigits (-205 : Int).natAbs = [5, 0, 2] := by
        norm_num [decDigits]
      rw [h]
      decide)⟩

theorem low_six_digit (v i : Nat) (hi : i < 6) :
    v % 1000000 / 10 ^ (5 - i) % 10 = v / 10 ^ (5 - i) % 10 := by
  interval_cases i <;> norm_num <;> omega

/-- C36: for every value `v ≥ 1000000` (in an `int` wide enough to hold it),
`display_num(v)` shows on A1..A6 exactly the six least-significant decimal digits of
`v`, that is the 6-digit rendering of `v mod 1000000` with leading zeros shown as zero
glyphs rather than blanks; the higher digits are dropped silently. -/
theorem C36_display_num_large (v : Nat) (st : LcdState) (hv : 1000000 ≤ v) :
    cells6 (display_num (v : Int) st) =
      (List.range 6).map (fun i =>
        glyphBytes (digits.getD (v % 1000000 / 10 ^ (5 - i) % 10) 0)) ∧
    (∀ w : Nat, 1000000 ≤ w → w % 1000000 = v % 1000000 →
      cells6 (display_num (w : Int) st) = cells6 (display_num (v : Int) st)) ∧
    (∀ x, x ∈ cells6 (display_num (v : Int) st) → x ≠ (0, 0)) ∧
    num_iters 6 (v : Int) = 6 ∧
    cells6 (display_num 1234567 st) =
      [glyphBytes (symb_val 50), glyphBytes (symb_val 51), glyphBytes (symb_val 52),
       glyphBytes (symb_val 53), glyphBytes (symb_val 54), glyphBytes (symb_val 55)] ∧
    cells6 (display_num 1000007 st) =
      [glyphBytes (symb_val 48), glyphBytes (symb_val 48), glyphBytes (symb_val 48),
       glyphBytes (symb_val 48), glyphBytes (symb_val 48), glyphBytes (symb_val 55)] := by
  have key : ∀ w : Nat, 1000000 ≤ w →
      cells6 (display_num (w : Int) st) =
        (List.range 6).map (fun i =>
          glyphBytes (digits.getD (w % 1000000 / 10 ^ (5 - i) % 10) 0)) := by
    intro w hw
    rw [cells6_display_num_nat]
    apply List.map_congr_left
    intro i hi
    have hi6 : i < 6 := List.mem_range.mp hi
    have hpow : 10 ^ (5 - i) ≤ w := by
      have h1 : 10 ^ (5 - i) ≤ 10 ^ 5 := Nat.pow_le_pow_right (by decide) (by omega)
      have h2 : (10 : Nat) ^ 5 = 100000 := by norm_num
      omega
    rw [if_pos (Or.inr hpow), low_six_digit w i hi6]
  refine ⟨key v hv, ?_, ?_, ?_, ?_, ?_⟩
  · intro w hw hmod
    rw [key w hw, key v hv, hmod]
  · intro x hx
    rw [key v hv, List.mem_map] at hx
    obtain ⟨i, _, hxi⟩ := hx
    rw [← hxi]
    exact digit_glyph_ne_blank _ (Nat.mod_lt _ (by decide))
  · rw [num_iters_nat]
    have h6 : 6 ≤ (decDigits v).length := by
      have h5 := (decDigits_length_lt v 5).mpr (Or.inr (by
        have h2 : (10 : Nat) ^ 5 = 100000 := by norm_num
        omega))
      omega
    omega
  · rw [display_num_eq_print6, cells6_print6]
    decide
  · rw [display_num_eq_print6, cells6_print6]
    decide

/-- C36 at `v = 1000007` and `w = 3000007`: both show "000007". -/
theorem C36_display_num_large_witness :
    (1000000 ≤ 1000007 ∧ 1000000 ≤ 3000007 ∧ 3000007 % 1000000 = 1000007 % 1000000) ∧
    cells6 (display_num 3000007 zeroState) = cells6 (display_num 1000007 zeroState) :=
  ⟨by decide,
    (C36_display_num_large 1000007 zeroState (by decide)).2.1 3000007 (by decide)
      (by decide)⟩

/-- C37: with the target's 16-bit `int`, for every representable non-negative argument
`v` (`0 ≤ v ≤ 32767`) `display_num(v)` produces at most five digits and leaves cell A1
blank, so the documented six-digit output is unreachable and 123456 is not a
representable argument. -/
theorem C37_display_num_int16 (v : Nat) (st : LcdState) (hv : v ≤ 32767) :
    num_iters 6 (v : Int) ≤ 5 ∧
    cellBytes (display_num (v : Int) st) LCD_A1 = (0, 0) ∧
    (cells6 (display_num (v : Int) st)).head? = some (0, 0) ∧
    ¬ ((123456 : Nat) ≤ 32767) ∧
    (32767 : Nat) = 2 ^ 15 - 1 := by
  have hblank : (cells6 (display_num (v : Int) st)).getD 0 (0, 0) = (0, 0) := by
    have hp : (10 : Nat) ^ 5 = 100000 := by norm_num
    have hc : ¬ (5 - 0 = 0 ∨ 10 ^ (5 - 0) ≤ v) := by
      rw [Nat.sub_zero, hp]
      omega
    rw [cells6_display_num_nat, range_map_getD _ _ _ _ (by omega), if_neg hc]
  refine ⟨?_, hblank, ?_, by decide, by decide⟩
  · rw [num_iters_nat]
    have h5 : ¬ 5 < (decDigits v).length := by
      intro h
      rcases (decDigits_length_lt v 5).mp h with h0 | h0
      · exact absurd h0 (by decide)
      · have hp : (10 : Nat) ^ 5 = 100000 := by norm_num
        omega
    omega
  · have h : (cells6 (display_num (v : Int) st)).head? =
        some ((cells6 (display_num (v : Int) st)).getD 0 (0, 0)) := rfl
    rw [h, hblank]

/-- C37 at the largest 16-bit value 32767: five digits, A1 blank. -/
theorem C37_display_num_int16_witness :
    (32767 : Nat) ≤ 32767 ∧ num_iters 6 32767 = 5 ∧
    cellBytes (display_num 32767 onesState) LCD_A1 = (0, 0) :=
  ⟨by decide, by decide, (C37_display_num_int16 32767 onesState (by decide)).2.1⟩

/-! ## `display_msg`: frame -/

/-- C38: for every message `m` and every memory state, `display_msg(m)` changes only the
12 primary bytes of cells A1..A6: the auxiliary cells AT1..AT3, every other primary byte
and all shadow memory are unchanged (unlike `display_num`, it does not clear the
indicators), while every overlay bit previously set in the low bytes of A1..A6 is
overwritten by the glyph's low byte. -/
theorem C38_display_msg_frame (m : List Nat) (st : LcdState) :
    (∀ q, q ∉ primaryBytes → (display_msg m st).LCDMEM q = st.LCDMEM q) ∧
    (∀ a, a ∈ auxCells → (display_msg m st).LCDMEM a = st.LCDMEM a) ∧
    (display_msg m st).LCDBMEM = st.LCDBMEM ∧
    (display_msg m st).LCDCCTL0 = st.LCDCCTL0 ∧
    primaryBytes =
      [LCD_A1, LCD_A1 + 1, LCD_A2, LCD_A2 + 1, LCD_A3, LCD_A3 + 1, LCD_A4, LCD_A4 + 1,
       LCD_A5, LCD_A5 + 1, LCD_A6, LCD_A6 + 1] ∧
    primaryCells.map (fun p => (display_msg m st).LCDMEM (p + 1)) =
      (List.range 6).map (fun i => symb_val ((msg_buf m).getD i 0) &&& 0xFF) ∧
    (∀ st2 : LcdState, cells6 (display_msg m st2) = cells6 (display_msg m st)) := by
  have hother : ∀ q, q ∉ primaryBytes → (display_msg m st).LCDMEM q = st.LCDMEM q := by
    intro q hq
    unfold display_msg
    rw [print6_mem_split, if_neg hq]
  refine ⟨hother, ?_, rfl, rfl, by decide, ?_, ?_⟩
  · intro a ha
    apply hother
    rw [mem_auxCells_iff] at ha
    simp only [primaryBytes, List.mem_cons, List.mem_singleton, List.mem_nil_iff, or_false]
    omega
  · have h := cells6_print6 (msg_buf m) 0 st
    have h2 := congrArg (List.map Prod.snd) h
    simp only [cells6, windowGlyphs, cellBytes, glyphBytes, List.map_map, Nat.zero_add] at h2
    exact h2
  · intro st2
    unfold display_msg
    rw [cells6_print6, cells6_print6]

/-- C38 on "HI" over all-ones memory: the byte of AT1 keeps 0xFF and the low byte of A1
becomes the low byte 0x00 of the glyph of 'H'. -/
theorem C38_display_msg_frame_witness :
    LCD_AT1 ∈ auxCells ∧ LCD_AT1 ∉ primaryBytes ∧
    (display_msg (cstr "HI") onesState).LCDMEM LCD_AT1 = 0xFF ∧
    (display_msg (cstr "HI") onesState).LCDMEM (LCD_A1 + 1) = 0x00 :=
  ⟨by decide, by decide,
    (C38_display_msg_frame (cstr "HI") onesState).2.1 LCD_AT1 (by decide), by decide⟩

end LibLcd
